import Mathlib

/-!
Verification development for the Sub-One subscription converter.

The TypeScript sources under scrutiny are
src/lib/shared/subscription-parser.ts  (class SubscriptionParser),
src/lib/shared/config-generator.ts     (class ConfigGenerator) and
src/src/composables/useManualNodes.ts  (getUniqueKey, deduplicateNodes).

The code is shallowly embedded here:

* strings are Lean `String` and `List Char`;
* JavaScript values flowing through the untyped proxy objects are
  modelled by the inductive `JVal`, with JS truthiness (`jTruthy`),
  property lookup (`jGet`) and property assignment (`jSet`);
* the platform built-ins the code relies on (`atob`, `btoa`,
  `TextEncoder`/`TextDecoder`, `JSON.parse`, `JSON.stringify`,
  WHATWG `new URL` / `URLSearchParams`, `encodeURIComponent`,
  `decodeURIComponent`) are modelled as total/optional Lean functions
  following their specified behaviour (JSON numbers are modelled as
  integers; an `Option` result `none` models a thrown exception);
* `crypto.randomUUID` is modelled by an explicit id supply
  `gen : Nat → String`, the node ids of one strategy invocation being
  `gen 0, gen 1, …`;
* the `js-yaml` library (`yaml.load`) is an external dependency and is
  a parameter of the pipeline; the regular-expression engine used for
  the user-supplied exclude rules is likewise a parameter
  (`rtest pattern input`, the `i` flag being part of its meaning).

Fallible repository functions return `Option`; `none` covers both a
thrown exception and a falsy `''`/`null` result whenever the sole
observable effect at every call site is that the unit is skipped.
-/

namespace SubOne

/-- Character list, the working representation of JS strings. -/
abbrev Str := List Char

/-! ### Small string utilities -/

/-- ASCII lower-casing of one character (JS `toLowerCase` on ASCII). -/
def lowChar (c : Char) : Char :=
  if 'A' ≤ c ∧ c ≤ 'Z' then Char.ofNat (c.toNat + 32) else c

/-- ASCII lower-casing of a string. -/
def lowStr (s : String) : String := ⟨s.data.map lowChar⟩

/-- JS `\s` (the whitespace class used by the parser's regexes),
restricted to its ASCII members. -/
def isJsWs (c : Char) : Bool :=
  c = ' ' ∨ c = '\t' ∨ c = '\n' ∨ c = '\r' ∨ c = '\x0b' ∨ c = '\x0c'

/-- `content.replace(/\s/g, '')`. -/
def stripWs (s : String) : String := ⟨s.data.filter (fun c => !isJsWs c)⟩

/-- JS `String.prototype.trim`. -/
def trimStr (s : String) : String :=
  ⟨(s.data.dropWhile isJsWs).reverse.dropWhile isJsWs |>.reverse⟩

/-- First-occurrence split: `splitFirstC c l = some (before, after)`
when `c` occurs in `l`, split at its first occurrence. -/
def splitFirstC (c : Char) : Str → Option (Str × Str)
  | [] => none
  | x :: xs =>
    if x = c then some ([], xs)
    else match splitFirstC c xs with
      | none => none
      | some (l, r) => some (x :: l, r)

/-- Last-occurrence split, at the last occurrence of `c`. -/
def splitLastC (c : Char) : Str → Option (Str × Str)
  | [] => none
  | x :: xs =>
    match splitLastC c xs with
    | some (l, r) => some (x :: l, r)
    | none => if x = c then some ([], xs) else none

/-- JS `String.prototype.split` on a single character. -/
def splitAllC (c : Char) : Str → List Str
  | [] => [[]]
  | x :: xs =>
    match splitAllC c xs with
    | [] => [[x]]
    | y :: ys => if x = c then [] :: y :: ys else (x :: y) :: ys

/-- Intersperse the character `c` between the pieces and flatten. -/
def joinC (c : Char) : List Str → Str
  | [] => []
  | [x] => x
  | x :: xs => x ++ c :: joinC c xs

/-- Substring containment (JS `String.prototype.includes`). -/
def containsSub (pat : Str) : Str → Bool
  | [] => pat.isEmpty
  | x :: xs => pat.isPrefixOf (x :: xs) || containsSub pat xs

/-- JS `String.prototype.includes` on `String`. -/
def strIncludes (s pat : String) : Bool := containsSub pat.data s.data

/-- JS `String.prototype.startsWith` on `String`. -/
def strStarts (s pat : String) : Bool := pat.data.isPrefixOf s.data

/-- JS `String.prototype.substring(n)` on `String`. -/
def strDrop (s : String) (n : Nat) : String := ⟨s.data.drop n⟩

/-! ### Decimal numerals -/

/-- One decimal digit. -/
def digitCh : Nat → Char
  | 0 => '0' | 1 => '1' | 2 => '2' | 3 => '3' | 4 => '4'
  | 5 => '5' | 6 => '6' | 7 => '7' | 8 => '8' | _ => '9'

/-- Fueled decimal rendering (most significant digit first). -/
def natReprAux : Nat → Nat → Str
  | 0, _ => []
  | fuel + 1, n =>
    if n < 10 then [digitCh n]
    else natReprAux fuel (n / 10) ++ [digitCh (n % 10)]

/-- Decimal rendering of a natural number (the model of JS number →
string coercion for the non-negative integers this code handles). -/
def natStr (n : Nat) : String := ⟨natReprAux (n + 1) n⟩

/-- Accumulating decimal parse; fails on a non-digit. -/
def digitsToNatAux (acc : Nat) : Str → Option Nat
  | [] => some acc
  | c :: cs =>
    if c.isDigit then digitsToNatAux (acc * 10 + (c.toNat - 48)) cs else none

/-- Decimal parse of a non-empty all-digit string. -/
def digitsToNat (l : Str) : Option Nat :=
  if l.isEmpty then none else digitsToNatAux 0 l

/-- The model of JS `Number(s)` on the port strings this code meets:
`Number('') = 0`, digits parse as decimal, anything else is `NaN`
(modelled as 0, which the `|| 443` fallbacks treat the same way). -/
def jsNumberOfStr (s : String) : Nat :=
  if s.data.isEmpty then 0 else (digitsToNat s.data).getD 0

/-! ### Base64 (`btoa` / `atob`) -/

/-- The base64 alphabet. -/
def b64Alpha : Str :=
  "ABCDEFGHIJKLMNOPQRSTUVWXYZabcdefghijklmnopqrstuvwxyz0123456789+/".data

/-- Character of a 6-bit value. -/
def b64Ch (n : Nat) : Char := b64Alpha.getD n 'A'

/-- 6-bit value of a base64 character. -/
def b64Val (c : Char) : Option Nat := b64Alpha.indexOf? c

/-- `btoa` on a byte list (always defined on bytes). -/
def btoaBytes : List Nat → Str
  | [] => []
  | [b0] => [b64Ch (b0 / 4), b64Ch (b0 % 4 * 16), '=', '=']
  | [b0, b1] => [b64Ch (b0 / 4), b64Ch (b0 % 4 * 16 + b1 / 16), b64Ch (b1 % 16 * 4), '=']
  | b0 :: b1 :: b2 :: rest =>
    b64Ch (b0 / 4) :: b64Ch (b0 % 4 * 16 + b1 / 16) ::
    b64Ch (b1 % 16 * 4 + b2 / 64) :: b64Ch (b2 % 64) :: btoaBytes rest

/-- JS `btoa`: the argument must be latin-1; result is base64 text. -/
def btoaStr (s : String) : Option String :=
  if s.data.all (fun c => c.toNat ≤ 255) then some ⟨btoaBytes (s.data.map Char.toNat)⟩
  else none

/-- Strip up to two trailing `=` characters. -/
def stripB64Pad (l : Str) : Str :=
  match l.reverse with
  | a :: b :: rest =>
    if a = '=' then (if b = '=' then rest.reverse else (b :: rest).reverse) else l
  | [a] => if a = '=' then [] else l
  | [] => l

/-- Decode a list of 6-bit values into bytes (leftover bits of a
2- or 3-character final quantum are discarded, as forgiving base64
prescribes). -/
def b64DecodeVals : List Nat → List Nat
  | v0 :: v1 :: v2 :: v3 :: rest =>
    (v0 * 4 + v1 / 16) :: (v1 % 16 * 16 + v2 / 4) :: (v2 % 4 * 64 + v3) ::
    b64DecodeVals rest
  | [v0, v1] => [v0 * 4 + v1 / 16]
  | [v0, v1, v2] => [v0 * 4 + v1 / 16, v1 % 16 * 16 + v2 / 4]
  | _ => []

/-- WHATWG ASCII whitespace (stripped by forgiving base64). -/
def isAsciiWs (c : Char) : Bool :=
  c = ' ' ∨ c = '\t' ∨ c = '\n' ∨ c = '\r' ∨ c = '\x0c'

/-- The whitespace-strip and padding-strip phase of forgiving
base64. -/
def atobClean (l : Str) : Str :=
  if (l.filter (fun c => !isAsciiWs c)).length % 4 = 0 then
    stripB64Pad (l.filter (fun c => !isAsciiWs c))
  else l.filter (fun c => !isAsciiWs c)

/-- Look up every character in the base64 alphabet, failing on the
first foreign character. -/
def b64Vals : Str → Option (List Nat)
  | [] => some []
  | c :: cs =>
    match b64Val c, b64Vals cs with
    | some v, some vs => some (v :: vs)
    | _, _ => none

/-- The validation/decode phase of forgiving base64. -/
def atobCore (cs : Str) : Option String :=
  if cs.length % 4 = 1 then none
  else
    match b64Vals cs with
    | none => none
    | some vals => some ⟨(b64DecodeVals vals).map Char.ofNat⟩

/-- JS `atob` (forgiving base64): strip ASCII whitespace, strip the
padding when the length is a multiple of four, fail on a leftover
length of one or on any character outside the alphabet, otherwise
decode; the result is a latin-1 string of the decoded bytes. -/
def atobStr (s : String) : Option String := atobCore (atobClean s.data)

/-! ### UTF-8 -/

/-- UTF-8 encoding of one scalar value. -/
def utf8Ch (c : Char) : List Nat :=
  let n := c.toNat
  if n < 0x80 then [n]
  else if n < 0x800 then [0xC0 + n / 64, 0x80 + n % 64]
  else if n < 0x10000 then [0xE0 + n / 4096, 0x80 + n / 64 % 64, 0x80 + n % 64]
  else [0xF0 + n / 262144, 0x80 + n / 4096 % 64, 0x80 + n / 64 % 64, 0x80 + n % 64]

/-- UTF-8 encoding of a string (the model of `TextEncoder.encode`). -/
def utf8Enc (s : String) : List Nat := (s.data.map utf8Ch).flatten

/-- Is a byte a UTF-8 continuation byte? -/
def isCont (b : Nat) : Bool := 0x80 ≤ b ∧ b ≤ 0xBF

/-- Replacement-character decoding of UTF-8 bytes (the model of a
non-fatal `TextDecoder`): malformed sequences yield U+FFFD. -/
def utf8DecAux : Nat → List Nat → Str
  | 0, _ => []
  | _, [] => []
  | fuel + 1, b :: rest =>
    if b < 0x80 then Char.ofNat b :: utf8DecAux fuel rest
    else if 0xC2 ≤ b ∧ b ≤ 0xDF then
      match rest with
      | b1 :: r2 =>
        if isCont b1 then Char.ofNat ((b - 0xC0) * 64 + (b1 - 0x80)) :: utf8DecAux fuel r2
        else '�' :: utf8DecAux fuel rest
      | [] => ['�']
    else if 0xE0 ≤ b ∧ b ≤ 0xEF then
      match rest with
      | b1 :: b2 :: r3 =>
        if isCont b1 ∧ isCont b2 ∧ (b ≠ 0xE0 ∨ b1 ≥ 0xA0) ∧ (b ≠ 0xED ∨ b1 ≤ 0x9F) then
          Char.ofNat ((b - 0xE0) * 4096 + (b1 - 0x80) * 64 + (b2 - 0x80)) :: utf8DecAux fuel r3
        else '�' :: utf8DecAux fuel rest
      | _ => ['�']
    else if 0xF0 ≤ b ∧ b ≤ 0xF4 then
      match rest with
      | b1 :: b2 :: b3 :: r4 =>
        if isCont b1 ∧ isCont b2 ∧ isCont b3 ∧ (b ≠ 0xF0 ∨ b1 ≥ 0x90) ∧ (b ≠ 0xF4 ∨ b1 ≤ 0x8F) then
          Char.ofNat ((b - 0xF0) * 262144 + (b1 - 0x80) * 4096 + (b2 - 0x80) * 64 + (b3 - 0x80)) ::
          utf8DecAux fuel r4
        else '�' :: utf8DecAux fuel rest
      | _ => ['�']
    else '�' :: utf8DecAux fuel rest

/-- Replacement decoding of a byte list. -/
def utf8DecReplace (bs : List Nat) : Str := utf8DecAux (bs.length + 1) bs

/-- Strict UTF-8 decoding; `none` on any malformed byte. -/
def utf8DecStrictAux : Nat → List Nat → Option Str
  | 0, _ => some []
  | _, [] => some []
  | fuel + 1, b :: rest =>
    if b < 0x80 then (utf8DecStrictAux fuel rest).map (Char.ofNat b :: ·)
    else if 0xC2 ≤ b ∧ b ≤ 0xDF then
      match rest with
      | b1 :: r2 =>
        if isCont b1 then (utf8DecStrictAux fuel r2).map (Char.ofNat ((b - 0xC0) * 64 + (b1 - 0x80)) :: ·)
        else none
      | [] => none
    else if 0xE0 ≤ b ∧ b ≤ 0xEF then
      match rest with
      | b1 :: b2 :: r3 =>
        if isCont b1 ∧ isCont b2 ∧ (b ≠ 0xE0 ∨ b1 ≥ 0xA0) ∧ (b ≠ 0xED ∨ b1 ≤ 0x9F) then
          (utf8DecStrictAux fuel r3).map
            (Char.ofNat ((b - 0xE0) * 4096 + (b1 - 0x80) * 64 + (b2 - 0x80)) :: ·)
        else none
      | _ => none
    else if 0xF0 ≤ b ∧ b ≤ 0xF4 then
      match rest with
      | b1 :: b2 :: b3 :: r4 =>
        if isCont b1 ∧ isCont b2 ∧ isCont b3 ∧ (b ≠ 0xF0 ∨ b1 ≥ 0x90) ∧ (b ≠ 0xF4 ∨ b1 ≤ 0x8F) then
          (utf8DecStrictAux fuel r4).map
            (Char.ofNat ((b - 0xF0) * 262144 + (b1 - 0x80) * 4096 + (b2 - 0x80) * 64 + (b3 - 0x80)) :: ·)
        else none
      | _ => none
    else none

/-- Strict decoding of a byte list. -/
def utf8DecStrict (bs : List Nat) : Option Str := utf8DecStrictAux (bs.length + 1) bs

/-- `encodeBase64` of the parser: UTF-8 encode, then `btoa`
(the byte string is always latin-1, so this is total). -/
def encodeBase64 (s : String) : String := ⟨btoaBytes (utf8Enc s)⟩

/-- `decodeBase64` of the parser: `atob`, then a non-fatal UTF-8
`TextDecoder` (which never throws, so the code's fallback to a second
`atob` call is unreachable); `none` models the `atob` exception. -/
def decodeBase64 (s : String) : Option String :=
  (atobStr s).map (fun lat => ⟨utf8DecReplace (lat.data.map Char.toNat)⟩)

/-! ### Percent encodings -/

/-- Is the character a hexadecimal digit? -/
def isHexCh (c : Char) : Bool :=
  c.isDigit ∨ ('a' ≤ c ∧ c ≤ 'f') ∨ ('A' ≤ c ∧ c ≤ 'F')

/-- Value of a hexadecimal digit. -/
def hexVal (c : Char) : Nat :=
  if c.isDigit then c.toNat - 48
  else if 'a' ≤ c ∧ c ≤ 'f' then c.toNat - 87
  else c.toNat - 55

/-- Upper-case hexadecimal digit of a value below 16. -/
def hexCh (n : Nat) : Char := "0123456789ABCDEF".data.getD n '0'

/-- `%XX` escape of one byte. -/
def pctByte (b : Nat) : Str := ['%', hexCh (b / 16), hexCh (b % 16)]

/-- Characters that `application/x-www-form-urlencoded` serialising
leaves unescaped. -/
def isFormSafe (c : Char) : Bool :=
  c.isAlphanum ∨ c = '*' ∨ c = '-' ∨ c = '.' ∨ c = '_'

/-- Form-urlencoded escaping of one character. -/
def formEncCh (c : Char) : Str :=
  if isFormSafe c then [c]
  else if c = ' ' then ['+']
  else ((utf8Ch c).map pctByte).flatten

/-- Form-urlencoded escaping of a string (`URLSearchParams` output). -/
def formEnc (s : Str) : Str := (s.map formEncCh).flatten

/-- Fueled percent-and-plus decoding into bytes; an invalid `%`
sequence is kept literally, as `URLSearchParams` prescribes. -/
def formDecBytesF : Nat → Str → List Nat
  | 0, _ => []
  | _, [] => []
  | fuel + 1, c :: rest =>
    if c = '+' then 0x20 :: formDecBytesF fuel rest
    else if c = '%' then
      match rest with
      | h1 :: h2 :: rest2 =>
        if isHexCh h1 ∧ isHexCh h2 then (hexVal h1 * 16 + hexVal h2) :: formDecBytesF fuel rest2
        else utf8Ch '%' ++ formDecBytesF fuel rest
      | short => utf8Ch '%' ++ formDecBytesF fuel short
    else utf8Ch c ++ formDecBytesF fuel rest

/-- Percent-and-plus decoding of a whole segment. -/
def formDecBytes (l : Str) : List Nat := formDecBytesF l.length l

/-- Form-urlencoded decoding of a string. -/
def formDec (s : Str) : Str := utf8DecReplace (formDecBytes s)

/-- Characters the userinfo percent-encode set of the URL standard
escapes when a URL is parsed. -/
def inUserinfoSet (c : Char) : Bool :=
  c.toNat ≤ 0x20 ∨ 0x7E < c.toNat ∨
  c ∈ ['"', '#', '<', '>', '?', '`', '\x7b', '\x7d', '/', ':', ';', '=', '@', '[', '\\', ']', '^', '|']

/-- Userinfo percent-encoding applied by the URL parser to the
username and password (existing `%` signs are kept). -/
def userinfoEnc (s : Str) : Str :=
  (s.map (fun c => if inUserinfoSet c then ((utf8Ch c).map pctByte).flatten else [c])).flatten

/-- Escaping of a fragment/opaque-host character (C0 controls and
non-ASCII only; ASCII printable characters pass through). -/
def c0Enc (s : Str) : Str :=
  (s.map (fun c => if c.toNat < 0x20 ∨ 0x7E < c.toNat then ((utf8Ch c).map pctByte).flatten else [c])).flatten

/-- JS `encodeURIComponent`. -/
def encodeURIComponentStr (s : String) : String :=
  ⟨(s.data.map (fun c =>
      if c.isAlphanum ∨ c ∈ ['-', '_', '.', '!', '~', '*', '\'', '(', ')'] then [c]
      else ((utf8Ch c).map pctByte).flatten)).flatten⟩

/-- JS `decodeURIComponent`; `none` models the `URIError`. -/
def decodeURIComponentAux : Nat → Str → Option (List Nat)
  | 0, _ => some []
  | _, [] => some []
  | fuel + 1, '%' :: h1 :: h2 :: rest =>
    if isHexCh h1 ∧ isHexCh h2 then
      (decodeURIComponentAux fuel rest).map ((hexVal h1 * 16 + hexVal h2) :: ·)
    else none
  | _ + 1, '%' :: _ => none
  | fuel + 1, c :: rest => (decodeURIComponentAux fuel rest).map (utf8Ch c ++ ·)

/-- JS `decodeURIComponent` on `String`. -/
def decodeURIComponentStr (s : String) : Option String :=
  match decodeURIComponentAux (s.data.length + 1) s.data with
  | none => none
  | some bs =>
    match utf8DecStrict bs with
    | none => none
    | some cs => some ⟨cs⟩

/-! ### The JS value model

`JVal` models the JSON-like values the untyped proxy objects carry.
JSON numbers are modelled as integers (the configurations this code
handles use integral ports/ids only). -/

inductive JVal where
  | jNull
  | jBool (b : Bool)
  | jNum (n : Int)
  | jStr (s : String)
  | jArr (elems : List JVal)
  | jObj (fields : List (String × JVal))

open JVal

/-- Property read on an object field list (JS objects built by
`JSON.parse` / object literals have unique keys). -/
def jGetF (fields : List (String × JVal)) (k : String) : Option JVal :=
  match fields with
  | [] => none
  | (k', v) :: rest => if k' = k then some v else jGetF rest k

/-- Property read `o[k]`; `none` models `undefined`. -/
def jGet (v : JVal) (k : String) : Option JVal :=
  match v with
  | jObj fields => jGetF fields k
  | _ => none

/-- Property write on a field list: assignment to an existing key
keeps its position, a new key is appended (JS insertion order). -/
def jSetF (fields : List (String × JVal)) (k : String) (v : JVal) :
    List (String × JVal) :=
  match fields with
  | [] => [(k, v)]
  | (k', v') :: rest => if k' = k then (k, v) :: rest else (k', v') :: jSetF rest k v

/-- Property write `o[k] = v` (on non-objects a no-op, as in
non-strict property assignment to a primitive wrapper). -/
def jSet (o : JVal) (k : String) (v : JVal) : JVal :=
  match o with
  | jObj fields => jObj (jSetF fields k v)
  | other => other

/-- Property delete on a field list. -/
def jDelF (fields : List (String × JVal)) (k : String) : List (String × JVal) :=
  fields.filter (fun kv => kv.1 ≠ k)

/-- JS truthiness of a possibly-undefined value. -/
def jTruthy : Option JVal → Bool
  | none => false
  | some jNull => false
  | some (jBool b) => b
  | some (jNum n) => n ≠ 0
  | some (jStr s) => s ≠ ""
  | some (jArr _) => true
  | some (jObj _) => true

/-- JS `a || b` on values. -/
def jOr (a b : Option JVal) : Option JVal := if jTruthy a then a else b

/-- Decimal rendering of an integer. -/
def intStr (i : Int) : String :=
  if i < 0 then ⟨'-' :: (natStr i.natAbs).data⟩ else natStr i.natAbs

mutual

/-- JS string coercion (template literals) of a value. -/
def jToStr : JVal → String
  | jNull => "null"
  | jBool b => if b then "true" else "false"
  | jNum n => intStr n
  | jStr s => s
  | jArr xs => ⟨joinC ',' (jToStrList xs)⟩
  | jObj _ => "[object Object]"

/-- Elementwise coercion (JS `Array.prototype.toString`). -/
def jToStrList : List JVal → List Str
  | [] => []
  | x :: xs => (jToStr x).data :: jToStrList xs

end

/-- Coercion of a possibly-undefined value, defaulting like
`${undefined}` would (the embedded code never reaches that case on
the inputs the theorems quantify over). -/
def jToStrOpt : Option JVal → String
  | none => "undefined"
  | some v => jToStr v

/-- The string content of a value, when it is a string. -/
def asStr : Option JVal → Option String
  | some (jStr s) => some s
  | _ => none

/-! ### JSON.stringify -/

/-- Lower-case hexadecimal digit. -/
def hexChL (n : Nat) : Char := "0123456789abcdef".data.getD n '0'

/-- JSON string escaping of one character. -/
def jsonEscCh (c : Char) : Str :=
  if c = '"' then ['\\', '"']
  else if c = '\\' then ['\\', '\\']
  else if c = '\n' then ['\\', 'n']
  else if c = '\r' then ['\\', 'r']
  else if c = '\t' then ['\\', 't']
  else if c = '\x08' then ['\\', 'b']
  else if c = '\x0c' then ['\\', 'f']
  else if c.toNat < 0x20 then
    ['\\', 'u', '0', '0', hexChL (c.toNat / 16), hexChL (c.toNat % 16)]
  else [c]

/-- JSON string literal of a string. -/
def jsonQuote (s : String) : Str := '"' :: (s.data.map jsonEscCh).flatten ++ ['"']

mutual

/-- `JSON.stringify` of a value (no indentation, insertion order). -/
def stringifyJ : JVal → Str
  | jNull => "null".data
  | jBool b => if b then "true".data else "false".data
  | jNum n => (intStr n).data
  | jStr s => jsonQuote s
  | jArr xs => '[' :: joinC ',' (stringifyArr xs) ++ [']']
  | jObj fields => '\x7b' :: joinC ',' (stringifyFields fields) ++ ['\x7d']

/-- Elementwise serialisation of an array. -/
def stringifyArr : List JVal → List Str
  | [] => []
  | x :: xs => stringifyJ x :: stringifyArr xs

/-- Fieldwise serialisation of an object. -/
def stringifyFields : List (String × JVal) → List Str
  | [] => []
  | (k, v) :: rest => (jsonQuote k ++ ':' :: stringifyJ v) :: stringifyFields rest

end

/-- `JSON.stringify` returning a `String`. -/
def jsonStringify (v : JVal) : String := ⟨stringifyJ v⟩

/-! ### JSON.parse -/

/-- Combine an object field with the fields parsed after it: a later
duplicate key wins on value but the first occurrence keeps its
position (JS property-assignment order for duplicate JSON keys). -/
def consField (k : String) (v : JVal) (rest : List (String × JVal)) :
    List (String × JVal) :=
  (k, (jGetF rest k).getD v) :: jDelF rest k

/-- JSON whitespace. -/
def isJsonWs (c : Char) : Bool := c = ' ' ∨ c = '\t' ∨ c = '\n' ∨ c = '\r'

/-- Skip JSON whitespace. -/
def skipWsJ (l : Str) : Str := l.dropWhile isJsonWs

/-- Parse the body of a JSON string literal after the opening quote;
returns the characters and the remainder after the closing quote. -/
def parseJStr : Nat → Str → Option (Str × Str)
  | 0, _ => none
  | _, [] => none
  | fuel + 1, c :: rest =>
    if c = '"' then some ([], rest)
    else if c = '\\' then
      match rest with
      | 'u' :: h1 :: h2 :: h3 :: h4 :: r =>
        if isHexCh h1 ∧ isHexCh h2 ∧ isHexCh h3 ∧ isHexCh h4 then
          let n := ((hexVal h1 * 16 + hexVal h2) * 16 + hexVal h3) * 16 + hexVal h4
          (parseJStr fuel r).map (fun (s, r') => (Char.ofNat n :: s, r'))
        else none
      | e :: r =>
        let dec : Option Char :=
          if e = '"' then some '"' else if e = '\\' then some '\\'
          else if e = '/' then some '/' else if e = 'b' then some '\x08'
          else if e = 'f' then some '\x0c' else if e = 'n' then some '\n'
          else if e = 'r' then some '\r' else if e = 't' then some '\t'
          else none
        match dec with
        | some d => (parseJStr fuel r).map (fun (s, r') => (d :: s, r'))
        | none => none
      | [] => none
    else if c.toNat < 0x20 then none
    else (parseJStr fuel rest).map (fun (s, r') => (c :: s, r'))

mutual

/-- Fueled JSON value parser (numbers restricted to integers). -/
def parseJVal : Nat → Str → Option (JVal × Str)
  | 0, _ => none
  | fuel + 1, l =>
    match skipWsJ l with
    | [] => none
    | c :: rest =>
      if c = '"' then (parseJStr fuel rest).map (fun (s, r) => (jStr ⟨s⟩, r))
      else if c = '\x7b' then
        match skipWsJ rest with
        | '\x7d' :: r => some (jObj [], r)
        | r2 => (parseJFields fuel r2).map (fun (fs, r) => (jObj fs, r))
      else if c = '[' then
        match skipWsJ rest with
        | ']' :: r => some (jArr [], r)
        | r2 => (parseJElems fuel r2).map (fun (xs, r) => (jArr xs, r))
      else if c = 't' then
        if "rue".data.isPrefixOf rest then some (jBool true, rest.drop 3) else none
      else if c = 'f' then
        if "alse".data.isPrefixOf rest then some (jBool false, rest.drop 4) else none
      else if c = 'n' then
        if "ull".data.isPrefixOf rest then some (jNull, rest.drop 3) else none
      else if c = '-' then
        match rest.takeWhile Char.isDigit, rest.dropWhile Char.isDigit with
        | [], _ => none
        | ds, r => (digitsToNat ds).map (fun n => (jNum (-(n : Int)), r))
      else if c.isDigit then
        match (c :: rest).takeWhile Char.isDigit, (c :: rest).dropWhile Char.isDigit with
        | ds, r => (digitsToNat ds).map (fun n => (jNum (n : Int), r))
      else none

/-- Parse the fields of an object (after any leading whitespace),
starting at the first key; duplicate keys overwrite in place. -/
def parseJFields : Nat → Str → Option (List (String × JVal) × Str)
  | 0, _ => none
  | fuel + 1, l =>
    match l with
    | '"' :: rest =>
      match parseJStr fuel rest with
      | none => none
      | some (k, r1) =>
        match skipWsJ r1 with
        | ':' :: r2 =>
          match parseJVal fuel r2 with
          | none => none
          | some (v, r3) =>
            match skipWsJ r3 with
            | ',' :: r4 =>
              (parseJFields fuel (skipWsJ r4)).map
                (fun (fs, r) => (consField ⟨k⟩ v fs, r))
            | '\x7d' :: r4 => some ([(⟨k⟩, v)], r4)
            | _ => none
        | _ => none
    | _ => none

/-- Parse the elements of an array, starting at the first element. -/
def parseJElems : Nat → Str → Option (List JVal × Str)
  | 0, _ => none
  | fuel + 1, l =>
    match parseJVal fuel l with
    | none => none
    | some (v, r1) =>
      match skipWsJ r1 with
      | ',' :: r2 => (parseJElems fuel r2).map (fun (xs, r) => (v :: xs, r))
      | ']' :: r2 => some ([v], r2)
      | _ => none

end

/-! ### The WHATWG URL model

`parseURL` models `new URL(s)` for the non-special `scheme://…` URIs
this repository builds and consumes (scheme, optional userinfo,
opaque host, optional port, query, fragment; the path is not used by
the embedded code). `none` models the thrown `TypeError`. -/

structure URLRec where
  scheme : String
  username : String
  password : String
  host : String
  port : String
  query : String
  fragment : String

/-- Scheme well-formedness. -/
def validSchemeCs : Str → Bool
  | [] => false
  | c :: cs => c.isAlpha && cs.all (fun c => c.isAlphanum ∨ c = '+' ∨ c = '-' ∨ c = '.')

/-- Forbidden host code points of the URL standard. -/
def forbiddenHostCh (c : Char) : Bool :=
  c ∈ ['\x00', '\t', '\n', '\r', ' ', '#', '/', ':', '<', '>', '?', '@', '[', '\\', ']', '^', '|']

/-- Port string: empty, or decimal digits of a value at most 65535
(normalised, as `url.port` is). -/
def portOf (ds : Str) : Option String :=
  if ds.isEmpty then some ""
  else if ds.all Char.isDigit then
    match digitsToNat ds with
    | some n => if n ≤ 65535 then some (natStr n) else none
    | none => none
  else none

/-- Host and port of the part of the authority after the userinfo. -/
def parseHostPort (l : Str) : Option (String × String) :=
  match l with
  | '[' :: rest =>
    match splitFirstC ']' rest with
    | none => none
    | some (inside, after) =>
      match after with
      | [] => some (⟨'[' :: inside ++ [']']⟩, "")
      | ':' :: ds => (portOf ds).map (fun p => (⟨'[' :: inside ++ [']']⟩, p))
      | _ => none
  | _ =>
    match splitFirstC ':' l with
    | none => if l.all (fun c => !forbiddenHostCh c) then some (⟨c0Enc l⟩, "") else none
    | some (h, ds) =>
      if h.all (fun c => !forbiddenHostCh c) then (portOf ds).map (fun p => (⟨c0Enc h⟩, p))
      else none

/-- The model of `new URL(s)`. -/
def parseURL (s : String) : Option URLRec :=
  match splitFirstC ':' s.data with
  | none => none
  | some (sch, rest) =>
    if validSchemeCs sch then
      match rest with
      | '/' :: '/' :: rest2 =>
        let hp := match splitFirstC '#' rest2 with
          | some (b, f) => (b, f)
          | none => (rest2, [])
        let qp := match splitFirstC '?' hp.1 with
          | some (b, q) => (b, q)
          | none => (hp.1, [])
        let auth := qp.1.takeWhile (fun c => c ≠ '/')
        match splitLastC '@' auth with
        | some (ui, hostport) =>
          let up := match splitFirstC ':' ui with
            | some (u, p) => (u, p)
            | none => (ui, [])
          (parseHostPort hostport).map (fun (h, po) =>
            { scheme := ⟨sch.map lowChar⟩, username := ⟨userinfoEnc up.1⟩,
              password := ⟨userinfoEnc up.2⟩, host := h, port := po,
              query := ⟨qp.2⟩, fragment := ⟨hp.2⟩ })
        | none =>
          (parseHostPort auth).map (fun (h, po) =>
            { scheme := ⟨sch.map lowChar⟩, username := "", password := "",
              host := h, port := po, query := ⟨qp.2⟩, fragment := ⟨hp.2⟩ })
      | _ => none
    else none

/-! ### URLSearchParams -/

/-- One `k=v` segment of a query string. -/
def parseQuerySeg (seg : Str) : String × String :=
  match splitFirstC '=' seg with
  | some kv => (⟨formDec kv.1⟩, ⟨formDec kv.2⟩)
  | none => (⟨formDec seg⟩, "")

/-- Parse a query string into key/value pairs (`URLSearchParams`:
split on `&`, drop empty segments, split each at the first `=`,
form-urlencoded decode both sides). -/
def parseQueryStr (q : Str) : List (String × String) :=
  ((splitAllC '&' q).filter (fun seg => !seg.isEmpty)).map parseQuerySeg

/-- `params.get k` (first match; `none` models `null`). -/
def paramsGet (ps : List (String × String)) (k : String) : Option String :=
  match ps with
  | [] => none
  | (k', v) :: rest => if k' = k then some v else paramsGet rest k

/-- `params.has k`. -/
def paramsHas (ps : List (String × String)) (k : String) : Bool :=
  (paramsGet ps k).isSome

/-- `params.set k v`: replace in place or append. -/
def paramsSet (ps : List (String × String)) (k v : String) : List (String × String) :=
  match ps with
  | [] => [(k, v)]
  | (k', v') :: rest => if k' = k then (k, v) :: rest else (k', v') :: paramsSet rest k v

/-- `params.toString()`: form-urlencoded serialisation. -/
def renderQuery (ps : List (String × String)) : Str :=
  joinC '&' (ps.map (fun kv => formEnc kv.1.data ++ '=' :: formEnc kv.2.data))

/-- The search parameters of a parsed URL. -/
def urlParams (u : URLRec) : List (String × String) := parseQueryStr u.query.data

/-! ### JSON.parse / helper wrappers -/

/-- `JSON.parse`: parse a complete document (trailing whitespace
allowed); `none` models the thrown `SyntaxError`. -/
def parseJSON (s : String) : Option JVal :=
  match parseJVal (2 * s.data.length + 2) s.data with
  | some (v, rest) => if skipWsJ rest = [] then some v else none
  | none => none

/-- First `pat` occurrence split (lazy-regex behaviour of
`/^(.*?):\/\//`-style prefixes). -/
def splitFirstSub (pat : Str) : Str → Option (Str × Str)
  | [] => if pat.isEmpty then some ([], []) else none
  | x :: xs =>
    if pat.isPrefixOf (x :: xs) then some ([], (x :: xs).drop pat.length)
    else (splitFirstSub pat xs).map (fun (l, r) => (x :: l, r))

/-- Suffixes following each occurrence of `pat`, leftmost first
(the candidate match positions of an unanchored regex). -/
def subOccurrences (pat : Str) : Str → List Str
  | [] => []
  | x :: xs =>
    (if pat.isPrefixOf (x :: xs) then [(x :: xs).drop pat.length] else []) ++
    subOccurrences pat xs

/-! ### The Node record and ProcessOptions (src/lib/shared/types.ts) -/

structure Node where
  id : String
  name : String
  url : String
  protocol : String
  enabled : Bool
  typ : String
  subscriptionName : String
  originalProxy : Option JVal := none

structure ProcessOptions where
  exclude : Option String := none
  prependSubName : Bool := false

/-! ### SubscriptionParser: node-line recognition -/

/-- `supportedProtocols` of the parser's constructor, in order. -/
def supportedProtocols : List String :=
  ["ss", "ssr", "vmess", "vless", "trojan",
   "hysteria", "hysteria2", "hy", "hy2",
   "tuic", "anytls", "socks", "socks5", "http", "https"]

/-- The capture of `^(ss|ssr|…)://` with the `i` flag on a trimmed
line: the first alternative that is followed by `://`, compared
case-insensitively (the `://` anchor makes order immaterial). -/
def matchProto (l : Str) : Option String :=
  supportedProtocols.find? (fun p => (p.data ++ "://".data).isPrefixOf (l.map lowChar))

/-- `isNodeUrl`. -/
def isNodeUrl (line : String) : Bool := (matchProto (trimStr line).data).isSome

/-- `extractNodeNameFromUrl`, VMess handler. -/
def vmessNameOf (url : String) : String :=
  match decodeBase64 (strDrop url 8) with
  | none => "VMess节点"
  | some dec =>
    match parseJSON dec with
    | none => "VMess节点"
    | some cfg =>
      let v := jOr (jGet cfg "ps") (jGet cfg "add")
      if jTruthy v then jToStrOpt v else "VMess节点"

/-- One candidate of `/.*@([^:]+):/` after a fixed `@`: a non-empty
run of non-colon characters followed by `:`. -/
def vlessCapture (r : Str) : Option Str :=
  let h := r.takeWhile (fun c => c ≠ ':')
  if h.isEmpty then none
  else match r.drop h.length with
    | ':' :: _ => some h
    | _ => none

/-- Suffixes after each `@`, left to right. -/
def atSuffixes : Str → List Str
  | [] => []
  | '@' :: r => r :: atSuffixes r
  | _ :: r => atSuffixes r

/-- `extractNodeNameFromUrl`, VLESS handler: the host captured by
`/vless:\/\/.*@([^:]+):/` (greedy `.*`, so the last feasible `@` of
the leftmost feasible occurrence of the literal). -/
def vlessNameOf (url : String) : String :=
  let cands := (subOccurrences "vless://".data url.data).map
    (fun suffix => ((atSuffixes suffix).reverse.findSome? vlessCapture))
  match cands.findSome? id with
  | some h => ⟨h⟩
  | none => "VLESS节点"

/-- One candidate of `/trojan:\/\/([^@]+)@([^:]+):(\d+)/` after the
literal prefix; yields the second capture (the host). -/
def trojanCapture (r : Str) : Option Str :=
  let u := r.takeWhile (fun c => c ≠ '@')
  if u.isEmpty then none
  else match r.drop u.length with
    | '@' :: r2 =>
      let h := r2.takeWhile (fun c => c ≠ ':')
      if h.isEmpty then none
      else match r2.drop h.length with
        | ':' :: r3 => if (r3.head?.map Char.isDigit).getD false then some h else none
        | _ => none
    | _ => none

/-- `extractNodeNameFromUrl`, Trojan handler. -/
def trojanNameOf (url : String) : String :=
  match ((subOccurrences "trojan://".data url.data).map trojanCapture).findSome? id with
  | some h => ⟨h⟩
  | none => "Trojan节点"

/-- `extractNodeNameFromUrl`: per-protocol display-name fallback. -/
def extractNodeNameFromUrl (url : String) : String :=
  let protocol : String :=
    match splitFirstSub "://".data url.data with
    | some (pre, _) => ⟨pre⟩
    | none => ""
  if protocol = "vmess" then vmessNameOf url
  else if protocol = "vless" then vlessNameOf url
  else if protocol = "trojan" then trojanNameOf url
  else
    match parseURL url with
    | some u => if u.host = "" then "未命名节点" else u.host
    | none => "未命名节点"

/-- `parseNodeLine` (the id argument stands for the
`crypto.randomUUID()` call made when the node object is built). -/
def parseNodeLine (id : String) (line : String) (subscriptionName : String) :
    Option Node :=
  let line := trimStr line
  match matchProto line.data with
  | none => none
  | some p =>
    let name : String :=
      match splitLastC '#' line.data with
      | some (_, frag) =>
        match decodeURIComponentStr ⟨frag⟩ with
        | some d => d
        | none => ⟨frag⟩
      | none => ""
    let name := if name = "" then extractNodeNameFromUrl line else name
    let protoTxt : String := ⟨line.data.take p.data.length⟩
    some { id := id, name := if name = "" then "未命名节点" else name, url := line,
           protocol := protoTxt, enabled := true, typ := "subscription",
           subscriptionName := subscriptionName, originalProxy := none }

/-- JS `split(/\r?\n/)`. -/
def splitLines : Str → List Str
  | [] => [[]]
  | '\r' :: '\n' :: rest =>
    match splitLines rest with
    | [] => [[], []]
    | y :: ys => [] :: y :: ys
  | '\n' :: rest =>
    match splitLines rest with
    | [] => [[], []]
    | y :: ys => [] :: y :: ys
  | c :: rest =>
    match splitLines rest with
    | [] => [[c]]
    | y :: ys => (c :: y) :: ys

/-- `parseNodeLines`: filter to node URLs, parse each line, drop
failures; the id supply is consumed per parsed line. -/
def parseNodeLines (gen : Nat → String) (lines : List String)
    (subscriptionName : String) : List Node :=
  ((lines.filter isNodeUrl).enum.map
    (fun iv => parseNodeLine (gen iv.1) iv.2 subscriptionName)).filterMap id

/-! ### SubscriptionParser.processNodes -/

/-- The rule list: trim, split on newlines, trim each, drop blanks. -/
def excludeRules (ex : String) : List String :=
  ((splitAllC '\n' (trimStr ex).data).map (fun l => trimStr ⟨l⟩)).filter (fun r => r ≠ "")

/-- Protocols of one `proto:`-rule body (comma-separated, trimmed,
lower-cased). -/
def ruleProtoList (content : String) : List String :=
  (splitAllC ',' (strDrop content 6).data).map (fun p => lowStr (trimStr ⟨p⟩))

/-- The filtering stage of `processNodes` (`rtest pattern input` is
the regex engine applied with the `i` flag). -/
def applyExcludeRules (rtest : String → String → Bool) (ex : String)
    (nodes : List Node) : List Node :=
  let rules := excludeRules ex
  let keepRules := rules.filter (fun r => strStarts (lowStr r) "keep:")
  if keepRules ≠ [] then
    let contents := keepRules.map (fun r => trimStr (strDrop r 5))
    let protocolsToKeep :=
      ((contents.filter (fun c => strStarts (lowStr c) "proto:")).map ruleProtoList).flatten
    let nameParts := contents.filter (fun c => !(strStarts (lowStr c) "proto:"))
    let nameRegex : Option String :=
      if nameParts ≠ [] then some (String.intercalate "|" nameParts) else none
    nodes.filter (fun node =>
      protocolsToKeep.contains node.protocol ||
      (match nameRegex with
       | some pat => rtest pat node.name
       | none => false))
  else
    let protocolsToExclude :=
      ((rules.filter (fun r => strStarts (lowStr r) "proto:")).map ruleProtoList).flatten
    let nameParts := rules.filter (fun r => !(strStarts (lowStr r) "proto:"))
    let nameRegex : Option String :=
      if nameParts ≠ [] then some (String.intercalate "|" nameParts) else none
    nodes.filter (fun node =>
      !(protocolsToExclude.contains node.protocol) &&
      (match nameRegex with
       | some pat => !(rtest pat node.name)
       | none => true))

/-- VMess rename: decode the body, parse the JSON, write `ps`,
re-encode; `none` models the exception that triggers the fragment
fallback (including the strict-mode TypeError of a property write on
a primitive). -/
def vmessRewritePs (url newName : String) : Option String :=
  match decodeBase64 (strDrop url 8) with
  | none => none
  | some dec =>
    match parseJSON dec with
    | some (JVal.jObj f) =>
      some ("vmess://" ++ encodeBase64 (jsonStringify (jObj (jSetF f "ps" (jStr newName)))))
    | some (JVal.jArr xs) =>
      some ("vmess://" ++ encodeBase64 (jsonStringify (jArr xs)))
    | _ => none

/-- Replace (or add) the `#fragment` with the encoded display name. -/
def fragmentWithName (url newName : String) : String :=
  let base := match splitLastC '#' url.data with
    | some (b, _) => b
    | none => url.data
  ⟨base ++ '#' :: (encodeURIComponentStr newName).data⟩

/-- The per-node renaming of the prepend stage. -/
def prependOne (subName : String) (node : Node) : Node :=
  if strStarts node.name subName then node
  else
    let newName := subName ++ " - " ++ node.name
    if node.protocol = "vmess" ∧ strStarts node.url "vmess://" then
      match vmessRewritePs node.url newName with
      | some newUrl => { node with name := newName, url := newUrl }
      | none => { node with name := newName, url := fragmentWithName node.url newName }
    else { node with name := newName, url := fragmentWithName node.url newName }

/-- `processNodes`: exclude/keep filtering, then optional
label-prefixing. -/
def processNodes (rtest : String → String → Bool) (nodes : List Node)
    (subName : String) (options : ProcessOptions) : List Node :=
  let processed :=
    match options.exclude with
    | some ex => if trimStr ex ≠ "" then applyExcludeRules rtest ex nodes else nodes
    | none => nodes
  if options.prependSubName ∧ subName ≠ "" then processed.map (prependOne subName)
  else processed

/-! ### Builder helpers -/

/-- JS strict equality with `true`. -/
def eqTrue : Option JVal → Bool
  | some (JVal.jBool b) => b
  | _ => false

/-- JS strict equality with a string literal. -/
def strEq (v : Option JVal) (s : String) : Bool :=
  match asStr v with
  | some t => t = s
  | none => false

/-- Optional chaining `o?.k`. -/
def jGetC (o : Option JVal) (k : String) : Option JVal := o.bind (fun v => jGet v k)

/-- `x || {}` (the value when truthy, else an empty object). -/
def optsOf (v : Option JVal) : JVal :=
  match v with
  | some x => if jTruthy (some x) then x else jObj []
  | none => jObj []

/-- IPv6 bracketing of a URI host
(`server.includes(':') && !server.startsWith('[')`). -/
def bracketHostS (server : String) : String :=
  if strIncludes server ":" ∧ ¬ strStarts server "[" then "[" ++ server ++ "]" else server

/-- `Number(v)` on a value; `none` models `NaN`. -/
def jsNumJ : Option JVal → Option Int
  | some (JVal.jNum n) => some n
  | some (JVal.jStr s) =>
    let t := (trimStr s).data
    if t.isEmpty then some 0
    else
      match t with
      | '-' :: ds => (digitsToNat ds).map (fun n => -(n : Int))
      | ds => (digitsToNat ds).map (fun n => (n : Int))
  | some (JVal.jBool b) => some (if b then 1 else 0)
  | some JVal.jNull => some 0
  | _ => none

/-- `Number(v) || d`. -/
def numOr (v : Option JVal) (d : Int) : Int :=
  match jsNumJ v with
  | some n => if n = 0 then d else n
  | none => d

/-- `Number(v)` as a JSON value (`NaN` serialises as `null`). -/
def jNumOrNull (v : Option JVal) : JVal :=
  match jsNumJ v with
  | some n => JVal.jNum n
  | none => JVal.jNull

/-- `Array.isArray(v) ? v.join(',') : v`. -/
def joinIfArr : JVal → JVal
  | JVal.jArr xs => JVal.jStr (jToStr (JVal.jArr xs))
  | x => x

/-! ### buildVmessUrl -/

/-- `buildVmessUrl`: the VMess JSON object, serialised and
base64-encoded (`vmess://<base64-json>`, no query string). -/
def buildVmessUrl (p : JVal) : Option String :=
  let tlsOn := eqTrue (jGet p "tls") ∨ strEq (jGet p "tls") "true" ∨ strEq (jGet p "tls") "tls"
  let netV := (jOr (jGet p "network") (some (jStr "tcp"))).getD (jStr "tcp")
  let cfg : List (String × JVal) :=
    [("v", jStr "2"),
     ("ps", (jOr (jGet p "name") (some (jStr "VMess节点"))).getD (jStr "")) ] ++
    (match jGet p "server" with
     | some v => [("add", v)]
     | none => []) ++
    [("port", jNum (numOr (jGet p "port") 443))] ++
    (match jOr (jGet p "uuid") (jGet p "id") with
     | some v => [("id", v)]
     | none => []) ++
    [("aid", jNumOrNull (jOr (jOr (jGet p "alterId") (jGet p "aid")) (some (jNum 0)))),
     ("scy", (jOr (jGet p "cipher") (some (jStr "auto"))).getD (jStr "")),
     ("net", netV),
     ("type", jStr "none"), ("host", jStr ""), ("path", jStr ""),
     ("tls", jStr ""), ("sni", jStr ""), ("alpn", jStr ""), ("fp", jStr "")]
  let cfg :=
    if tlsOn then
      let cfg := jSetF cfg "tls" (jStr "tls")
      let cfg := jSetF cfg "sni"
        ((jOr (jGet p "servername") (jOr (jGet p "sni") (some (jStr "")))).getD (jStr ""))
      let cfg :=
        if jTruthy (jGet p "alpn") then
          jSetF cfg "alpn" (joinIfArr ((jGet p "alpn").getD (jStr "")))
        else cfg
      let cfg := jSetF cfg "fp"
        ((jOr (jGet p "client-fingerprint") (jOr (jGet p "fingerprint") (some (jStr "")))).getD (jStr ""))
      if eqTrue (jGet p "skip-cert-verify") then jSetF cfg "skip-cert-verify" (jBool true) else cfg
    else cfg
  let cfg := if eqTrue (jGet p "udp") then jSetF cfg "udp" (jBool true) else cfg
  let netS := match netV with
    | jStr s => s
    | _ => ""
  let cfg :=
    if netS = "ws" then
      let cfg := jSetF cfg "host"
        ((jOr (jGetC (jGetC (jGet p "ws-opts") "headers") "Host")
          (jOr (jGetC (jGet p "ws-headers") "Host")
            (jOr (jGet p "host") (some (jStr ""))))).getD (jStr ""))
      jSetF cfg "path"
        ((jOr (jGetC (jGet p "ws-opts") "path")
          (jOr (jGet p "ws-path")
            (jOr (jGet p "path") (some (jStr "/"))))).getD (jStr ""))
    else if netS = "h2" ∨ netS = "http" then
      let cfg :=
        if jTruthy (jGetC (jGet p "h2-opts") "host") then
          jSetF cfg "host" (joinIfArr ((jGetC (jGet p "h2-opts") "host").getD (jStr "")))
        else cfg
      jSetF cfg "path" ((jOr (jGetC (jGet p "h2-opts") "path") (some (jStr "/"))).getD (jStr ""))
    else if netS = "grpc" then
      let cfg := jSetF cfg "path"
        ((jOr (jGetC (jGet p "grpc-opts") "grpc-service-name") (some (jStr ""))).getD (jStr ""))
      let cfg := jSetF cfg "type" (jStr "gun")
      if strEq (jGetC (jGet p "grpc-opts") "mode") "multi" then jSetF cfg "type" (jStr "multi")
      else cfg
    else if netS = "quic" then
      let cfg := jSetF cfg "host"
        ((jOr (jGetC (jGet p "quic-opts") "security") (some (jStr "none"))).getD (jStr ""))
      let cfg := jSetF cfg "path"
        ((jOr (jGetC (jGet p "quic-opts") "key") (some (jStr ""))).getD (jStr ""))
      jSetF cfg "type"
        ((jOr (jGetC (jGet p "quic-opts") "header-type") (some (jStr "none"))).getD (jStr ""))
    else if netS = "kcp" then
      let cfg := jSetF cfg "type"
        ((jOr (jGetC (jGet p "kcp-opts") "header-type") (some (jStr "none"))).getD (jStr ""))
      if jTruthy (jGetC (jGet p "kcp-opts") "seed") then
        jSetF cfg "path" ((jGetC (jGet p "kcp-opts") "seed").getD (jStr ""))
      else cfg
    else cfg
  some ("vmess://" ++ encodeBase64 (jsonStringify (jObj cfg)))

/-! ### buildVlessUrlEnhanced -/

/-- The `isReality` discriminator of `buildVlessUrlEnhanced`
(Reality options bundle, `security`/`tls` set to `'reality'`, or a
public key next to a servername without plain `tls`). -/
def vlessIsReality (p : JVal) : Bool :=
  jTruthy (jGet p "reality-opts") ||
  strEq (jGet p "security") "reality" ||
  strEq (jGet p "tls") "reality" ||
  (jTruthy (jGet p "servername") && jTruthy (jGet p "public-key") && !jTruthy (jGet p "tls"))

/-- The `isTls` discriminator of `buildVlessUrlEnhanced`. -/
def vlessIsTls (p : JVal) : Bool :=
  eqTrue (jGet p "tls") || strEq (jGet p "tls") "true" ||
  strEq (jGet p "tls") "tls" || strEq (jGet p "security") "tls"

/-- `proxy.network || 'tcp'` as the string used by the query. -/
def vlessNetwork (p : JVal) : String :=
  jToStrOpt (jOr (jGet p "network") (some (jStr "tcp")))

/-- `realityOpts || proxy`: where the Reality parameters are read
from. -/
def vlessRealityOpts (p : JVal) : JVal :=
  if jTruthy (jGet p "reality-opts") then (jGet p "reality-opts").getD (jObj []) else p

/-- The resolved Reality public key
(`opts['public-key'] || opts.publicKey || opts.pbk`). -/
def vlessPbk (p : JVal) : Option JVal :=
  jOr (jGet (vlessRealityOpts p) "public-key")
    (jOr (jGet (vlessRealityOpts p) "publicKey") (jGet (vlessRealityOpts p) "pbk"))

/-- The resolved Reality short id. -/
def vlessSid (p : JVal) : Option JVal :=
  jOr (jGet (vlessRealityOpts p) "short-id")
    (jOr (jGet (vlessRealityOpts p) "shortId") (jGet (vlessRealityOpts p) "sid"))

/-- The security section of the VLESS query (Reality first, plain
TLS otherwise). -/
def vlessSecParams (p : JVal) (ps : List (String × String)) : List (String × String) :=
  if vlessIsReality p then
    let opts := vlessRealityOpts p
    let ps := paramsSet ps "security" "reality"
    let ps := if jTruthy (vlessPbk p) then paramsSet ps "pbk" (jToStrOpt (vlessPbk p)) else ps
    let ps := if jTruthy (vlessSid p) then paramsSet ps "sid" (jToStrOpt (vlessSid p)) else ps
    let spx := jOr (jGet opts "spider-x") (jOr (jGet opts "spiderX") (jGet opts "spx"))
    let ps := if jTruthy spx then paramsSet ps "spx" (jToStrOpt spx) else ps
    let sni := jOr (jGet opts "sni")
      (jOr (jGet opts "serverName") (jOr (jGet p "sni") (jGet p "servername")))
    let ps := if jTruthy sni then paramsSet ps "sni" (jToStrOpt sni) else ps
    let fp := jOr (jGet opts "client-fingerprint")
      (jOr (jGet opts "fingerprint") (jOr (jGet opts "fp") (some (jStr "chrome"))))
    let ps := if jTruthy fp then paramsSet ps "fp" (jToStrOpt fp) else ps
    if eqTrue (jGet opts "skip-cert-verify") ∨ eqTrue (jGet opts "insecure") then
      paramsSet ps "insecure" "1"
    else ps
  else if vlessIsTls p then
    let ps := paramsSet ps "security" "tls"
    let sni := jOr (jGet p "sni") (jGet p "servername")
    let ps := if jTruthy sni then paramsSet ps "sni" (jToStrOpt sni) else ps
    let ps :=
      if jTruthy (jGet p "alpn") then
        paramsSet ps "alpn" (jToStr (joinIfArr ((jGet p "alpn").getD (jStr ""))))
      else ps
    let fp := jOr (jGet p "client-fingerprint") (jGet p "fingerprint")
    let ps := if jTruthy fp then paramsSet ps "fp" (jToStrOpt fp) else ps
    if eqTrue (jGet p "skip-cert-verify") then paramsSet ps "allowInsecure" "1" else ps
  else ps

/-- The transport-layer section of the VLESS query. -/
def vlessTransportParams (p : JVal) (network : String)
    (ps : List (String × String)) : List (String × String) :=
  if network = "ws" then
    let wsOpts := optsOf (jGet p "ws-opts")
    let ps := if jTruthy (jGet wsOpts "path") then paramsSet ps "path" (jToStrOpt (jGet wsOpts "path")) else ps
    let ps :=
      if jTruthy (jGetC (jGet wsOpts "headers") "Host") then
        paramsSet ps "host" (jToStrOpt (jGetC (jGet wsOpts "headers") "Host"))
      else ps
    let ps :=
      if jTruthy (jGet wsOpts "max-early-data") then
        paramsSet ps "ed" (jToStrOpt (jGet wsOpts "max-early-data"))
      else ps
    if jTruthy (jGet wsOpts "early-data-header-name") then
      paramsSet ps "eh" (jToStrOpt (jGet wsOpts "early-data-header-name"))
    else ps
  else if network = "grpc" then
    let grpcOpts := optsOf (jGet p "grpc-opts")
    let ps :=
      if jTruthy (jGet grpcOpts "grpc-service-name") then
        paramsSet ps "serviceName" (jToStrOpt (jGet grpcOpts "grpc-service-name"))
      else ps
    if jTruthy (jGet grpcOpts "mode") then paramsSet ps "mode" (jToStrOpt (jGet grpcOpts "mode")) else ps
  else if network = "h2" ∨ network = "http" then
    let h2Opts := optsOf (jGet p "h2-opts")
    let ps := if jTruthy (jGet h2Opts "path") then paramsSet ps "path" (jToStrOpt (jGet h2Opts "path")) else ps
    if jTruthy (jGet h2Opts "host") then
      paramsSet ps "host" (jToStr (joinIfArr ((jGet h2Opts "host").getD (jStr ""))))
    else ps
  else if network = "tcp" then
    let tcpOpts := optsOf (jGet p "tcp-opts")
    if strEq (jGet tcpOpts "type") "http" ∨ jTruthy (jGet p "http") then
      let ps := paramsSet ps "headerType" "http"
      if jTruthy (jOr (jGet tcpOpts "headers") (jGet p "httpHeaders")) then
        let headers := jOr (jGet tcpOpts "headers") (jGet p "httpHeaders")
        let ps := if jTruthy (jGetC headers "Host") then paramsSet ps "host" (jToStrOpt (jGetC headers "Host")) else ps
        if jTruthy (jGetC headers "request") then paramsSet ps "path" (jToStrOpt (jGetC headers "request")) else ps
      else ps
    else paramsSet ps "headerType" "none"
  else if network = "quic" then
    let quicOpts := optsOf (jGet p "quic-opts")
    let ps := if jTruthy (jGet quicOpts "security") then paramsSet ps "quicSecurity" (jToStrOpt (jGet quicOpts "security")) else ps
    let ps := if jTruthy (jGet quicOpts "key") then paramsSet ps "key" (jToStrOpt (jGet quicOpts "key")) else ps
    if jTruthy (jGet quicOpts "header-type") then paramsSet ps "headerType" (jToStrOpt (jGet quicOpts "header-type")) else ps
  else ps

/-- The query parameters emitted by `buildVlessUrlEnhanced`, in
`params.set` order. -/
def vlessParams (p : JVal) : List (String × String) :=
  let ps := paramsSet [] "encryption" "none"
  let ps := paramsSet ps "type" (vlessNetwork p)
  let ps := if jTruthy (jGet p "flow") then paramsSet ps "flow" (jToStrOpt (jGet p "flow")) else ps
  vlessTransportParams p (vlessNetwork p) (vlessSecParams p ps)

/-- `buildVlessUrlEnhanced`: `vless://uuid@host:port?…#name`. -/
def buildVlessUrlEnhanced (p : JVal) : Option String :=
  let uuid := jOr (jGet p "uuid") (jGet p "id")
  if ¬ (jTruthy uuid ∧ jTruthy (jGet p "server") ∧ jTruthy (jGet p "port")) then none
  else
    match asStr (jGet p "server") with
    | none => none
    | some server =>
      let url := "vless://" ++ jToStrOpt uuid ++ "@" ++ bracketHostS server ++ ":" ++
        jToStrOpt (jGet p "port")
      let qs : Str := renderQuery (vlessParams p)
      let url := if qs ≠ [] then url ++ "?" ++ (⟨qs⟩ : String) else url
      some (if jTruthy (jGet p "name") then
              url ++ "#" ++ encodeURIComponentStr (jToStrOpt (jGet p "name"))
            else url)

/-! ### The remaining URL builders -/

/-- `buildTrojanUrl`. -/
def buildTrojanUrl (p : JVal) : Option String :=
  if ¬ (jTruthy (jGet p "server") ∧ jTruthy (jGet p "port")) then none
  else
    match asStr (jGet p "server") with
    | none => none
    | some server =>
      let password := encodeURIComponentStr (jToStrOpt (jGet p "password"))
      let url := "trojan://" ++ password ++ "@" ++ bracketHostS server ++ ":" ++
        jToStrOpt (jGet p "port")
      let ps : List (String × String) := []
      let sni := jOr (jGet p "sni") (jGet p "servername")
      let ps := if jTruthy sni then paramsSet ps "sni" (jToStrOpt sni) else ps
      let ps := if eqTrue (jGet p "skip-cert-verify") then paramsSet ps "allowInsecure" "1" else ps
      let ps :=
        if jTruthy (jGet p "alpn") then
          paramsSet ps "alpn" (jToStr (joinIfArr ((jGet p "alpn").getD (jStr ""))))
        else ps
      let fp := jOr (jGet p "client-fingerprint") (jGet p "fingerprint")
      let ps := if jTruthy fp then paramsSet ps "fp" (jToStrOpt fp) else ps
      let network := jToStrOpt (jOr (jGet p "network") (some (jStr "tcp")))
      let ps :=
        if network ≠ "tcp" then
          let ps := paramsSet ps "type" network
          if network = "ws" then
            let wsOpts := optsOf (jGet p "ws-opts")
            let ps := if jTruthy (jGet wsOpts "path") then paramsSet ps "path" (jToStrOpt (jGet wsOpts "path")) else ps
            if jTruthy (jGetC (jGet wsOpts "headers") "Host") then
              paramsSet ps "host" (jToStrOpt (jGetC (jGet wsOpts "headers") "Host"))
            else ps
          else if network = "grpc" then
            let grpcOpts := optsOf (jGet p "grpc-opts")
            let ps :=
              if jTruthy (jGet grpcOpts "grpc-service-name") then
                paramsSet ps "serviceName" (jToStrOpt (jGet grpcOpts "grpc-service-name"))
              else ps
            if jTruthy (jGet grpcOpts "mode") then paramsSet ps "mode" (jToStrOpt (jGet grpcOpts "mode")) else ps
          else ps
        else ps
      let qs : Str := renderQuery ps
      let url := if qs ≠ [] then url ++ "?" ++ (⟨qs⟩ : String) else url
      some (if jTruthy (jGet p "name") then
              url ++ "#" ++ encodeURIComponentStr (jToStrOpt (jGet p "name"))
            else url)

/-- SIP002 option-value escaping (`\`, `:`, `;`, `=`). -/
def sip002Escape (s : String) : String :=
  ⟨(s.data.map (fun c =>
      if c = '\\' then ['\\', '\\']
      else if c = ':' then ['\\', ':']
      else if c = ';' then ['\\', ';']
      else if c = '=' then ['\\', '=']
      else [c])).flatten⟩

/-- Entries of an object value (`Object.entries`), empty otherwise. -/
def jEntries : JVal → List (String × JVal)
  | JVal.jObj f => f
  | _ => []

/-- Is the value JSON `null`? -/
def isJNull : JVal → Bool
  | JVal.jNull => true
  | _ => false

/-- `buildShadowsocksUrlEnhanced`: `ss://base64(method:password)@host:port[?plugin=…][#name]`. -/
def buildShadowsocksUrlEnhanced (p : JVal) : Option String :=
  if ¬ (jTruthy (jGet p "server") ∧ jTruthy (jGet p "port") ∧
        jTruthy (jGet p "cipher") ∧ jTruthy (jGet p "password")) then none
  else
    match asStr (jGet p "server") with
    | none => none
    | some server =>
      let userInfo := jToStrOpt (jGet p "cipher") ++ ":" ++ jToStrOpt (jGet p "password")
      let url := "ss://" ++ encodeBase64 userInfo ++ "@" ++ bracketHostS server ++ ":" ++
        jToStrOpt (jGet p "port")
      let url :=
        if jTruthy (jGet p "plugin") then
          let opts := optsOf (jGet p "plugin-opts")
          let optPairs := ((jEntries opts).filter
              (fun kv => !isJNull kv.2)).map
            (fun kv => kv.1 ++ "=" ++ sip002Escape (jToStr kv.2))
          let pluginStr := jToStrOpt (jGet p "plugin") ++
            (if optPairs ≠ [] then ";" ++ String.intercalate ";" optPairs else "")
          url ++ "?" ++ (⟨renderQuery [("plugin", pluginStr)]⟩ : String)
        else url
      some (if jTruthy (jGet p "name") then
              url ++ "#" ++ encodeURIComponentStr (jToStrOpt (jGet p "name"))
            else url)

/-- `buildShadowsocksRUrl`: `ssr://base64(host:port:protocol:cipher:obfs:base64pass)[/?…]`. -/
def buildShadowsocksRUrl (p : JVal) : Option String :=
  if ¬ (jTruthy (jGet p "server") ∧ jTruthy (jGet p "port") ∧
        jTruthy (jGet p "protocol") ∧ jTruthy (jGet p "cipher")) then none
  else
    match asStr (jGet p "server") with
    | none => none
    | some server =>
      match btoaStr (jToStrOpt (jOr (jGet p "password") (some (jStr "")))) with
      | none => none
      | some passB64 =>
        let cfg : List String :=
          [bracketHostS server, jToStrOpt (jGet p "port"), jToStrOpt (jGet p "protocol"),
           jToStrOpt (jGet p "cipher"),
           jToStrOpt (jOr (jGet p "obfs") (some (jStr "plain"))), passB64]
        let q : List (String × String) := []
        let q := if jTruthy (jGet p "protocol-param") then
            paramsSet q "protoparam" (encodeBase64 (jToStrOpt (jGet p "protocol-param"))) else q
        let q := if jTruthy (jGet p "obfs-param") then
            paramsSet q "obfsparam" (encodeBase64 (jToStrOpt (jGet p "obfs-param"))) else q
        let q := if jTruthy (jGet p "name") then
            paramsSet q "remarks" (encodeBase64 (jToStrOpt (jGet p "name"))) else q
        let url := "ssr://" ++ encodeBase64 (String.intercalate ":" cfg)
        some (if renderQuery q ≠ [] then url ++ "/?" ++ (⟨renderQuery q⟩ : String) else url)

/-- `buildHysteriaUrlEnhanced` (both Hysteria versions). -/
def buildHysteriaUrlEnhanced (p : JVal) : Option String :=
  let isV2 := strEq (jGet p "type") "hysteria2" ∨ strEq (jGet p "type") "hy2" ∨
    strEq (jGet p "version") "2"
  let auth := if isV2 then jOr (jGet p "password") (jOr (jGet p "auth") (some (jStr "")))
    else jOr (jGet p "auth") (jOr (jGet p "password") (some (jStr "")))
  if ¬ (jTruthy (jGet p "server") ∧ jTruthy (jGet p "port")) then none
  else
    match asStr (jGet p "server") with
    | none => none
    | some server =>
      let url :=
        if isV2 then
          "hysteria2://" ++ encodeURIComponentStr (jToStrOpt auth) ++ "@" ++
            bracketHostS server ++ ":" ++ jToStrOpt (jGet p "port")
        else
          "hysteria://" ++ bracketHostS server ++ ":" ++ jToStrOpt (jGet p "port")
      let ps : List (String × String) := []
      let sni := jOr (jGet p "sni") (jGet p "servername")
      let ps := if jTruthy sni then paramsSet ps "sni" (jToStrOpt sni) else ps
      let ps :=
        if eqTrue (jGet p "skip-cert-verify") ∨ eqTrue (jGet p "insecure") then
          paramsSet ps "insecure" "1"
        else ps
      let ps :=
        if jTruthy (jGet p "alpn") then
          paramsSet ps "alpn" (jToStr (joinIfArr ((jGet p "alpn").getD (jStr ""))))
        else ps
      let fp := jOr (jGet p "client-fingerprint") (jGet p "fingerprint")
      let ps := if jTruthy fp then paramsSet ps "fp" (jToStrOpt fp) else ps
      let ps := if jTruthy (jGet p "pinSHA256") then paramsSet ps "pinSHA256" (jToStrOpt (jGet p "pinSHA256")) else ps
      let ps :=
        if isV2 then
          if jTruthy (jGet p "obfs") then
            let ps := paramsSet ps "obfs" (jToStrOpt (jGet p "obfs"))
            if jTruthy (jGet p "obfs-password") then
              paramsSet ps "obfs-password" (jToStrOpt (jGet p "obfs-password"))
            else ps
          else ps
        else
          let ps := if jTruthy auth then paramsSet ps "auth" (jToStrOpt auth) else ps
          let ps := if jTruthy (jGet p "protocol") then paramsSet ps "protocol" (jToStrOpt (jGet p "protocol")) else ps
          let ps := if jTruthy (jGet p "obfs") then paramsSet ps "obfs" (jToStrOpt (jGet p "obfs")) else ps
          let up := jOr (jGet p "up") (jGet p "up-speed")
          let ps := if jTruthy up then paramsSet ps "upmbps" (jToStrOpt up) else ps
          let down := jOr (jGet p "down") (jGet p "down-speed")
          if jTruthy down then paramsSet ps "downmbps" (jToStrOpt down) else ps
      let qs : Str := renderQuery ps
      let url := if qs ≠ [] then url ++ "?" ++ (⟨qs⟩ : String) else url
      some (if jTruthy (jGet p "name") then
              url ++ "#" ++ encodeURIComponentStr (jToStrOpt (jGet p "name"))
            else url)

/-- `buildTUICUrl`. -/
def buildTUICUrl (p : JVal) : Option String :=
  let uuid := jOr (jGet p "uuid") (jGet p "id")
  if ¬ (jTruthy (jGet p "server") ∧ jTruthy (jGet p "port") ∧
        jTruthy uuid ∧ jTruthy (jGet p "password")) then none
  else
    match asStr (jGet p "server") with
    | none => none
    | some server =>
      let url := "tuic://" ++ jToStrOpt uuid ++ ":" ++ jToStrOpt (jGet p "password") ++ "@" ++
        bracketHostS server ++ ":" ++ jToStrOpt (jGet p "port")
      let ps : List (String × String) := []
      let sni := jOr (jGet p "sni") (jGet p "servername")
      let ps := if jTruthy sni then paramsSet ps "sni" (jToStrOpt sni) else ps
      let ps :=
        if jTruthy (jGet p "alpn") then
          paramsSet ps "alpn" (jToStr (joinIfArr ((jGet p "alpn").getD (jStr ""))))
        else ps
      let ps := if eqTrue (jGet p "skip-cert-verify") then paramsSet ps "allowInsecure" "1" else ps
      let ps := if jTruthy (jGet p "congestion-controller") then
          paramsSet ps "congestion_control" (jToStrOpt (jGet p "congestion-controller")) else ps
      let ps := if jTruthy (jGet p "udp-relay-mode") then
          paramsSet ps "udp_relay_mode" (jToStrOpt (jGet p "udp-relay-mode")) else ps
      let qs : Str := renderQuery ps
      let url := if qs ≠ [] then url ++ "?" ++ (⟨qs⟩ : String) else url
      some (if jTruthy (jGet p "name") then
              url ++ "#" ++ encodeURIComponentStr (jToStrOpt (jGet p "name"))
            else url)

/-- `buildSocks5Url` (no host bracketing in the source). -/
def buildSocks5Url (p : JVal) : Option String :=
  if ¬ (jTruthy (jGet p "server") ∧ jTruthy (jGet p "port")) then none
  else
    let url := "socks5://" ++
      (if jTruthy (jGet p "username") ∧ jTruthy (jGet p "password") then
        encodeURIComponentStr (jToStrOpt (jGet p "username")) ++ ":" ++
        encodeURIComponentStr (jToStrOpt (jGet p "password")) ++ "@"
      else "") ++
      jToStrOpt (jGet p "server") ++ ":" ++ jToStrOpt (jGet p "port")
    some (if jTruthy (jGet p "name") then
            url ++ "#" ++ encodeURIComponentStr (jToStrOpt (jGet p "name"))
          else url)

/-- `buildAnyTlsUrl`. -/
def buildAnyTlsUrl (p : JVal) : Option String :=
  if ¬ (jTruthy (jGet p "server") ∧ jTruthy (jGet p "port")) then none
  else
    match asStr (jGet p "server") with
    | none => none
    | some server =>
      let credential := jOr (jGet p "client-id")
        (jOr (jGet p "uuid") (jOr (jGet p "id") (jGet p "password")))
      let url :=
        if jTruthy credential then
          "anytls://" ++ encodeURIComponentStr (jToStrOpt credential) ++ "@" ++
            bracketHostS server ++ ":" ++ jToStrOpt (jGet p "port")
        else "anytls://" ++ bracketHostS server ++ ":" ++ jToStrOpt (jGet p "port")
      let ps : List (String × String) := []
      let sni := jOr (jGet p "sni") (jGet p "servername")
      let ps := if jTruthy sni then paramsSet ps "sni" (jToStrOpt sni) else ps
      let ps :=
        if jTruthy (jGet p "alpn") then
          paramsSet ps "alpn" (jToStr (joinIfArr ((jGet p "alpn").getD (jStr ""))))
        else ps
      let ps := if eqTrue (jGet p "skip-cert-verify") then paramsSet ps "allowInsecure" "1" else ps
      let fp := jOr (jGet p "client-fingerprint") (jGet p "fingerprint")
      let ps := if jTruthy fp then paramsSet ps "fp" (jToStrOpt fp) else ps
      let ps := if jTruthy (jGet p "idle_timeout") then paramsSet ps "idle_timeout" (jToStrOpt (jGet p "idle_timeout")) else ps
      let qs : Str := renderQuery ps
      let url := if qs ≠ [] then url ++ "?" ++ (⟨qs⟩ : String) else url
      some (if jTruthy (jGet p "name") then
              url ++ "#" ++ encodeURIComponentStr (jToStrOpt (jGet p "name"))
            else url)

/-- `buildShadowsocksUrlFromSIP008` (raw `btoa`, no UTF-8 step). -/
def buildShadowsocksUrlFromSIP008 (s : JVal) : Option String :=
  if ¬ (jTruthy (jGet s "server") ∧ jTruthy (jGet s "server_port") ∧
        jTruthy (jGet s "method") ∧ jTruthy (jGet s "password")) then none
  else
    match asStr (jGet s "server") with
    | none => none
    | some serverAddr =>
      match btoaStr (jToStrOpt (jGet s "method") ++ ":" ++ jToStrOpt (jGet s "password")) with
      | none => none
      | some b64 =>
        let url := "ss://" ++ b64 ++ "@" ++ bracketHostS serverAddr ++ ":" ++
          jToStrOpt (jGet s "server_port")
        let url :=
          if jTruthy (jGet s "plugin") ∧ jTruthy (jGet s "plugin_opts") then
            url ++ "?" ++ (⟨renderQuery
              [("plugin", jToStrOpt (jGet s "plugin") ++ ";" ++ jToStrOpt (jGet s "plugin_opts"))]⟩ : String)
          else url
        let nm := jOr (jGet s "remarks") (jGet s "name")
        some (if jTruthy nm then url ++ "#" ++ encodeURIComponentStr (jToStrOpt nm) else url)

/-! ### normalizeProxyFields and convertClashProxyToUrl -/

/-- `normalizeProxyFields` (field-alias normalisation, mutating). -/
def normalizeProxyFields (p : JVal) : JVal :=
  let p := if jTruthy (jGet p "servername") ∧ ¬ jTruthy (jGet p "sni") then
      jSet p "sni" ((jGet p "servername").getD jNull) else p
  let p := if (jGet p "skipCertVerify").isSome ∧ (jGet p "skip-cert-verify").isNone then
      jSet p "skip-cert-verify" ((jGet p "skipCertVerify").getD jNull) else p
  let p := if jTruthy (jGet p "id") ∧ ¬ jTruthy (jGet p "uuid") then
      jSet p "uuid" ((jGet p "id").getD jNull) else p
  if (jGet p "udp").isNone then jSet p "udp" (jBool true) else p

/-- `convertClashProxyToUrl`: dispatch to the per-protocol builder,
then append the shared `udp`/`insecure`/`tfo` parameters for the
URI-query protocols. -/
def convertClashProxyToUrl (p : JVal) : Option String :=
  if ¬ (jTruthy (jGet p "server") ∧ jTruthy (jGet p "port")) then none
  else
    match jGet p "type" with
    | some (JVal.jStr ty) =>
      let t := lowStr ty
      let urlOpt : Option String :=
        if t = "vmess" then buildVmessUrl p
        else if t = "vless" then buildVlessUrlEnhanced p
        else if t = "trojan" then buildTrojanUrl p
        else if t = "ss" then buildShadowsocksUrlEnhanced p
        else if t = "ssr" then buildShadowsocksRUrl p
        else if t = "hysteria" ∨ t = "hysteria2" ∨ t = "hy2" then buildHysteriaUrlEnhanced p
        else if t = "tuic" then buildTUICUrl p
        else if t = "anytls" then buildAnyTlsUrl p
        else if t = "socks5" ∨ t = "socks" then buildSocks5Url p
        else none
      match urlOpt with
      | none => none
      | some url =>
        if ¬ strStarts url "vmess://" ∧ ¬ strStarts url "ssr://" then
          let parts := splitAllC '#' url.data
          let baseUrl : Str := parts.headD []
          let fragment : Str :=
            match parts.get? 1 with
            | some f => '#' :: f
            | none => []
          let separator : Str := if containsSub "?".data baseUrl then "&".data else "?".data
          let e : List (String × String) := []
          let e := if eqTrue (jGet p "udp") then paramsSet e "udp" "1" else e
          let e := if eqTrue (jGet p "skip-cert-verify") then
              paramsSet (paramsSet e "insecure" "1") "allowInsecure" "1" else e
          let e := if eqTrue (jGet p "tfo") then paramsSet e "tfo" "1" else e
          let eq := renderQuery e
          if eq ≠ [] then some ⟨baseUrl ++ separator ++ eq ++ fragment⟩ else some url
        else some url
    | _ => none

/-! ### urlToClashProxy (config-generator.ts) -/

/-- `params.get(k)` as a stored JSON value (`null` when absent). -/
def pg (params : List (String × String)) (k : String) : JVal :=
  match paramsGet params k with
  | some s => JVal.jStr s
  | none => JVal.jNull

/-- A field present only when the underlying JS value is defined
(an `undefined`-valued property is modelled as absent). -/
def fieldIf (k : String) (v : Option JVal) : List (String × JVal) :=
  match v with
  | some x => [(k, x)]
  | none => []

/-- `plugin-opts` of the SS branch: each `k=v` piece after the plugin
name, keeping only pieces where both sides are non-empty. -/
def ssPluginOpts (pieces : List Str) : List (String × JVal) :=
  pieces.foldl (fun acc piece =>
    match splitAllC '=' piece with
    | k :: v :: _ => if ¬ k.isEmpty ∧ ¬ v.isEmpty then jSetF acc ⟨k⟩ (jStr ⟨v⟩) else acc
    | _ => acc) []

/-- `urlToClashProxy`: parse a share-URI back into a Clash proxy
object; `none` models the caught exception / explicit `null`. -/
def urlToClashProxy (urlStr name protocol : String) : Option JVal :=
  match parseURL urlStr with
  | none => none
  | some url =>
    let params := urlParams url
    let cfg := jObj [("name", jStr name), ("type", jStr protocol)]
    let cfg := if url.username ≠ "" then jSet cfg "uuid" (jStr url.username) else cfg
    let cfg := if url.password ≠ "" then jSet cfg "password" (jStr url.password) else cfg
    let cfg := jSet cfg "server" (jStr url.host)
    let cfg := jSet cfg "port" (jNum ((jsNumberOfStr url.port : Int) |> fun n => if n = 0 then 443 else n))
    let cfg := if paramsHas params "sni" then jSet cfg "servername" (pg params "sni") else cfg
    let cfg := if paramsHas params "fp" then jSet cfg "client-fingerprint" (pg params "fp") else cfg
    let cfg :=
      if paramsHas params "alpn" then
        jSet cfg "alpn" (jArr ((splitAllC ',' ((paramsGet params "alpn").getD "").data).map
          (fun a => jStr ⟨a⟩)))
      else cfg
    let cfg :=
      if paramsHas params "allowInsecure" ∨ paramsHas params "insecure" then
        jSet cfg "skip-cert-verify" (jBool true)
      else cfg
    let cfg := if paramsHas params "udp" then jSet cfg "udp" (jBool true) else cfg
    if protocol = "ss" then
      let cfg := if strIncludes urlStr "@" then jSet cfg "cipher" (jStr url.username) else cfg
      let cfg :=
        if paramsHas params "plugin" then
          let pieces := splitAllC ';' ((paramsGet params "plugin").getD "").data
          let cfg := jSet cfg "plugin" (jStr ⟨pieces.headD []⟩)
          if pieces.length > 1 then jSet cfg "plugin-opts" (jObj (ssPluginOpts (pieces.drop 1)))
          else cfg
        else cfg
      some cfg
    else if protocol = "vmess" then
      if strStarts urlStr "vmess://" then
        match atobStr (strDrop urlStr 8) with
        | none => none
        | some dec =>
          match parseJSON dec with
          | none => none
          | some vm =>
            let cfg2 := jObj
              ([("name", jStr name), ("type", jStr "vmess")] ++
               fieldIf "server" (jGet vm "add") ++
               [("port", jNumOrNull (jGet vm "port"))] ++
               fieldIf "uuid" (jGet vm "id") ++
               [("alterId", jNumOrNull (jGet vm "aid")),
                ("cipher", (jOr (jGet vm "scy") (some (jStr "auto"))).getD (jStr "")),
                ("udp", jBool true),
                ("tls", jBool (strEq (jGet vm "tls") "tls"))] ++
               fieldIf "network" (jGet vm "net"))
            let tlsOn := strEq (jGet vm "tls") "tls"
            let step1 : Option JVal :=
              if tlsOn then
                let c := if jTruthy (jGet vm "sni") then jSet cfg2 "servername" ((jGet vm "sni").getD jNull) else cfg2
                let c := if jTruthy (jGet vm "fp") then jSet c "client-fingerprint" ((jGet vm "fp").getD jNull) else c
                if jTruthy (jGet vm "alpn") then
                  match asStr (jGet vm "alpn") with
                  | some s => some (jSet c "alpn" (jArr ((splitAllC ',' s.data).map (fun a => jStr ⟨a⟩))))
                  | none => none
                else some c
              else some cfg2
            match step1 with
            | none => none
            | some c =>
              if strEq (jGet vm "net") "ws" then
                some (jSet c "ws-opts" (jObj
                  (fieldIf "path" (jGet vm "path") ++
                   [("headers", jObj (fieldIf "Host" (jGet vm "host")))])))
              else some c
      else some cfg
    else if protocol = "vless" then
      let cfg := jSet cfg "uuid" (jStr url.username)
      let cfg := if paramsHas params "type" then jSet cfg "network" (pg params "type") else cfg
      let cfg := if paramsHas params "flow" then jSet cfg "flow" (pg params "flow") else cfg
      let cfg :=
        if paramsGet params "security" = some "reality" then
          let cfg := jSet cfg "tls" (jBool true)
          let ro := jObj [("public-key", pg params "pbk"), ("short-id", pg params "sid")]
          let ro := if paramsHas params "spx" then jSet ro "spider-x" (pg params "spx") else ro
          jSet cfg "reality-opts" ro
        else if paramsGet params "security" = some "tls" then jSet cfg "tls" (jBool true)
        else cfg
      let cfg :=
        if strEq (jGet cfg "network") "ws" then
          let wo := jObj [("path", pg params "path")]
          let wo := if paramsHas params "host" then
              jSet wo "headers" (jObj [("Host", pg params "host")]) else wo
          jSet cfg "ws-opts" wo
        else cfg
      let cfg :=
        if strEq (jGet cfg "network") "grpc" then
          let go := jObj [("grpc-service-name", pg params "serviceName")]
          let go := if paramsHas params "mode" then jSet go "mode" (pg params "mode") else go
          jSet cfg "grpc-opts" go
        else cfg
      some cfg
    else if protocol = "hysteria2" ∨ protocol = "hy2" then
      let cfg := jSet cfg "type" (jStr "hysteria2")
      let cfg := jSet cfg "password"
        (jStr (if url.username ≠ "" then url.username else url.password))
      let cfg :=
        if paramsHas params "obfs" then
          let cfg := jSet cfg "obfs" (pg params "obfs")
          if paramsHas params "obfs-password" then
            jSet cfg "obfs-password" (pg params "obfs-password")
          else cfg
        else cfg
      some cfg
    else if protocol = "trojan" then
      let cfg := jSet cfg "password" (jStr url.username)
      let cfg := if paramsHas params "type" then jSet cfg "network" (pg params "type") else cfg
      let cfg :=
        if strEq (jGet cfg "network") "ws" then
          let wo := jObj [("path", pg params "path")]
          let wo := if paramsHas params "host" then
              jSet wo "headers" (jObj [("Host", pg params "host")]) else wo
          jSet cfg "ws-opts" wo
        else cfg
      let cfg :=
        if strEq (jGet cfg "network") "grpc" then
          jSet cfg "grpc-opts" (jObj [("grpc-service-name", pg params "serviceName")])
        else cfg
      some (jSet cfg "udp" (jBool true))
    else if protocol = "tuic" then
      let cfg := jSet cfg "uuid" (jStr url.username)
      let cfg := jSet cfg "password" (jStr url.password)
      let cfg := if paramsHas params "congestion_control" then
          jSet cfg "congestion-controller" (pg params "congestion_control") else cfg
      let cfg := if paramsHas params "udp_relay_mode" then
          jSet cfg "udp-relay-mode" (pg params "udp_relay_mode") else cfg
      some cfg
    else if protocol = "anytls" then
      let cfg := jSet cfg "type" (jStr "anytls")
      let cfg := jSet cfg "password"
        (jStr (if url.username ≠ "" then url.username else url.password))
      let cfg := if paramsHas params "sni" then jSet cfg "servername" (pg params "sni") else cfg
      let cfg := if paramsHas params "fp" then jSet cfg "client-fingerprint" (pg params "fp") else cfg
      let cfg := if paramsHas params "idle_timeout" then
          jSet cfg "idle-timeout" (pg params "idle_timeout") else cfg
      some cfg
    else
      if url.host = "" then none else some cfg

/-! ### The ingestion pipeline (SubscriptionParser.parse) -/

/-- `parseGenericNodes` (the `nodes:` list of a YAML document). -/
def parseGenericNodes (gen : Nat → String) (ns : List JVal) (subName : String) :
    List Node :=
  ns.enum.map (fun iv =>
    { id := gen iv.1,
      name := if jTruthy (jGet iv.2 "name") then jToStrOpt (jGet iv.2 "name") else "未命名节点",
      url := if jTruthy (jGet iv.2 "url") then jToStrOpt (jGet iv.2 "url") else "",
      protocol := if jTruthy (jGet iv.2 "protocol") then jToStrOpt (jGet iv.2 "protocol") else "unknown",
      enabled := true, typ := "subscription", subscriptionName := subName,
      originalProxy := none })

/-- `parseClashProxies`: normalise, convert, skip failures; the id
supply is consumed per pushed node. -/
def parseClashProxiesAux (gen : Nat → String) (subName : String) :
    List JVal → Nat → List Node
  | [], _ => []
  | proxy :: rest, i =>
    match proxy with
    | JVal.jObj _ | JVal.jArr _ =>
      let np := normalizeProxyFields proxy
      match convertClashProxyToUrl np with
      | some nodeUrl =>
        { id := gen i,
          name := if jTruthy (jGet np "name") then jToStrOpt (jGet np "name") else "未命名节点",
          url := nodeUrl,
          protocol :=
            match jGet np "type" with
            | some (JVal.jStr s) => if lowStr s = "" then "unknown" else lowStr s
            | _ => "unknown",
          enabled := true, typ := "subscription", subscriptionName := subName,
          originalProxy := some np } :: parseClashProxiesAux gen subName rest (i + 1)
      | none => parseClashProxiesAux gen subName rest i
    | _ => parseClashProxiesAux gen subName rest i

/-- Is the value a JS object (`typeof v === 'object'` and truthy)? -/
def isJsObject : JVal → Bool
  | JVal.jObj _ => true
  | JVal.jArr _ => true
  | _ => false

/-- `parseYAML` (the `yaml.load` dependency is the parameter). -/
def parseYAML (yload : String → Option JVal) (gen : Nat → String)
    (content subName : String) : Except String (List Node) :=
  match yload content with
  | none => .error "YAML解析失败"
  | some v =>
    if ¬ isJsObject v then .error "无效的YAML格式"
    else
      match jGet v "proxies" with
      | some (JVal.jArr ps) => .ok (parseClashProxiesAux gen subName ps 0)
      | _ =>
        match jGet v "nodes" with
        | some (JVal.jArr ns) => .ok (parseGenericNodes gen ns subName)
        | _ => .error "不支持的YAML格式"

/-- `parseClashConfig`. -/
def parseClashConfig (yload : String → Option JVal) (gen : Nat → String)
    (content subName : String) : Except String (List Node) :=
  match yload content with
  | none => .error "Clash配置解析失败"
  | some v =>
    match jGet v "proxies" with
    | some (JVal.jArr ps) => .ok (parseClashProxiesAux gen subName ps 0)
    | _ => .error "不是有效的Clash配置"

/-- The per-server loop of `parseSIP008`. -/
def sip008Aux (gen : Nat → String) (subName : String) :
    List JVal → Nat → List Node
  | [], _ => []
  | server :: rest, i =>
    if ¬ (jTruthy (jGet server "server") ∧ jTruthy (jGet server "server_port")) then
      sip008Aux gen subName rest i
    else if jTruthy (jGet server "method") ∧ jTruthy (jGet server "password") then
      match buildShadowsocksUrlFromSIP008 server with
      | some nodeUrl =>
        let nm := jOr (jGet server "remarks") (jGet server "name")
        { id := gen i,
          name := if jTruthy nm then jToStrOpt nm else "未命名节点",
          url := nodeUrl, protocol := "ss", enabled := true, typ := "subscription",
          subscriptionName := subName, originalProxy := none } ::
        sip008Aux gen subName rest (i + 1)
      | none => sip008Aux gen subName rest i
    else sip008Aux gen subName rest i

/-- `parseSIP008`. -/
def parseSIP008 (gen : Nat → String) (content subName : String) :
    Except String (List Node) :=
  match parseJSON content with
  | none => .error "SIP008 JSON 解析失败"
  | some json =>
    match jGet json "servers" with
    | some sv =>
      if jTruthy (some sv) then
        match sv with
        | JVal.jArr ss => .ok (sip008Aux gen subName ss 0)
        | _ => .error "servers is not iterable"
      else
        match json with
        | JVal.jArr xs => .ok (sip008Aux gen subName xs 0)
        | _ => .ok (sip008Aux gen subName [json] 0)
    | none =>
      match json with
      | JVal.jArr xs => .ok (sip008Aux gen subName xs 0)
      | _ => .ok (sip008Aux gen subName [json] 0)

/-- The whole-body base64 test `/^[A-Za-z0-9+\/=]+$/`. -/
def b64BodyTest (s : String) : Bool :=
  ¬ s.data.isEmpty ∧
  s.data.all (fun c => c.isAlpha ∨ c.isDigit ∨ c = '+' ∨ c = '/' ∨ c = '=')

/-- `parseBase64`. -/
def parseBase64 (gen : Nat → String) (content subName : String) :
    Except String (List Node) :=
  let cleaned := stripWs content
  if ¬ b64BodyTest cleaned ∨ cleaned.data.length < 20 then .error "不是有效的Base64编码"
  else
    match decodeBase64 cleaned with
    | none => .error "Base64解码失败"
    | some dec =>
      let lines := ((splitLines dec.data).map (fun l => (⟨l⟩ : String))).filter
        (fun l => trimStr l ≠ "")
      if ¬ lines.any isNodeUrl then .error "Base64解码后未找到有效的节点链接"
      else .ok (parseNodeLines gen lines subName)

/-- `parsePlainText`. -/
def parsePlainText (gen : Nat → String) (content subName : String) :
    Except String (List Node) :=
  let lines := ((splitLines content.data).map (fun l => (⟨l⟩ : String))).filter
    (fun l => trimStr l ≠ "")
  let nodeLines := lines.filter isNodeUrl
  if nodeLines.isEmpty then .error "未找到有效的节点链接"
  else .ok (parseNodeLines gen nodeLines subName)

/-- The detection-ordered strategy list assembled by `parse`. -/
def strategiesFor (yload : String → Option JVal) (gen : Nat → String)
    (content subName : String) : List (Except String (List Node)) :=
  (if b64BodyTest (stripWs content) ∧ (stripWs content).data.length > 20 then
    [parseBase64 gen content subName]
   else []) ++
  (if strIncludes content "proxies:" ∨ strIncludes content "nodes:" then
    [parseYAML yload gen content subName, parseClashConfig yload gen content subName]
   else []) ++
  (if strStarts (trimStr content) "\x7b" ∨ strStarts (trimStr content) "[" then
    [parseSIP008 gen content subName]
   else []) ++
  [parsePlainText gen content subName]

/-- The try/continue loop of `parse`: a throwing strategy or one
yielding zero nodes falls through to the next; the first non-empty
result is post-processed and returned. -/
def runMethods (rtest : String → String → Bool) (subName : String)
    (options : ProcessOptions) : List (Except String (List Node)) → List Node
  | [] => []
  | .error _ :: ms => runMethods rtest subName options ms
  | .ok r :: ms =>
    if r.isEmpty then runMethods rtest subName options ms
    else processNodes rtest r subName options

/-- `SubscriptionParser.parse`. -/
def parse (yload : String → Option JVal) (rtest : String → String → Bool)
    (gen : Nat → String) (content subName : String) (options : ProcessOptions) :
    List Node :=
  if content = "" then []
  else runMethods rtest subName options (strategiesFor yload gen content subName)

/-! ### getUniqueKey / deduplicateNodes (useManualNodes.ts) -/

/-- The JS default sort comparison on strings: lexicographic on code
units. -/
def charsLeb : Str → Str → Bool
  | [], _ => true
  | _ :: _, [] => false
  | a :: as, b :: bs =>
    if a.toNat < b.toNat then true
    else if b.toNat < a.toNat then false
    else charsLeb as bs

/-- String comparison used by `Array.prototype.sort`. -/
def strLeb (s t : String) : Bool := charsLeb s.data t.data

/-- Ordered insertion for the JS default string sort. -/
def insSorted (s : String) : List String → List String
  | [] => [s]
  | t :: ts => if strLeb s t then s :: t :: ts else t :: insSorted s ts

/-- `Array.prototype.sort` on strings. -/
def sortStrs : List String → List String
  | [] => []
  | x :: xs => insSorted x (sortStrs xs)

/-- `Object.keys`-style enumeration of a parsed JSON value. -/
def jsObjEntries : JVal → List (String × JVal)
  | JVal.jObj f => f
  | JVal.jArr xs => xs.enum.map (fun ix => (natStr ix.1, ix.2))
  | JVal.jStr s => s.data.enum.map (fun ic => (natStr ic.1, JVal.jStr ⟨[ic.2]⟩))
  | _ => []

/-- `Object.keys(o).sort().reduce(…)`: fields re-listed in sorted key
order. -/
def canonFields (f : List (String × JVal)) : List (String × JVal) :=
  (sortStrs (f.map Prod.fst)).map (fun k => (k, (jGetF f k).getD JVal.jNull))

/-- `delete cfg.ps; delete cfg.remark`. -/
def delNameFields : JVal → JVal
  | JVal.jObj f => JVal.jObj (jDelF (jDelF f "ps") "remark")
  | x => x

/-- `getUniqueKey`: the deduplication fingerprint. -/
def getUniqueKey (url : String) : String :=
  if strStarts url "vmess://" then
    match atobStr (strDrop url 8) with
    | none => url
    | some dec =>
      match parseJSON (stripWs dec) with
      | none => url
      | some cfg =>
        "vmess://" ++ jsonStringify (jObj (canonFields (jsObjEntries (delNameFields cfg))))
  else
    match splitFirstC '#' url.data with
    | some (b, _) => ⟨b⟩
    | none => url

/-- The first-wins filter loop of `deduplicateNodes`. -/
def dedupAux (seen : List String) : List Node → List Node
  | [] => []
  | n :: ns =>
    let k := getUniqueKey n.url
    if seen.contains k then dedupAux seen ns
    else n :: dedupAux (k :: seen) ns

/-- `deduplicateNodes` (the pure core: first occurrence wins). -/
def deduplicateNodes (nodes : List Node) : List Node := dedupAux [] nodes

/-! ### Surge and Loon per-node converters -/

/-- The display name with `,` and `=` stripped. -/
def iniName (n : String) : String := ⟨n.data.filter (fun c => c ≠ ',' ∧ c ≠ '=')⟩

/-- Is the parameter present and non-empty (`if (params.get(k))`)? -/
def pTruthy (params : List (String × String)) (k : String) : Bool :=
  match paramsGet params k with
  | some s => s ≠ ""
  | none => false

/-- The parameter's text (used under a `pTruthy` guard). -/
def pStr (params : List (String × String)) (k : String) : String :=
  (paramsGet params k).getD ""

/-- `nodeToSurgeProxy`: one Surge `[Proxy]` line, `null` for
unsupported protocols or on any parse error. -/
def nodeToSurgeProxy (node : Node) : Option String :=
  if node.url = "" then none
  else
    match parseURL node.url with
    | none => none
    | some url =>
      let params := urlParams url
      let name := iniName node.name
      if node.protocol = "ss" then
        some (name ++ " = ss, " ++ url.host ++ ", " ++ url.port ++
          ", encrypt-method=" ++ url.username ++ ", password=" ++ url.password)
      else if node.protocol = "vmess" then
        if strStarts node.url "vmess://" then
          match atobStr (strDrop node.url 8) with
          | none => none
          | some dec =>
            match parseJSON dec with
            | none => none
            | some obj =>
              let line := name ++ " = vmess, " ++ jToStrOpt (jGet obj "add") ++ ", " ++
                jToStrOpt (jGet obj "port") ++ ", username=" ++ jToStrOpt (jGet obj "id")
              let line := if strEq (jGet obj "tls") "tls" then line ++ ", tls=true" else line
              let line := if strEq (jGet obj "net") "ws" then
                  line ++ ", ws=true, ws-path=" ++ jToStrOpt (jGet obj "path") else line
              some line
        else some ""
      else if node.protocol = "trojan" then
        let line := name ++ " = trojan, " ++ url.host ++ ", " ++ url.port ++
          ", password=" ++ url.username ++ ", tls=true"
        some (if pTruthy params "sni" then line ++ ", sni=" ++ pStr params "sni" else line)
      else if node.protocol = "tuic" then
        let line := name ++ " = tuic, " ++ url.host ++ ", " ++ url.port ++
          ", token=" ++ url.password
        some (if pTruthy params "sni" then line ++ ", sni=" ++ pStr params "sni" else line)
      else if node.protocol = "hysteria2" ∨ node.protocol = "hy2" then
        let pw := if url.username ≠ "" then url.username else url.password
        let line := name ++ " = hysteria2, " ++ url.host ++ ", " ++ url.port ++
          ", password=" ++ pw
        some (if pTruthy params "sni" then line ++ ", sni=" ++ pStr params "sni" else line)
      else none

/-- `nodeToLoonProxy`: one Loon `[Proxy]` line (unlike Surge, the
Loon emitter does handle VLESS), `null` otherwise. -/
def nodeToLoonProxy (node : Node) : Option String :=
  if node.url = "" then none
  else
    match parseURL node.url with
    | none => none
    | some url =>
      let params := urlParams url
      let name := iniName node.name
      if node.protocol = "ss" then
        let line := name ++ " = Shadowsocks, " ++ url.host ++ ", " ++ url.port ++ ", " ++
          url.username ++ ", \"" ++ url.password ++ "\""
        let line :=
          if paramsHas params "plugin" then
            let plugin := pStr params "plugin"
            if strIncludes plugin "obfs" then
              let line := line ++ ", obfs=" ++ (if strIncludes plugin "http" then "http" else "tls")
              if paramsHas params "obfs-host" then
                line ++ ", obfs-host=" ++ pStr params "obfs-host"
              else line
            else line
          else line
        some (line ++ ", fast-open=true, udp=true")
      else if node.protocol = "vmess" then
        if strStarts node.url "vmess://" then
          match atobStr (strDrop node.url 8) with
          | none => none
          | some dec =>
            match parseJSON dec with
            | none => none
            | some obj =>
              let cipher := jToStrOpt (jOr (jGet obj "scy") (some (JVal.jStr "auto")))
              let line := name ++ " = vmess, " ++ jToStrOpt (jGet obj "add") ++ ", " ++
                jToStrOpt (jGet obj "port") ++ ", " ++ cipher ++ ", \"" ++
                jToStrOpt (jGet obj "id") ++ "\""
              let line :=
                if strEq (jGet obj "tls") "tls" then
                  let line := line ++ ", over-tls=true"
                  let line := if jTruthy (jGet obj "sni") then
                      line ++ ", tls-name=" ++ jToStrOpt (jGet obj "sni") else line
                  if jTruthy (jGet obj "skip_cert_verify") ∨ jTruthy (jGet obj "skip-cert-verify") then
                    line ++ ", skip-cert-verify=true"
                  else line
                else line
              let line :=
                if strEq (jGet obj "net") "ws" then
                  let line := line ++ ", transport=ws"
                  let line := if jTruthy (jGet obj "path") then
                      line ++ ", path=" ++ jToStrOpt (jGet obj "path") else line
                  if jTruthy (jGet obj "host") then
                    line ++ ", host=" ++ jToStrOpt (jGet obj "host")
                  else line
                else if strEq (jGet obj "net") "grpc" then
                  let line := line ++ ", transport=grpc"
                  if jTruthy (jGet obj "serviceName") then
                    line ++ ", serviceName=" ++ jToStrOpt (jGet obj "serviceName")
                  else line
                else if strEq (jGet obj "net") "h2" then
                  let line := line ++ ", transport=http"
                  let line := if jTruthy (jGet obj "path") then
                      line ++ ", path=" ++ jToStrOpt (jGet obj "path") else line
                  if jTruthy (jGet obj "host") then
                    line ++ ", host=" ++ jToStrOpt (jGet obj "host")
                  else line
                else line
              some (line ++ ", vmess-aead=true, udp=true")
        else some ""
      else if node.protocol = "vless" then
        let line := name ++ " = vless, " ++ url.host ++ ", " ++ url.port ++ ", \"" ++
          url.username ++ "\""
        let line :=
          if paramsGet params "security" = some "tls" then
            let line := line ++ ", over-tls=true"
            let line := if pTruthy params "sni" then line ++ ", tls-name=" ++ pStr params "sni" else line
            if pTruthy params "fp" then line ++ ", fingerprint=" ++ pStr params "fp" else line
          else if paramsGet params "security" = some "reality" then
            let line := line ++ ", over-tls=true"
            let line := if pTruthy params "sni" then line ++ ", tls-name=" ++ pStr params "sni" else line
            let line := if pTruthy params "pbk" then line ++ ", public-key=" ++ pStr params "pbk" else line
            let line := if pTruthy params "sid" then line ++ ", short-id=" ++ pStr params "sid" else line
            if pTruthy params "fp" then line ++ ", fingerprint=" ++ pStr params "fp" else line
          else line
        let line :=
          if paramsGet params "type" = some "ws" then
            let line := line ++ ", transport=ws"
            let line := if pTruthy params "path" then line ++ ", path=" ++ pStr params "path" else line
            if pTruthy params "host" then line ++ ", host=" ++ pStr params "host" else line
          else if paramsGet params "type" = some "grpc" then
            let line := line ++ ", transport=grpc"
            if pTruthy params "serviceName" then
              line ++ ", serviceName=" ++ pStr params "serviceName"
            else line
          else line
        let line := if pTruthy params "flow" then line ++ ", flow=" ++ pStr params "flow" else line
        some (line ++ ", skip-cert-verify=true, udp=true, fast-open=true")
      else if node.protocol = "trojan" then
        let line := name ++ " = trojan, " ++ url.host ++ ", " ++ url.port ++ ", \"" ++
          url.username ++ "\""
        let line := if pTruthy params "sni" then line ++ ", tls-name=" ++ pStr params "sni" else line
        let line :=
          if paramsGet params "type" = some "ws" then
            let line := line ++ ", transport=ws, path=" ++
              (if pTruthy params "path" then pStr params "path" else "/")
            if pTruthy params "host" then line ++ ", host=" ++ pStr params "host" else line
          else if paramsGet params "type" = some "grpc" then
            let line := line ++ ", transport=grpc"
            if pTruthy params "serviceName" then
              line ++ ", serviceName=" ++ pStr params "serviceName"
            else line
          else line
        some (line ++ ", skip-cert-verify=true, udp=true, fast-open=true")
      else if node.protocol = "hysteria2" ∨ node.protocol = "hy2" then
        let pw := if url.username ≠ "" then url.username else url.password
        let line := name ++ " = Hysteria2, " ++ url.host ++ ", " ++ url.port ++ ", \"" ++ pw ++ "\""
        let line := if pTruthy params "sni" then line ++ ", sni=" ++ pStr params "sni" else line
        let line :=
          if pTruthy params "obfs" then
            let line := line ++ ", obfs=" ++ pStr params "obfs"
            if pTruthy params "obfs-password" then
              line ++ ", obfs-password=" ++ pStr params "obfs-password"
            else line
          else line
        let line := if pTruthy params "down" then line ++ ", down=" ++ pStr params "down" else line
        let line := if pTruthy params "up" then line ++ ", up=" ++ pStr params "up" else line
        some (line ++ ", skip-cert-verify=true")
      else none

/-! ### Clash-Meta group synthesis (generateClashMeta) -/

/-- `nodeToClashProxy`. -/
def nodeToClashProxy (node : Node) : Option JVal :=
  if node.url = "" then none
  else
    match node.originalProxy with
    | some p => some (jSet p "name" (jStr node.name))
    | none =>
      urlToClashProxy node.url node.name
        (if node.protocol = "" then "unknown" else node.protocol)

/-- The proxy objects of the Clash document. -/
def clashProxies (nodes : List Node) : List JVal := nodes.filterMap nodeToClashProxy

/-- The proxy-name list referenced by the groups (degrades to
`['DIRECT']` when empty). -/
def clashProxyNames (nodes : List Node) : List String :=
  let names := (clashProxies nodes).map (fun p => jToStrOpt (jGet p "name"))
  if names.isEmpty then ["DIRECT"] else names

structure ClashGroup where
  name : String
  gtype : String
  proxies : List String

/-- The synthesized `proxy-groups` of `generateClashMeta` (the YAML
serialisation by `js-yaml` is outside the model). -/
def clashMetaGroups (proxyNames : List String) : List ClashGroup :=
  let auto : ClashGroup := ⟨"♻️ 自动选择", "url-test", proxyNames⟩
  let mkSel := fun (name ico : String) =>
    ClashGroup.mk (ico ++ " " ++ name) "select" ("♻️ 自动选择" :: proxyNames ++ ["DIRECT"])
  [mkSel "节点选择" "🚀", auto,
   mkSel "电报信息" "📲", mkSel "OpenAI" "🤖", mkSel "奈飞视频" "🎬",
   mkSel "油管视频" "📹", mkSel "苹果服务" "🍎", mkSel "微软服务" "Ⓜ️",
   mkSel "国外媒体" "🌍",
   ⟨"🐟 漏网之鱼", "select", "🚀 节点选择" :: "♻️ 自动选择" :: proxyNames ++ ["DIRECT"]⟩]

/-! ### Specification-side helpers and concrete inputs for the
claims -/

/-- Spec-side description of the strategy loop: the value of the
first strategy that neither throws nor yields zero nodes. -/
def firstHit : List (Except String (List Node)) → Option (List Node)
  | [] => none
  | .error _ :: ms => firstHit ms
  | .ok r :: ms => if r.isEmpty then firstHit ms else some r

/-- Erase the randomly generated id of a node. -/
def eraseId (n : Node) : Node := { n with id := "" }

/-- Erase the ids inside a strategy outcome. -/
def exceptErase : Except String (List Node) → Except String (List Node)
  | .error e => .error e
  | .ok r => .ok (r.map eraseId)

/-- Characters safe in every position of the URI grammar this code
emits (letters, digits, `-`, `.`, `_`). -/
def isTokenCh (c : Char) : Bool := c.isAlphanum ∨ c = '-' ∨ c = '.' ∨ c = '_'

/-- A string of token characters. -/
def isToken (s : String) : Bool := s.data.all isTokenCh

/-- A structured VLESS proxy carrying the protocol's required fields
plus an optional plain-TLS flag and SNI (the input family of the
round-trip statement). -/
def mkVlessProxy (uuid server : String) (port : Nat) (tls : Bool)
    (sni : Option String) : JVal :=
  jObj ([("type", jStr "vless"), ("server", jStr server), ("port", jNum (port : Int)),
         ("uuid", jStr uuid)] ++
        (if tls then [("tls", jBool true)] else []) ++
        (match sni with
         | some s => [("sni", jStr s)]
         | none => []))

/-- A structured Shadowsocks proxy carrying the protocol's required
fields. -/
def mkSsProxy (method password server : String) (port : Nat) : JVal :=
  jObj [("type", jStr "ss"), ("server", jStr server), ("port", jNum (port : Int)),
        ("cipher", jStr method), ("password", jStr password)]

/-- Concrete SS proxy for the round-trip counterexample. -/
def c1SsProxy : JVal := mkSsProxy "aes-256-gcm" "abc" "1.2.3.4" 8388

/-- The share-URI the SS builder emits for `c1SsProxy`. -/
def c1SsUrl : String := "ss://YWVzLTI1Ni1nY206YWJj@1.2.3.4:8388"

/-- Concrete VLESS node for the Surge/Loon coverage claim. -/
def c6VlessNode : Node :=
  { id := "n-vless", name := "US Reality",
    url := "vless://uuid-1@1.1.1.1:443?encryption=none&security=reality&sni=google.com&fp=chrome&pbk=PK7d&sid=1a2b&type=tcp&headerType=none#US",
    protocol := "vless", enabled := true, typ := "manual", subscriptionName := "" }

/-- Concrete VLESS proxy object to which both the Reality bundle and
the plain TLS flag apply. -/
def c4Proxy : JVal :=
  jObj [("type", jStr "vless"), ("name", jStr "R1"),
        ("server", jStr "a.com"), ("port", jNum 443), ("uuid", jStr "1111"),
        ("tls", jBool true),
        ("reality-opts", jObj [("public-key", jStr "KEY"), ("short-id", jStr "ab12")]),
        ("sni", jStr "s.com")]

/-- Options with prepending enabled and no exclude rules. -/
def c8Options : ProcessOptions := { exclude := none, prependSubName := true }

/-- A VMess node whose body decodes to a JSON object. -/
def c8VmessNode : Node :=
  { id := "v1", name := "A",
    url := "vmess://eyJ2IjoiMiIsInBzIjoiQSIsImFkZCI6ImguY29tIiwicG9ydCI6NDQzfQ==",
    protocol := "vmess", enabled := true, typ := "manual", subscriptionName := "" }

/-- A non-VMess node without a fragment. -/
def c8TrojanNode : Node :=
  { id := "t1", name := "T", url := "trojan://pw@h.com:443",
    protocol := "trojan", enabled := true, typ := "manual", subscriptionName := "" }

/-- A non-VMess node with an existing fragment. -/
def c8SsNode : Node :=
  { id := "s1", name := "S", url := "ss://x@1.2.3.4:8388#Old",
    protocol := "ss", enabled := true, typ := "manual", subscriptionName := "" }

/-- Spec-side reading of the rule set: the rules prefixed `keep:`
(case-insensitively). -/
def specKeepRules (ex : String) : List String :=
  (excludeRules ex).filter (fun r => strStarts (lowStr r) "keep:")

/-- Spec-side whitelist decision, built from the `keep:` rules only:
the node's protocol is in the kept-protocol set, or its name matches
the regex combined from the free-text `keep:` rules. -/
def specWhitelistKeeps (rtest : String → String → Bool) (ex : String)
    (node : Node) : Bool :=
  let contents := (specKeepRules ex).map (fun r => trimStr (strDrop r 5))
  let protos :=
    ((contents.filter (fun c => strStarts (lowStr c) "proto:")).map ruleProtoList).flatten
  let nameParts := contents.filter (fun c => !(strStarts (lowStr c) "proto:"))
  protos.contains node.protocol ||
    (if nameParts ≠ [] then rtest (String.intercalate "|" nameParts) node.name else false)

/-- Spec-side blacklist decision, built from the whole rule set: the
node's protocol is excluded, or its name matches the excluded-name
regex. -/
def specBlacklistDrops (rtest : String → String → Bool) (ex : String)
    (node : Node) : Bool :=
  let rules := excludeRules ex
  let protos :=
    ((rules.filter (fun r => strStarts (lowStr r) "proto:")).map ruleProtoList).flatten
  let nameParts := rules.filter (fun r => !(strStarts (lowStr r) "proto:"))
  protos.contains node.protocol ||
    (if nameParts ≠ [] then rtest (String.intercalate "|" nameParts) node.name else false)

/-- A regex stand-in for the C3 witness: the pattern matches when it
occurs as a substring. -/
def c3Rtest : String → String → Bool := fun pat inp => strIncludes inp pat

/-- Nodes of three protocols for the C3 witness. -/
def c3Nodes : List Node :=
  [{ id := "1", name := "HK vless", url := "u1", protocol := "vless",
     enabled := true, typ := "s", subscriptionName := "" },
   { id := "2", name := "US trojan", url := "u2", protocol := "trojan",
     enabled := true, typ := "s", subscriptionName := "" },
   { id := "3", name := "JP ss", url := "u3", protocol := "ss",
     enabled := true, typ := "s", subscriptionName := "" }]

/-- A trivial yaml.load stand-in (a document js-yaml rejects). -/
def yloadNone : String → Option JVal := fun _ => none

/-- A trivial regex engine stand-in (nothing matches). -/
def rtestNone : String → String → Bool := fun _ _ => false

/-- One possible randomUUID outcome sequence. -/
def genA : Nat → String := fun n => "id-a-" ++ natStr n

/-- A different possible randomUUID outcome sequence. -/
def genB : Nat → String := fun n => "id-b-" ++ natStr n

/-- Concrete plain-text subscription content used to exhibit the id
freshness of two invocations of `parse`. -/
def c9Content : String := "ss://YWVzLTI1Ni1nY206YWJj@1.2.3.4:8388#Hello"

/-! ## Lemma toolkit -/

theorem paramsGet_set (ps : List (String × String)) (k v k' : String) :
    paramsGet (paramsSet ps k v) k' = if k = k' then some v else paramsGet ps k' := by
  induction ps with
  | nil => simp [paramsSet, paramsGet]
  | cons hd tl ih =>
    obtain ⟨a, b⟩ := hd
    by_cases hak : a = k
    · subst hak
      simp [paramsSet, paramsGet]
      by_cases hkk : a = k'
      · simp [hkk]
      · simp [hkk]
    · simp [paramsSet, hak, paramsGet]
      by_cases hak' : a = k'
      · subst hak'
        have : ¬ k = a := fun h => hak h.symm
        simp [this]
      · simp [hak', ih]

theorem mem_paramsSet {x : String × String} {ps : List (String × String)} {k v : String}
    (h : x ∈ paramsSet ps k v) : x ∈ ps ∨ x = (k, v) := by
  induction ps with
  | nil => simpa [paramsSet] using h
  | cons hd tl ih =>
    obtain ⟨a, b⟩ := hd
    by_cases hak : a = k
    · subst hak
      simp [paramsSet] at h
      rcases h with h | h
      · right; simp [h]
      · left; simp [h]
    · simp [paramsSet, hak] at h
      rcases h with h | h
      · left; simp [h]
      · rcases ih h with h2 | h2
        · left; simp [h2]
        · right; exact h2

theorem keys_paramsSet_sub {a : String} {ps : List (String × String)} {k v : String}
    (h : a ∈ (paramsSet ps k v).map Prod.fst) :
    a ∈ ps.map Prod.fst ∨ a = k := by
  rcases List.mem_map.mp h with ⟨x, hx, hfst⟩
  rcases mem_paramsSet hx with h2 | h2
  · exact Or.inl (hfst ▸ List.mem_map_of_mem Prod.fst h2)
  · right
    rw [h2] at hfst
    exact hfst.symm

theorem nodupKeys_paramsSet {ps : List (String × String)} (k v : String)
    (h : (ps.map Prod.fst).Nodup) : ((paramsSet ps k v).map Prod.fst).Nodup := by
  induction ps with
  | nil => simp [paramsSet]
  | cons hd tl ih =>
    obtain ⟨a, b⟩ := hd
    rw [List.map_cons, List.nodup_cons] at h
    obtain ⟨hna, hnd⟩ := h
    by_cases hak : a = k
    · subst hak
      rw [show paramsSet ((a, b) :: tl) a v = (a, v) :: tl from by simp [paramsSet]]
      rw [List.map_cons, List.nodup_cons]
      exact ⟨hna, hnd⟩
    · rw [show paramsSet ((a, b) :: tl) k v = (a, b) :: paramsSet tl k v from by
        simp [paramsSet, hak]]
      rw [List.map_cons, List.nodup_cons]
      refine ⟨fun hmem => ?_, ih hnd⟩
      rcases keys_paramsSet_sub hmem with h2 | h2
      · exact hna h2
      · exact hak h2

theorem get_of_mem_nodup {ps : List (String × String)} {k w : String}
    (hnd : (ps.map Prod.fst).Nodup) (hmem : (k, w) ∈ ps) : paramsGet ps k = some w := by
  induction ps with
  | nil => simp at hmem
  | cons hd tl ih =>
    obtain ⟨a, b⟩ := hd
    rw [List.map_cons, List.nodup_cons] at hnd
    obtain ⟨hna, hnd2⟩ := hnd
    rcases List.mem_cons.mp hmem with h | h
    · rw [Prod.ext_iff] at h
      obtain ⟨h1, h2⟩ := h
      subst h1
      subst h2
      simp [paramsGet]
    · have hak : a ≠ k := by
        intro he
        subst he
        exact hna (List.mem_map.mpr ⟨(a, w), h, rfl⟩)
      simp [paramsGet, hak]
      exact ih hnd2 h

theorem jGetF_setF (f : List (String × JVal)) (k : String) (v : JVal) (k' : String) :
    jGetF (jSetF f k v) k' = if k = k' then some v else jGetF f k' := by
  induction f with
  | nil => simp [jSetF, jGetF]
  | cons hd tl ih =>
    obtain ⟨a, b⟩ := hd
    by_cases hak : a = k
    · subst hak
      simp [jSetF, jGetF]
      by_cases hkk : a = k'
      · simp [hkk]
      · simp [hkk]
    · simp [jSetF, hak, jGetF]
      by_cases hak' : a = k'
      · subst hak'
        have : ¬ k = a := fun h => hak h.symm
        simp [this, jGetF]
      · simp [hak', ih, jGetF]

theorem jGet_jSet_obj (f : List (String × JVal)) (k : String) (v : JVal) (k' : String) :
    jGet (jSet (jObj f) k v) k' = if k = k' then some v else jGetF f k' := by
  simp [jSet, jGet, jGetF_setF]

theorem splitFirstC_not_mem {c : Char} {l : Str} (h : c ∉ l) : splitFirstC c l = none := by
  induction l with
  | nil => rfl
  | cons x xs ih =>
    have hxc : x ≠ c := fun he => h (he ▸ List.mem_cons_self x xs)
    have hx : c ∉ xs := fun hm => h (List.mem_cons_of_mem x hm)
    simp [splitFirstC, hxc, ih hx]

theorem splitFirstC_append {c : Char} {l r : Str} (h : c ∉ l) :
    splitFirstC c (l ++ c :: r) = some (l, r) := by
  induction l with
  | nil => simp [splitFirstC]
  | cons x xs ih =>
    have hxc : x ≠ c := fun he => h (he ▸ List.mem_cons_self x xs)
    have hx : c ∉ xs := fun hm => h (List.mem_cons_of_mem x hm)
    simp [splitFirstC, hxc, ih hx]

theorem splitLastC_not_mem {c : Char} {l : Str} (h : c ∉ l) : splitLastC c l = none := by
  induction l with
  | nil => rfl
  | cons x xs ih =>
    have hxc : x ≠ c := fun he => h (he ▸ List.mem_cons_self x xs)
    have hx : c ∉ xs := fun hm => h (List.mem_cons_of_mem x hm)
    simp [splitLastC, hxc, ih hx]

theorem splitLastC_append {c : Char} {l r : Str} (h : c ∉ r) :
    splitLastC c (l ++ c :: r) = some (l, r) := by
  induction l with
  | nil => simp [splitLastC, splitLastC_not_mem h]
  | cons x xs ih => simp [splitLastC, ih]

theorem takeWhile_of_all {p : Char → Bool} {l : Str} (h : ∀ c ∈ l, p c = true) :
    l.takeWhile p = l := by
  induction l with
  | nil => rfl
  | cons x xs ih =>
    rw [List.takeWhile_cons, h x (List.mem_cons_self x xs)]
    simp [ih (fun c hc => h c (List.mem_cons_of_mem x hc))]

/-! ### Token characters -/

theorem tokenCh_cases {c : Char} (h : isTokenCh c = true) :
    (48 ≤ c.toNat ∧ c.toNat ≤ 57) ∨ (65 ≤ c.toNat ∧ c.toNat ≤ 90) ∨
    (97 ≤ c.toNat ∧ c.toNat ≤ 122) ∨ c = '-' ∨ c = '.' ∨ c = '_' := by
  unfold isTokenCh at h
  simp only [decide_eq_true_eq] at h
  unfold Char.isAlphanum Char.isAlpha Char.isDigit Char.isUpper Char.isLower at h
  simp only [Bool.or_eq_true, Bool.and_eq_true, decide_eq_true_eq] at h
  rcases h with ((⟨h1, h2⟩ | ⟨h1, h2⟩) | ⟨h1, h2⟩) | h | h | h
  · exact Or.inr (Or.inl ⟨h1, h2⟩)
  · exact Or.inr (Or.inr (Or.inl ⟨h1, h2⟩))
  · exact Or.inl ⟨h1, h2⟩
  · exact Or.inr (Or.inr (Or.inr (Or.inl h)))
  · exact Or.inr (Or.inr (Or.inr (Or.inr (Or.inl h))))
  · exact Or.inr (Or.inr (Or.inr (Or.inr (Or.inr h))))

theorem tokenCh_not_userinfo {c : Char} (h : isTokenCh c = true) :
    inUserinfoSet c = false := by
  rcases tokenCh_cases h with hr | hr | hr | rfl | rfl | rfl
  case _ | _ | _ =>
    unfold inUserinfoSet
    simp only [decide_eq_false_iff_not, not_or]
    refine ⟨by omega, by omega, fun hm => ?_⟩
    simp only [List.mem_cons, List.not_mem_nil, or_false] at hm
    rcases hm with rfl | rfl | rfl | rfl | rfl | rfl | rfl | rfl | rfl | rfl | rfl | rfl |
      rfl | rfl | rfl | rfl | rfl | rfl <;> exact absurd hr (by decide)
  all_goals decide

theorem tokenCh_formSafe {c : Char} (h : isTokenCh c = true) : isFormSafe c = true := by
  unfold isTokenCh at h
  unfold isFormSafe
  simp only [Bool.or_eq_true, decide_eq_true_eq] at h ⊢
  tauto

theorem tokenCh_not_forbiddenHost {c : Char} (h : isTokenCh c = true) :
    forbiddenHostCh c = false := by
  rcases tokenCh_cases h with hr | hr | hr | rfl | rfl | rfl
  case _ | _ | _ =>
    unfold forbiddenHostCh
    simp only [decide_eq_false_iff_not]
    intro hm
    simp only [List.mem_cons, List.not_mem_nil, or_false] at hm
    rcases hm with rfl | rfl | rfl | rfl | rfl | rfl | rfl | rfl | rfl | rfl | rfl | rfl |
      rfl | rfl | rfl | rfl | rfl <;> exact absurd hr (by decide)
  all_goals decide

theorem tokenCh_ascii_printable {c : Char} (h : isTokenCh c = true) :
    (0x20 ≤ c.toNat ∧ c.toNat ≤ 0x7E) := by
  rcases tokenCh_cases h with hr | hr | hr | rfl | rfl | rfl
  case _ | _ | _ => omega
  all_goals decide

theorem token_not_mem {s : String} (hs : isToken s = true) {c : Char}
    (hc : isTokenCh c = false) : c ∉ s.data := by
  intro hm
  have := List.all_eq_true.mp hs c hm
  rw [hc] at this
  exact Bool.false_ne_true this

theorem token_mem_tokenCh {s : String} (hs : isToken s = true) {c : Char}
    (hm : c ∈ s.data) : isTokenCh c = true :=
  List.all_eq_true.mp hs c hm

theorem formEnc_all {l : Str} (h : ∀ c ∈ l, isTokenCh c = true) : formEnc l = l := by
  induction l with
  | nil => rfl
  | cons x xs ih =>
    have hx := h x (List.mem_cons_self x xs)
    unfold formEnc at ih ⊢
    simp only [List.map_cons, List.flatten_cons]
    rw [show formEncCh x = [x] from by unfold formEncCh; rw [tokenCh_formSafe hx]; rfl]
    rw [ih (fun c hc => h c (List.mem_cons_of_mem x hc))]
    rfl

theorem userinfoEnc_all {l : Str} (h : ∀ c ∈ l, isTokenCh c = true) :
    userinfoEnc l = l := by
  induction l with
  | nil => rfl
  | cons x xs ih =>
    have hx := h x (List.mem_cons_self x xs)
    unfold userinfoEnc at ih ⊢
    simp only [List.map_cons, List.flatten_cons]
    rw [tokenCh_not_userinfo hx]
    rw [show (if (false : Bool) = true then ((utf8Ch x).map pctByte).flatten else [x]) = [x]
      from by simp]
    rw [ih (fun c hc => h c (List.mem_cons_of_mem x hc))]
    rfl

theorem c0Enc_all {l : Str} (h : ∀ c ∈ l, isTokenCh c = true) : c0Enc l = l := by
  induction l with
  | nil => rfl
  | cons x xs ih =>
    have hx := tokenCh_ascii_printable (h x (List.mem_cons_self x xs))
    unfold c0Enc at ih ⊢
    simp only [List.map_cons, List.flatten_cons]
    rw [show (if x.toNat < 0x20 ∨ 0x7E < x.toNat then ((utf8Ch x).map pctByte).flatten
        else [x]) = [x] from by rw [if_neg (by omega)]]
    rw [ih (fun c hc => h c (List.mem_cons_of_mem x hc))]
    rfl

/-! ### Decimal rendering -/

theorem digitCh_isDigit {n : Nat} (h : n < 10) : (digitCh n).isDigit = true := by
  interval_cases n <;> decide

theorem digitCh_tokenCh (n : Nat) : isTokenCh (digitCh n) = true := by
  unfold digitCh
  split <;> decide

theorem digitCh_val {n : Nat} (h : n < 10) : (digitCh n).toNat = 48 + n := by
  interval_cases n <;> decide

theorem natReprAux_ne_nil {fuel n : Nat} (h : 0 < fuel) : natReprAux fuel n ≠ [] := by
  match fuel, h with
  | f + 1, _ =>
    unfold natReprAux
    split
    · simp
    · simp

theorem natReprAux_digits {fuel n : Nat} (h : n < fuel) :
    ∀ c ∈ natReprAux fuel n, c.isDigit = true := by
  induction fuel generalizing n with
  | zero => omega
  | succ f ih =>
    intro c hc
    unfold natReprAux at hc
    by_cases h10 : n < 10
    · rw [if_pos h10] at hc
      simp only [List.mem_singleton] at hc
      subst hc
      exact digitCh_isDigit h10
    · rw [if_neg h10] at hc
      rcases List.mem_append.mp hc with hc | hc
      · exact ih (by omega) c hc
      · simp only [List.mem_singleton] at hc
        subst hc
        exact digitCh_isDigit (Nat.mod_lt _ (by omega))

theorem natReprAux_tokens {fuel n : Nat} :
    ∀ c ∈ natReprAux fuel n, isTokenCh c = true := by
  induction fuel generalizing n with
  | zero => intro c hc; simp [natReprAux] at hc
  | succ f ih =>
    intro c hc
    unfold natReprAux at hc
    by_cases h10 : n < 10
    · rw [if_pos h10] at hc
      simp only [List.mem_singleton] at hc
      subst hc
      exact digitCh_tokenCh n
    · rw [if_neg h10] at hc
      rcases List.mem_append.mp hc with hc | hc
      · exact ih c hc
      · simp only [List.mem_singleton] at hc
        subst hc
        exact digitCh_tokenCh (n % 10)

theorem natStr_isToken (n : Nat) : isToken (natStr n) = true := by
  unfold isToken natStr
  rw [List.all_eq_true]
  intro c hc
  exact natReprAux_tokens c hc

theorem digitsToNatAux_append (acc : Nat) (l1 l2 : Str) :
    digitsToNatAux acc (l1 ++ l2) =
      match digitsToNatAux acc l1 with
      | some a => digitsToNatAux a l2
      | none => none := by
  induction l1 generalizing acc with
  | nil => simp [digitsToNatAux]
  | cons x xs ih =>
    by_cases hx : x.isDigit = true
    · simp [digitsToNatAux, hx, ih]
    · simp [digitsToNatAux, hx]

theorem digitsToNatAux_repr {fuel n : Nat} (h : n < fuel) (acc : Nat) :
    ∃ k, digitsToNatAux acc (natReprAux fuel n) = some (acc * 10 ^ k + n) ∧
      n < 10 ^ k ∧ 0 < k := by
  induction fuel generalizing n acc with
  | zero => omega
  | succ f ih =>
    unfold natReprAux
    by_cases h10 : n < 10
    · rw [if_pos h10]
      refine ⟨1, ?_, by omega, by omega⟩
      simp [digitsToNatAux, digitCh_isDigit h10, digitCh_val h10]
    · rw [if_neg h10]
      have hdiv : n / 10 < f := by omega
      obtain ⟨k, hk, hlt, hkpos⟩ := ih hdiv acc
      refine ⟨k + 1, ?_, ?_, by omega⟩
      · rw [digitsToNatAux_append, hk]
        have hm : n % 10 < 10 := Nat.mod_lt _ (by omega)
        simp [digitsToNatAux, digitCh_isDigit hm, digitCh_val hm]
        have : (acc * 10 ^ k + n / 10) * 10 + n % 10 = acc * 10 ^ (k + 1) + n := by
          have hnm := Nat.div_add_mod n 10
          ring_nf
          omega
        omega
      · have hnm := Nat.div_add_mod n 10
        have : n / 10 * 10 + n % 10 < 10 ^ k * 10 := by omega
        calc n = n / 10 * 10 + n % 10 := by omega
          _ < 10 ^ k * 10 := this
          _ = 10 ^ (k + 1) := by ring

theorem digitsToNat_natStr (n : Nat) : digitsToNat (natStr n).data = some n := by
  unfold digitsToNat natStr
  rw [if_neg (by simpa using natReprAux_ne_nil (Nat.succ_pos n))]
  obtain ⟨k, hk, _, _⟩ := digitsToNatAux_repr (Nat.lt_succ_self n) 0
  rw [hk]
  simp

theorem jsNumberOfStr_natStr (n : Nat) : jsNumberOfStr (natStr n) = n := by
  unfold jsNumberOfStr
  rw [if_neg (by simpa using natReprAux_ne_nil (Nat.succ_pos n))]
  rw [digitsToNat_natStr]
  rfl

theorem portOf_natStr {p : Nat} (h : p ≤ 65535) : portOf (natStr p).data = some (natStr p) := by
  unfold portOf
  rw [if_neg (by simpa using natReprAux_ne_nil (Nat.succ_pos p))]
  rw [if_pos (by rw [List.all_eq_true]; intro c hc; exact natReprAux_digits (Nat.lt_succ_self p) c hc)]
  rw [digitsToNat_natStr]
  simp [h]

/-! ### Query string round trip -/

theorem utf8Ch_ascii {c : Char} (h : c.toNat < 0x80) : utf8Ch c = [c.toNat] := by
  unfold utf8Ch
  rw [if_pos h]

theorem utf8DecAux_ascii {bs : List Nat} (h : ∀ b ∈ bs, b < 0x80) {fuel : Nat}
    (hf : bs.length ≤ fuel) : utf8DecAux fuel bs = bs.map Char.ofNat := by
  induction bs generalizing fuel with
  | nil => cases fuel <;> rfl
  | cons b rest ih =>
    match fuel, hf with
    | f + 1, hf =>
      unfold utf8DecAux
      rw [if_pos (h b (List.mem_cons_self b rest))]
      rw [ih (fun x hx => h x (List.mem_cons_of_mem b hx)) (by simpa using Nat.le_of_succ_le_succ hf)]
      rfl

theorem formDecBytesF_tokens {l : Str} (h : ∀ c ∈ l, isTokenCh c = true) {fuel : Nat}
    (hf : l.length ≤ fuel) : formDecBytesF fuel l = l.map Char.toNat := by
  induction l generalizing fuel with
  | nil => cases fuel <;> rfl
  | cons x xs ih =>
    match fuel, hf with
    | f + 1, hf =>
      have hx := h x (List.mem_cons_self x xs)
      have hplus : x ≠ '+' := fun he => by rw [he] at hx; exact absurd hx (by decide)
      have hpct : x ≠ '%' := fun he => by rw [he] at hx; exact absurd hx (by decide)
      have hascii : x.toNat < 0x80 := by
        have := tokenCh_ascii_printable hx
        omega
      unfold formDecBytesF
      rw [if_neg hplus, if_neg hpct, utf8Ch_ascii hascii]
      rw [ih (fun c hc => h c (List.mem_cons_of_mem x hc))
        (by simpa using Nat.le_of_succ_le_succ hf)]
      rfl

theorem formDecBytes_tokens {l : Str} (h : ∀ c ∈ l, isTokenCh c = true) :
    formDecBytes l = l.map Char.toNat :=
  formDecBytesF_tokens h (Nat.le_refl _)

theorem formDec_tokens {l : Str} (h : ∀ c ∈ l, isTokenCh c = true) : formDec l = l := by
  unfold formDec utf8DecReplace
  rw [formDecBytes_tokens h]
  rw [utf8DecAux_ascii (fun b hb => by
    rcases List.mem_map.mp hb with ⟨c, hc, rfl⟩
    have := tokenCh_ascii_printable (h c hc)
    omega) (by simp)]
  rw [List.map_map]
  rw [show (Char.ofNat ∘ Char.toNat) = fun c : Char => Char.ofNat c.toNat from rfl]
  rw [List.map_congr_left (fun c _ => Char.ofNat_toNat c)]
  exact List.map_id _

theorem splitAllC_ne_nil (c : Char) (l : Str) : splitAllC c l ≠ [] := by
  cases l with
  | nil => simp [splitAllC]
  | cons x xs =>
    unfold splitAllC
    cases hs : splitAllC c xs with
    | nil => simp
    | cons y ys =>
      simp only []
      split <;> simp

theorem splitAllC_not_mem {c : Char} {l : Str} (h : c ∉ l) : splitAllC c l = [l] := by
  induction l with
  | nil => rfl
  | cons x xs ih =>
    have hxc : x ≠ c := fun he => h (he ▸ List.mem_cons_self x xs)
    have hxs : c ∉ xs := fun hm => h (List.mem_cons_of_mem x hm)
    unfold splitAllC
    rw [ih hxs]
    simp [hxc]

theorem splitAllC_append_cons {c : Char} {x t : Str} (h : c ∉ x) :
    splitAllC c (x ++ c :: t) = x :: splitAllC c t := by
  induction x with
  | nil =>
    rw [List.nil_append]
    conv_lhs => unfold splitAllC
    cases ht : splitAllC c t with
    | nil => exact absurd ht (splitAllC_ne_nil c t)
    | cons y ys => simp
  | cons a x' ih =>
    have hac : a ≠ c := fun he => h (he ▸ List.mem_cons_self a x')
    have hx' : c ∉ x' := fun hm => h (List.mem_cons_of_mem a hm)
    rw [List.cons_append]
    conv_lhs => unfold splitAllC
    rw [ih hx']
    simp [hac]

theorem splitAllC_joinC {c : Char} {pieces : List Str}
    (h : ∀ p ∈ pieces, c ∉ p) (hne : pieces ≠ []) :
    splitAllC c (joinC c pieces) = pieces := by
  induction pieces with
  | nil => exact absurd rfl hne
  | cons x rest ih =>
    cases rest with
    | nil => exact splitAllC_not_mem (h x (List.mem_cons_self x []))
    | cons y rest' =>
      rw [show joinC c (x :: y :: rest') = x ++ c :: joinC c (y :: rest') from rfl]
      rw [splitAllC_append_cons (h x (List.mem_cons_self x _))]
      rw [ih (fun p hp => h p (List.mem_cons_of_mem x hp)) (by simp)]

theorem parseQueryStr_renderQuery {ps : List (String × String)}
    (h : ∀ kv ∈ ps, isToken kv.1 = true ∧ isToken kv.2 = true) :
    parseQueryStr (renderQuery ps) = ps := by
  have hren : renderQuery ps =
      joinC '&' (ps.map (fun kv => kv.1.data ++ '=' :: kv.2.data)) := by
    unfold renderQuery
    congr 1
    apply List.map_congr_left
    intro kv hkv
    rw [formEnc_all (fun c hc => token_mem_tokenCh (h kv hkv).1 hc),
        formEnc_all (fun c hc => token_mem_tokenCh (h kv hkv).2 hc)]
  cases hps : ps with
  | nil =>
    subst hps
    rfl
  | cons kv0 rest =>
    rw [← hps]
    have hsplit : splitAllC '&' (renderQuery ps) =
        ps.map (fun kv => kv.1.data ++ '=' :: kv.2.data) := by
      rw [hren]
      apply splitAllC_joinC
      · intro p hp
        rcases List.mem_map.mp hp with ⟨kv, hkv, rfl⟩
        intro hmem
        rcases List.mem_append.mp hmem with hm | hm
        · exact absurd (token_mem_tokenCh (h kv hkv).1 hm) (by decide)
        · rcases List.mem_cons.mp hm with he | hm2
          · exact absurd he (by decide)
          · exact absurd (token_mem_tokenCh (h kv hkv).2 hm2) (by decide)
      · rw [hps]
        simp
    unfold parseQueryStr
    rw [hsplit]
    have hfil : (ps.map (fun kv => kv.1.data ++ '=' :: kv.2.data)).filter
        (fun seg => !seg.isEmpty) = ps.map (fun kv => kv.1.data ++ '=' :: kv.2.data) := by
      apply List.filter_eq_self.mpr
      intro p hp
      rcases List.mem_map.mp hp with ⟨kv, hkv, rfl⟩
      simp
    rw [hfil, List.map_map]
    have hone : ∀ kv ∈ ps,
        (parseQuerySeg ∘ (fun kv : String × String => kv.1.data ++ '=' :: kv.2.data)) kv
          = kv := by
      intro kv hkv
      obtain ⟨h1, h2⟩ := h kv hkv
      simp only [Function.comp]
      unfold parseQuerySeg
      rw [splitFirstC_append (token_not_mem h1 (by decide))]
      simp only []
      rw [formDec_tokens (fun c hc => token_mem_tokenCh h1 hc),
          formDec_tokens (fun c hc => token_mem_tokenCh h2 hc)]
    rw [List.map_congr_left hone]
    simp

/-! ## Claim C7 -/

set_option maxRecDepth 8000 in
/-- C7: emitting an empty node list through the Clash-Meta generator
still yields proxy groups whose member lists are all non-empty and
whose members are each either `DIRECT` or the name of another group
synthesized in the same document. -/
theorem clashMeta_empty_groups_direct :
    ((clashMetaGroups (clashProxyNames [])).all (fun g =>
      (!g.proxies.isEmpty) &&
      g.proxies.all (fun m =>
        m == "DIRECT" ||
        (clashMetaGroups (clashProxyNames [])).any (fun h => h.name == m)))) = true := by
  decide

/-! ## Claim C6 -/

set_option maxRecDepth 80000 in
/-- C6 counterexample: the Loon per-node converter does not return
null for a VLESS node — it emits a proxy line, so the claim that both
INI emitters silently skip VLESS is false for Loon. -/
theorem loon_vless_not_null : (nodeToLoonProxy c6VlessNode).isSome = true := by
  decide

set_option maxRecDepth 80000 in
/-- C6 (amended): the Surge per-node converter returns null for every
VLESS node, so Surge silently skips VLESS; the Loon converter instead
supports VLESS and emits a proxy line for it. -/
theorem surge_skips_vless_loon_emits :
    (∀ node : Node, node.protocol = "vless" → nodeToSurgeProxy node = none) ∧
    nodeToLoonProxy c6VlessNode =
      some ("US Reality = vless, 1.1.1.1, 443, \"uuid-1\", over-tls=true, tls-name=google.com, public-key=PK7d, short-id=1a2b, fingerprint=chrome, skip-cert-verify=true, udp=true, fast-open=true") := by
  constructor
  · intro node h
    unfold nodeToSurgeProxy
    split
    · rfl
    · cases parseURL node.url with
      | none => rfl
      | some url => simp [h]
  · decide

/-- C6 witness: the amended theorem applied at a concrete VLESS
node. -/
theorem surge_skips_vless_witness : nodeToSurgeProxy c6VlessNode = none :=
  surge_skips_vless_loon_emits.1 c6VlessNode rfl

/-! ## Claims C5 and C10: fingerprints -/

theorem strStarts_append (p t : String) : strStarts (p ++ t) p = true := by
  unfold strStarts
  rw [String.data_append]
  exact List.isPrefixOf_iff_prefix.mpr (List.prefix_append _ _)

theorem strDrop_prefix (p t : String) : strDrop (p ++ t) p.data.length = t := by
  unfold strDrop
  rw [String.data_append, List.drop_left]

theorem stripB64Pad_spec (l : Str) :
    stripB64Pad l = l ∨ (∃ r, l = r ++ ['='] ∧ stripB64Pad l = r) ∨
      (∃ r, l = r ++ ['=', '='] ∧ stripB64Pad l = r) := by
  rcases hr : l.reverse with _ | ⟨a, t⟩
  · left
    unfold stripB64Pad
    rw [hr]
  · have hl : l = (a :: t).reverse := by
      rw [← hr, List.reverse_reverse]
    rcases t with _ | ⟨b, t2⟩
    · by_cases ha : a = '='
      · subst ha
        right; left
        refine ⟨[], by simpa using hl, ?_⟩
        unfold stripB64Pad
        rw [hr]
        simp
      · left
        unfold stripB64Pad
        rw [hr]
        simp [ha]
    · by_cases ha : a = '='
      · subst ha
        by_cases hb : b = '='
        · subst hb
          right; right
          refine ⟨t2.reverse, by rw [hl]; simp, ?_⟩
          unfold stripB64Pad
          rw [hr]
          simp
        · right; left
          refine ⟨(b :: t2).reverse, by rw [hl]; simp, ?_⟩
          unfold stripB64Pad
          rw [hr]
          simp [hb]
      · left
        unfold stripB64Pad
        rw [hr]
        simp [ha]

theorem mem_stripB64Pad {x : Char} {l : Str} (hx : x ∈ l) (hne : x ≠ '=') :
    x ∈ stripB64Pad l := by
  rcases stripB64Pad_spec l with h | ⟨r, hl, hs⟩ | ⟨r, hl, hs⟩
  · rwa [h]
  · rw [hs]
    rw [hl] at hx
    rcases List.mem_append.mp hx with hm | hm
    · exact hm
    · simp at hm
      exact absurd hm hne
  · rw [hs]
    rw [hl] at hx
    rcases List.mem_append.mp hx with hm | hm
    · exact hm
    · simp at hm
      exact absurd hm hne

theorem b64Vals_none {cs : Str} (h : ∃ c ∈ cs, b64Val c = none) :
    b64Vals cs = none := by
  induction cs with
  | nil =>
    rcases h with ⟨c, hc, _⟩
    simp at hc
  | cons x xs ih =>
    rcases h with ⟨c, hc, hv⟩
    rcases List.mem_cons.mp hc with he | hc2
    · subst he
      unfold b64Vals
      rw [hv]
    · unfold b64Vals
      rw [ih ⟨c, hc2, hv⟩]
      cases b64Val x <;> rfl

theorem atobStr_hash {s : String} (h : '#' ∈ s.data) : atobStr s = none := by
  unfold atobStr
  have h0 : '#' ∈ s.data.filter (fun c => !isAsciiWs c) :=
    List.mem_filter.mpr ⟨h, by decide⟩
  have h1 : '#' ∈ atobClean s.data := by
    unfold atobClean
    split
    · exact mem_stripB64Pad h0 (by decide)
    · exact h0
  unfold atobCore
  split
  · rfl
  · rw [b64Vals_none ⟨'#', h1, by decide⟩]

theorem string_append_right_cancel {p a b : String} (h : p ++ a = p ++ b) : a = b := by
  have hd := congrArg String.data h
  rw [String.data_append, String.data_append] at hd
  have := List.append_cancel_left hd
  cases a with
  | mk da =>
    cases b with
    | mk db =>
      simp only [] at this
      rw [this]

/-- C5: the de-duplication fingerprint ignores display names — two
vmess URIs whose decoded JSON payloads agree after deleting
`ps`/`remark` and sorting keys share one fingerprint, and for any
non-vmess URI the fingerprint is the URI with its `#fragment`
removed, so two URIs differing only in the fragment share one
fingerprint. -/
theorem getUniqueKey_name_insensitive :
    (∀ b1 b2 d1 d2 : String, ∀ o1 o2 : List (String × JVal),
      atobStr b1 = some d1 → parseJSON (stripWs d1) = some (jObj o1) →
      atobStr b2 = some d2 → parseJSON (stripWs d2) = some (jObj o2) →
      canonFields (jDelF (jDelF o1 "ps") "remark") =
        canonFields (jDelF (jDelF o2 "ps") "remark") →
      getUniqueKey ("vmess://" ++ b1) = getUniqueKey ("vmess://" ++ b2)) ∧
    (∀ base f1 f2 : String,
      strStarts (base ++ "#" ++ f1) "vmess://" = false →
      strStarts (base ++ "#" ++ f2) "vmess://" = false →
      '#' ∉ base.data →
      getUniqueKey (base ++ "#" ++ f1) = getUniqueKey (base ++ "#" ++ f2)) := by
  constructor
  · intro b1 b2 d1 d2 o1 o2 h1a h1b h2a h2b heq
    have e1 : strDrop ("vmess://" ++ b1) 8 = b1 := strDrop_prefix "vmess://" b1
    have e2 : strDrop ("vmess://" ++ b2) 8 = b2 := strDrop_prefix "vmess://" b2
    unfold getUniqueKey
    rw [strStarts_append, strStarts_append]
    simp only [if_true, e1, e2, h1a, h2a, h1b, h2b]
    simp only [delNameFields, jsObjEntries]
    rw [heq]
  · intro base f1 f2 hs1 hs2 hb
    have hd1 : (base ++ "#" ++ f1).data = base.data ++ '#' :: f1.data := by
      rw [String.data_append, String.data_append]
      simp
    have hd2 : (base ++ "#" ++ f2).data = base.data ++ '#' :: f2.data := by
      rw [String.data_append, String.data_append]
      simp
    unfold getUniqueKey
    rw [hs1, hs2]
    simp only [Bool.false_eq_true, if_false]
    rw [hd1, hd2, splitFirstC_append hb, splitFirstC_append hb]

/-- C5 witness: two concrete vmess URIs whose payloads differ in the
`ps` field and in key order, and two concrete trojan URIs differing
only in the fragment, each pair sharing one fingerprint. -/
theorem getUniqueKey_name_insensitive_witness :
    getUniqueKey ("vmess://" ++ "eyJ2IjoiMiIsInBzIjoiQSIsImFkZCI6ImguY29tIiwicG9ydCI6NDQzfQ==") =
      getUniqueKey ("vmess://" ++ "eyJwb3J0Ijo0NDMsInYiOiIyIiwicHMiOiJCISIsImFkZCI6ImguY29tIn0=") ∧
    getUniqueKey ("trojan://pw@h.com:443?sni=x" ++ "#" ++ "NameA") =
      getUniqueKey ("trojan://pw@h.com:443?sni=x" ++ "#" ++ "NameB") :=
  ⟨getUniqueKey_name_insensitive.1
      "eyJ2IjoiMiIsInBzIjoiQSIsImFkZCI6ImguY29tIiwicG9ydCI6NDQzfQ=="
      "eyJwb3J0Ijo0NDMsInYiOiIyIiwicHMiOiJCISIsImFkZCI6ImguY29tIn0="
      "\x7b\"v\":\"2\",\"ps\":\"A\",\"add\":\"h.com\",\"port\":443\x7d"
      "\x7b\"port\":443,\"v\":\"2\",\"ps\":\"B!\",\"add\":\"h.com\"\x7d"
      [("v", jStr "2"), ("ps", jStr "A"), ("add", jStr "h.com"), ("port", jNum 443)]
      [("port", jNum 443), ("v", jStr "2"), ("ps", jStr "B!"), ("add", jStr "h.com")]
      rfl rfl rfl rfl rfl,
   getUniqueKey_name_insensitive.2 "trojan://pw@h.com:443?sni=x" "NameA" "NameB"
      rfl rfl (by decide)⟩

/-- C10: the fingerprint of a malformed `vmess://` URI (a `#fragment`
after the base64 body makes `atob` throw) falls back to the complete
raw URL including the fragment, so two such URLs differing only in
the fragment get distinct fingerprints and de-duplication keeps
both. -/
theorem getUniqueKey_malformed_vmess_fallback
    (b f1 f2 : String) (hne : f1 ≠ f2) (n1 n2 : Node)
    (hu1 : n1.url = "vmess://" ++ b ++ "#" ++ f1)
    (hu2 : n2.url = "vmess://" ++ b ++ "#" ++ f2) :
    getUniqueKey n1.url = n1.url ∧ getUniqueKey n2.url = n2.url ∧
    getUniqueKey n1.url ≠ getUniqueKey n2.url ∧
    deduplicateNodes [n1, n2] = [n1, n2] := by
  have hfb : ∀ f : String,
      getUniqueKey ("vmess://" ++ b ++ "#" ++ f) = "vmess://" ++ b ++ "#" ++ f := by
    intro f
    have hassoc : "vmess://" ++ b ++ "#" ++ f = "vmess://" ++ (b ++ "#" ++ f) := by
      simp [String.append_assoc]
    rw [hassoc]
    unfold getUniqueKey
    rw [strStarts_append]
    simp only [if_true]
    have e : strDrop ("vmess://" ++ (b ++ "#" ++ f)) 8 = b ++ "#" ++ f :=
      strDrop_prefix "vmess://" (b ++ "#" ++ f)
    rw [e]
    rw [atobStr_hash (s := b ++ "#" ++ f) (by
      rw [String.data_append, String.data_append]
      exact List.mem_append.mpr (Or.inl (List.mem_append.mpr (Or.inr (by simp)))))]
  have hne' : ("vmess://" ++ b ++ "#" ++ f1 : String) ≠ "vmess://" ++ b ++ "#" ++ f2 := by
    intro he
    exact hne (string_append_right_cancel he)
  refine ⟨hu1 ▸ hfb f1, hu2 ▸ hfb f2, ?_, ?_⟩
  · rw [hu1, hu2, hfb f1, hfb f2]
    exact hne'
  · unfold deduplicateNodes
    unfold dedupAux
    rw [hu1, hfb f1]
    simp only [List.contains_nil, Bool.false_eq_true, if_false]
    unfold dedupAux
    rw [hu2, hfb f2]
    have hcon : (["vmess://" ++ b ++ "#" ++ f1].contains
        ("vmess://" ++ b ++ "#" ++ f2)) = false := by
      simp only [List.contains_cons, List.contains_nil, Bool.or_false]
      exact beq_eq_false_iff_ne.mpr (fun he => hne' he.symm)
    simp only [hcon, Bool.false_eq_true, if_false]
    rfl

/-- C10 witness: the fallback theorem applied at concrete nodes. -/
theorem getUniqueKey_malformed_vmess_witness :
    deduplicateNodes
      [{ id := "1", name := "A", url := "vmess://notb64" ++ "#" ++ "A", protocol := "vmess",
         enabled := true, typ := "manual", subscriptionName := "" },
       { id := "2", name := "B", url := "vmess://notb64" ++ "#" ++ "B", protocol := "vmess",
         enabled := true, typ := "manual", subscriptionName := "" }] =
      [{ id := "1", name := "A", url := "vmess://notb64" ++ "#" ++ "A", protocol := "vmess",
         enabled := true, typ := "manual", subscriptionName := "" },
       { id := "2", name := "B", url := "vmess://notb64" ++ "#" ++ "B", protocol := "vmess",
         enabled := true, typ := "manual", subscriptionName := "" }] :=
  (getUniqueKey_malformed_vmess_fallback "notb64" "A" "B" (by decide) _ _
    (by rw [show ("vmess://notb64" : String) = "vmess://" ++ "notb64" from rfl])
    (by rw [show ("vmess://notb64" : String) = "vmess://" ++ "notb64" from rfl])).2.2.2

/-! ## Claim C4: Reality precedence in the VLESS builder -/

theorem paramsGet_setIf (c : Prop) [Decidable c] (ps : List (String × String))
    (k v k' : String) (h : ¬ (k = k')) :
    paramsGet (if c then paramsSet ps k v else ps) k' = paramsGet ps k' := by
  split
  · simp [paramsGet_set, h]
  · rfl

set_option maxHeartbeats 2000000 in
theorem paramsGet_transport {k : String} (p : JVal) (net : String)
    (ps : List (String × String))
    (h1 : ¬ ("path" = k)) (h2 : ¬ ("host" = k)) (h3 : ¬ ("ed" = k))
    (h4 : ¬ ("eh" = k)) (h5 : ¬ ("serviceName" = k)) (h6 : ¬ ("mode" = k))
    (h7 : ¬ ("headerType" = k)) (h8 : ¬ ("quicSecurity" = k)) (h9 : ¬ ("key" = k)) :
    paramsGet (vlessTransportParams p net ps) k = paramsGet ps k := by
  simp only [vlessTransportParams]
  repeat' split
  all_goals simp [paramsGet_set, h1, h2, h3, h4, h5, h6, h7, h8, h9]

theorem vlessSecParams_reality (p : JVal) (ps : List (String × String))
    (h : vlessIsReality p = true) :
    paramsGet (vlessSecParams p ps) "security" = some "reality" ∧
    (jTruthy (vlessPbk p) = true →
      paramsGet (vlessSecParams p ps) "pbk" = some (jToStrOpt (vlessPbk p))) ∧
    (jTruthy (vlessSid p) = true →
      paramsGet (vlessSecParams p ps) "sid" = some (jToStrOpt (vlessSid p))) := by
  refine ⟨?_, fun hp => ?_, fun hs => ?_⟩
  · simp [vlessSecParams, h, paramsGet_setIf, paramsGet_set]
  · simp [vlessSecParams, h, hp, paramsGet_setIf, paramsGet_set]
  · simp [vlessSecParams, h, hs, paramsGet_setIf, paramsGet_set]

/-- C4: when both the Reality discriminator and the plain-TLS
discriminator of `buildVlessUrlEnhanced` hold for a structured VLESS
proxy, the emitted query carries `security=reality` together with the
`pbk` parameter (and `sid` when a short id is present) and never
`security=tls`: Reality takes precedence and is not downgraded. -/
theorem vless_reality_precedence (p : JVal)
    (hR : vlessIsReality p = true) (hT : vlessIsTls p = true) :
    paramsGet (vlessParams p) "security" = some "reality" ∧
    (jTruthy (vlessPbk p) = true →
      paramsGet (vlessParams p) "pbk" = some (jToStrOpt (vlessPbk p))) ∧
    (jTruthy (vlessSid p) = true →
      paramsGet (vlessParams p) "sid" = some (jToStrOpt (vlessSid p))) ∧
    paramsGet (vlessParams p) "security" ≠ some "tls" := by
  refine ⟨?_, fun hp => ?_, fun hs => ?_, ?_⟩
  · simp only [vlessParams]
    rw [paramsGet_transport p (vlessNetwork p) _ (by decide) (by decide) (by decide)
      (by decide) (by decide) (by decide) (by decide) (by decide) (by decide)]
    exact (vlessSecParams_reality p _ hR).1
  · simp only [vlessParams]
    rw [paramsGet_transport p (vlessNetwork p) _ (by decide) (by decide) (by decide)
      (by decide) (by decide) (by decide) (by decide) (by decide) (by decide)]
    exact (vlessSecParams_reality p _ hR).2.1 hp
  · simp only [vlessParams]
    rw [paramsGet_transport p (vlessNetwork p) _ (by decide) (by decide) (by decide)
      (by decide) (by decide) (by decide) (by decide) (by decide) (by decide)]
    exact (vlessSecParams_reality p _ hR).2.2 hs
  · simp only [vlessParams]
    rw [paramsGet_transport p (vlessNetwork p) _ (by decide) (by decide) (by decide)
      (by decide) (by decide) (by decide) (by decide) (by decide) (by decide)]
    rw [(vlessSecParams_reality p _ hR).1]
    simp

/-- C4 witness: a concrete proxy carrying both `reality-opts` (with a
public key and a short id) and `tls: true`. -/
theorem vless_reality_precedence_witness :
    vlessIsReality c4Proxy = true ∧ vlessIsTls c4Proxy = true ∧
    paramsGet (vlessParams c4Proxy) "security" = some "reality" ∧
    paramsGet (vlessParams c4Proxy) "pbk" = some (jToStrOpt (vlessPbk c4Proxy)) ∧
    paramsGet (vlessParams c4Proxy) "sid" = some (jToStrOpt (vlessSid c4Proxy)) ∧
    paramsGet (vlessParams c4Proxy) "security" ≠ some "tls" :=
  have h := vless_reality_precedence c4Proxy (by decide) (by decide)
  ⟨by decide, by decide, h.1, h.2.1 (by decide), h.2.2.1 (by decide), h.2.2.2⟩

/-! ## Claim C8: the prepend renaming -/

theorem hash_ne_b64Ch (n : Nat) : ¬ ('#' = b64Ch n) := by
  intro h
  unfold b64Ch at h
  rw [List.getD_eq_getElem?_getD] at h
  cases hg : b64Alpha[n]? with
  | none =>
    rw [hg] at h
    exact absurd h (by decide)
  | some c =>
    rw [hg] at h
    simp at h
    subst h
    exact absurd (List.getElem?_mem hg) (by decide)

theorem btoaBytes_ne_hash : ∀ bs : List Nat, '#' ∉ btoaBytes bs
  | [] => by simp [btoaBytes]
  | [b0] => by simp [btoaBytes, hash_ne_b64Ch]
  | [b0, b1] => by simp [btoaBytes, hash_ne_b64Ch]
  | b0 :: b1 :: b2 :: rest => by
    simp [btoaBytes, hash_ne_b64Ch]
    exact btoaBytes_ne_hash rest

theorem fragmentWithName_no_frag {url : String} (h : '#' ∉ url.data) (N : String) :
    fragmentWithName url N = url ++ "#" ++ encodeURIComponentStr N := by
  cases url with
  | mk d =>
    cases hE : encodeURIComponentStr N with
    | mk e =>
      unfold fragmentWithName
      rw [splitLastC_not_mem h, hE]
      exact congrArg String.mk ((List.append_assoc d ['#'] e).symm)

theorem fragmentWithName_replace {url : String} {b frag : Str}
    (hurl : url.data = b ++ '#' :: frag) (hnof : '#' ∉ frag) (N : String) :
    fragmentWithName url N = (⟨b⟩ : String) ++ "#" ++ encodeURIComponentStr N := by
  cases hE : encodeURIComponentStr N with
  | mk e =>
    unfold fragmentWithName
    rw [hurl, splitLastC_append hnof, hE]
    exact congrArg String.mk ((List.append_assoc b ['#'] e).symm)

/-- C8: with prepending enabled and a node whose name does not already
start with the subscription label, `processNodes` renames the node to
`label - name`; a VMess node whose body decodes to a JSON object gets
the new name written into the inner `ps` field and the URL re-encoded
with no `#` anywhere in it, while a non-VMess node gets the new name
as its `#fragment` (appended when there is none, replacing the old one
otherwise). -/
theorem prepend_subname_renaming :
    (∀ (rtest : String → String → Bool) (node : Node) (subName : String)
       (options : ProcessOptions) (dec : String) (f : List (String × JVal)),
      options.prependSubName = true → options.exclude = none → subName ≠ "" →
      strStarts node.name subName = false →
      node.protocol = "vmess" → strStarts node.url "vmess://" = true →
      decodeBase64 (strDrop node.url 8) = some dec →
      parseJSON dec = some (jObj f) →
      processNodes rtest [node] subName options =
        [{ node with
             name := subName ++ " - " ++ node.name,
             url := "vmess://" ++ encodeBase64 (jsonStringify (jObj
             (jSetF f "ps" (jStr (subName ++ " - " ++ node.name))))) }] ∧
      '#' ∉ ("vmess://" ++ encodeBase64 (jsonStringify (jObj
             (jSetF f "ps" (jStr (subName ++ " - " ++ node.name)))))).data) ∧
    (∀ (rtest : String → String → Bool) (node : Node) (subName : String)
       (options : ProcessOptions),
      options.prependSubName = true → options.exclude = none → subName ≠ "" →
      strStarts node.name subName = false →
      node.protocol ≠ "vmess" → '#' ∉ node.url.data →
      processNodes rtest [node] subName options =
        [{ node with
             name := subName ++ " - " ++ node.name,
             url := node.url ++ "#" ++
             encodeURIComponentStr (subName ++ " - " ++ node.name) }]) ∧
    (∀ (rtest : String → String → Bool) (node : Node) (subName : String)
       (options : ProcessOptions) (b frag : Str),
      options.prependSubName = true → options.exclude = none → subName ≠ "" →
      strStarts node.name subName = false →
      node.protocol ≠ "vmess" → node.url.data = b ++ '#' :: frag → '#' ∉ frag →
      processNodes rtest [node] subName options =
        [{ node with
             name := subName ++ " - " ++ node.name,
             url := (⟨b⟩ : String) ++ "#" ++
             encodeURIComponentStr (subName ++ " - " ++ node.name) }]) := by
  refine ⟨?_, ?_, ?_⟩
  · intro rtest node subName options dec f ho hex hsub hname hproto hstart hdec hjson
    have hred : processNodes rtest [node] subName options = [prependOne subName node] := by
      simp [processNodes, hex, ho, hsub]
    constructor
    · rw [hred]
      simp [prependOne, hname, hproto, hstart, vmessRewritePs, hdec, hjson]
    · intro hmem
      rw [String.data_append] at hmem
      rcases List.mem_append.mp hmem with hm | hm
      · exact absurd hm (by decide)
      · exact btoaBytes_ne_hash _ hm
  · intro rtest node subName options ho hex hsub hname hproto hnof
    have hred : processNodes rtest [node] subName options = [prependOne subName node] := by
      simp [processNodes, hex, ho, hsub]
    rw [hred]
    have hfrag := fragmentWithName_no_frag hnof (subName ++ " - " ++ node.name)
    simp [prependOne, hname, hproto, hfrag]
  · intro rtest node subName options b frag ho hex hsub hname hproto hurl hnof
    have hred : processNodes rtest [node] subName options = [prependOne subName node] := by
      simp [processNodes, hex, ho, hsub]
    rw [hred]
    have hfrag := fragmentWithName_replace hurl hnof (subName ++ " - " ++ node.name)
    simp [prependOne, hname, hproto, hfrag]

set_option maxRecDepth 80000 in
/-- C8 witness: a VMess node (inner `ps` rewrite), a fragment-free
trojan node (fragment appended) and an ss node with an old fragment
(fragment replaced). -/
theorem prepend_subname_renaming_witness :
    processNodes rtestNone [c8VmessNode] "Sub" c8Options =
      [{ c8VmessNode with
           name := "Sub" ++ " - " ++ c8VmessNode.name,
           url := "vmess://" ++ encodeBase64 (jsonStringify (jObj (jSetF
           [("v", jStr "2"), ("ps", jStr "A"), ("add", jStr "h.com"), ("port", jNum 443)]
           "ps" (jStr ("Sub" ++ " - " ++ c8VmessNode.name))))) }] ∧
    processNodes rtestNone [c8TrojanNode] "Sub" c8Options =
      [{ c8TrojanNode with
           name := "Sub" ++ " - " ++ c8TrojanNode.name,
           url := c8TrojanNode.url ++ "#" ++
           encodeURIComponentStr ("Sub" ++ " - " ++ c8TrojanNode.name) }] ∧
    processNodes rtestNone [c8SsNode] "Sub" c8Options =
      [{ c8SsNode with
           name := "Sub" ++ " - " ++ c8SsNode.name,
           url := (⟨"ss://x@1.2.3.4:8388".data⟩ : String) ++ "#" ++
           encodeURIComponentStr ("Sub" ++ " - " ++ c8SsNode.name) }] :=
  ⟨(prepend_subname_renaming.1 rtestNone c8VmessNode "Sub" c8Options
      "\x7b\"v\":\"2\",\"ps\":\"A\",\"add\":\"h.com\",\"port\":443\x7d"
      [("v", jStr "2"), ("ps", jStr "A"), ("add", jStr "h.com"), ("port", jNum 443)]
      rfl rfl (by decide) (by decide) rfl (by decide) rfl rfl).1,
   prepend_subname_renaming.2.1 rtestNone c8TrojanNode "Sub" c8Options
      rfl rfl (by decide) (by decide) (by decide) (by decide),
   prepend_subname_renaming.2.2 rtestNone c8SsNode "Sub" c8Options
      "ss://x@1.2.3.4:8388".data "Old".data
      rfl rfl (by decide) (by decide) (by decide) rfl (by decide)⟩

/-! ## Claim C3: keep-whitelist versus blacklist filtering -/

/-- C3: a rule set containing at least one `keep:` rule puts
`processNodes` in whitelist mode: the retained nodes are exactly those
whose protocol is in the kept-protocol set or whose name matches the
combined kept-name regex, both built from the `keep:` rules alone, so
every non-`keep` rule is ignored; without a `keep:` rule the rule set
works as a blacklist dropping excluded protocols and matching
names. -/
theorem exclude_filter_modes (rtest : String → String → Bool) (ex subName : String)
    (nodes : List Node) (htrim : trimStr ex ≠ "") :
    (specKeepRules ex ≠ [] →
      processNodes rtest nodes subName { exclude := some ex, prependSubName := false } =
        nodes.filter (specWhitelistKeeps rtest ex)) ∧
    (specKeepRules ex = [] →
      processNodes rtest nodes subName { exclude := some ex, prependSubName := false } =
        nodes.filter (fun node => !(specBlacklistDrops rtest ex node))) := by
  have hproc : processNodes rtest nodes subName
      { exclude := some ex, prependSubName := false } = applyExcludeRules rtest ex nodes := by
    simp [processNodes, htrim]
  constructor
  · intro hk
    rw [hproc]
    unfold specKeepRules at hk
    simp only [applyExcludeRules]
    rw [if_pos hk]
    refine List.filter_congr ?_
    intro node _
    simp only [specWhitelistKeeps, specKeepRules]
    by_cases hnp :
        ((((excludeRules ex).filter (fun r => strStarts (lowStr r) "keep:")).map
          (fun r => trimStr (strDrop r 5))).filter
            (fun c => !(strStarts (lowStr c) "proto:"))) ≠ []
    · simp [hnp]
    · simp only [ne_eq, not_not] at hnp
      simp [hnp]
  · intro hk
    rw [hproc]
    unfold specKeepRules at hk
    simp only [applyExcludeRules]
    rw [if_neg (fun h => h hk)]
    refine List.filter_congr ?_
    intro node _
    simp only [specBlacklistDrops]
    by_cases hnp :
        ((excludeRules ex).filter (fun r => !(strStarts (lowStr r) "proto:"))) ≠ []
    · simp [hnp, Bool.not_or]
    · simp only [ne_eq, not_not] at hnp
      simp [hnp]

set_option maxRecDepth 8000 in
/-- C3 witness: the rule set `keep:HK` + `proto:trojan` filters in
whitelist mode (the non-keep `proto:trojan` rule is ignored), and the
rule set `proto:ss` alone filters in blacklist mode. -/
theorem exclude_filter_modes_witness :
    processNodes c3Rtest c3Nodes "S"
        { exclude := some "keep:HK\nproto:trojan", prependSubName := false } =
      c3Nodes.filter (specWhitelistKeeps c3Rtest "keep:HK\nproto:trojan") ∧
    processNodes c3Rtest c3Nodes "S"
        { exclude := some "proto:ss", prependSubName := false } =
      c3Nodes.filter (fun node => !(specBlacklistDrops c3Rtest "proto:ss" node)) :=
  ⟨(exclude_filter_modes c3Rtest "keep:HK\nproto:trojan" "S" c3Nodes (by decide)).1
      (by decide),
   (exclude_filter_modes c3Rtest "proto:ss" "S" c3Nodes (by decide)).2 (by decide)⟩

/-! ## Claim C2: strategy order and failure containment -/

theorem runMethods_firstHit (rtest : String → String → Bool) (subName : String)
    (options : ProcessOptions) :
    ∀ ms, runMethods rtest subName options ms =
      (match firstHit ms with
       | some r => processNodes rtest r subName options
       | none => [])
  | [] => rfl
  | .error e :: ms => by
    simp only [runMethods, firstHit]
    exact runMethods_firstHit rtest subName options ms
  | .ok r :: ms => by
    by_cases hr : r.isEmpty
    · simp only [runMethods, firstHit, hr, if_true]
      exact runMethods_firstHit rtest subName options ms
    · simp only [runMethods, firstHit, hr, Bool.false_eq_true, if_false]

/-- C2: `parse` returns the post-processed node list of the first
strategy of the detection-ordered list (Base64 body, structured
config when the content mentions `proxies:`/`nodes:`, SIP008 when it
starts with a brace or bracket, plain text) that neither throws nor
yields zero nodes; a throwing or empty strategy falls through to the
next, and when every strategy fails the result is the empty list
rather than an error. -/
theorem parse_first_strategy (yload : String → Option JVal)
    (rtest : String → String → Bool) (gen : Nat → String)
    (content subName : String) (options : ProcessOptions) :
    parse yload rtest gen content subName options =
      match firstHit (strategiesFor yload gen content subName) with
      | some r => processNodes rtest r subName options
      | none => [] := by
  by_cases hc : content = ""
  · subst hc
    rfl
  · unfold parse
    rw [if_neg hc]
    exact runMethods_firstHit rtest subName options _

/-! ## Claim C9: determinism of the pipeline up to ids -/

theorem parseNodeLine_eraseId (i j line subName : String) :
    (parseNodeLine i line subName).map eraseId =
      (parseNodeLine j line subName).map eraseId := by
  simp only [parseNodeLine]
  cases hm : matchProto (trimStr line).data with
  | none => rfl
  | some p => simp [eraseId]

theorem parseNodeLines_eraseId (gen gen' : Nat → String) (lines : List String)
    (subName : String) :
    (parseNodeLines gen lines subName).map eraseId =
      (parseNodeLines gen' lines subName).map eraseId := by
  unfold parseNodeLines
  generalize (lines.filter isNodeUrl).enum = l
  induction l with
  | nil => rfl
  | cons x xs ih =>
    simp only [List.map_cons, List.filterMap_cons]
    have hx := parseNodeLine_eraseId (gen x.1) (gen' x.1) x.2 subName
    cases h1 : parseNodeLine (gen x.1) x.2 subName with
    | none =>
      cases h2 : parseNodeLine (gen' x.1) x.2 subName with
      | none => simpa using ih
      | some b =>
        rw [h1, h2] at hx
        simp at hx
    | some a =>
      cases h2 : parseNodeLine (gen' x.1) x.2 subName with
      | none =>
        rw [h1, h2] at hx
        simp at hx
      | some b =>
        rw [h1, h2] at hx
        simp only [Option.map_some', Option.some.injEq] at hx
        simp only [List.filterMap_cons, id, List.map_cons]
        rw [hx, ih]

theorem sip008Aux_eraseId (gen gen' : Nat → String) (subName : String) :
    ∀ (ss : List JVal) (i j : Nat),
      (sip008Aux gen subName ss i).map eraseId =
        (sip008Aux gen' subName ss j).map eraseId
  | [], _, _ => rfl
  | server :: rest, i, j => by
    simp only [sip008Aux]
    by_cases h1 : ¬ (jTruthy (jGet server "server") = true ∧
        jTruthy (jGet server "server_port") = true)
    · simp only [if_pos h1]
      exact sip008Aux_eraseId gen gen' subName rest i j
    · by_cases h2 : (jTruthy (jGet server "method") = true ∧
          jTruthy (jGet server "password") = true)
      · cases hb : buildShadowsocksUrlFromSIP008 server with
        | some url =>
          simp only [if_neg h1, if_pos h2, hb, List.map_cons]
          rw [sip008Aux_eraseId gen gen' subName rest (i + 1) (j + 1)]
          simp [eraseId]
        | none =>
          simp only [if_neg h1, if_pos h2, hb]
          exact sip008Aux_eraseId gen gen' subName rest i j
      · simp only [if_neg h1, if_neg h2]
        exact sip008Aux_eraseId gen gen' subName rest i j

theorem parseClashProxiesAux_cons_obj (gen : Nat → String) (subName : String)
    (p : JVal) (hp : isJsObject p = true) (rest : List JVal) (i : Nat) :
    parseClashProxiesAux gen subName (p :: rest) i =
      (match convertClashProxyToUrl (normalizeProxyFields p) with
       | some nodeUrl =>
         { id := gen i,
           name := if jTruthy (jGet (normalizeProxyFields p) "name") then
               jToStrOpt (jGet (normalizeProxyFields p) "name")
             else "未命名节点",
           url := nodeUrl,
           protocol :=
             match jGet (normalizeProxyFields p) "type" with
             | some (JVal.jStr s) => if lowStr s = "" then "unknown" else lowStr s
             | _ => "unknown",
           enabled := true, typ := "subscription", subscriptionName := subName,
           originalProxy := some (normalizeProxyFields p) } ::
           parseClashProxiesAux gen subName rest (i + 1)
       | none => parseClashProxiesAux gen subName rest i) := by
  cases p with
  | jObj f => rfl
  | jArr xs => rfl
  | jNull => simp [isJsObject] at hp
  | jBool b => simp [isJsObject] at hp
  | jNum n => simp [isJsObject] at hp
  | jStr s => simp [isJsObject] at hp

theorem parseClashProxiesAux_eraseId (gen gen' : Nat → String) (subName : String) :
    ∀ (ps : List JVal) (i j : Nat),
      (parseClashProxiesAux gen subName ps i).map eraseId =
        (parseClashProxiesAux gen' subName ps j).map eraseId
  | [], _, _ => rfl
  | proxy :: rest, i, j => by
    by_cases hp : isJsObject proxy = true
    · rw [parseClashProxiesAux_cons_obj gen subName proxy hp rest i,
          parseClashProxiesAux_cons_obj gen' subName proxy hp rest j]
      cases hc : convertClashProxyToUrl (normalizeProxyFields proxy) with
      | some u =>
        simp only [List.map_cons]
        rw [parseClashProxiesAux_eraseId gen gen' subName rest (i + 1) (j + 1)]
        simp [eraseId]
      | none => exact parseClashProxiesAux_eraseId gen gen' subName rest i j
    · have hskip : ∀ (g : Nat → String) (k : Nat),
          parseClashProxiesAux g subName (proxy :: rest) k =
            parseClashProxiesAux g subName rest k := by
        intro g k
        cases proxy with
        | jNull => rfl
        | jBool b => rfl
        | jNum n => rfl
        | jStr s => rfl
        | jArr xs => simp [isJsObject] at hp
        | jObj f => simp [isJsObject] at hp
      rw [hskip gen i, hskip gen' j]
      exact parseClashProxiesAux_eraseId gen gen' subName rest i j

theorem parseGenericNodes_eraseId (gen gen' : Nat → String) (ns : List JVal)
    (subName : String) :
    (parseGenericNodes gen ns subName).map eraseId =
      (parseGenericNodes gen' ns subName).map eraseId := by
  unfold parseGenericNodes
  rw [List.map_map, List.map_map]
  refine List.map_congr_left ?_
  intro iv _
  simp [eraseId, Function.comp]

theorem parsePlainText_eraseId (gen gen' : Nat → String) (content subName : String) :
    exceptErase (parsePlainText gen content subName) =
      exceptErase (parsePlainText gen' content subName) := by
  simp only [parsePlainText]
  repeat' split
  all_goals first
    | rfl
    | exact congrArg Except.ok (parseNodeLines_eraseId gen gen' _ _)

theorem parseBase64_eraseId (gen gen' : Nat → String) (content subName : String) :
    exceptErase (parseBase64 gen content subName) =
      exceptErase (parseBase64 gen' content subName) := by
  simp only [parseBase64]
  repeat' split
  all_goals first
    | rfl
    | exact congrArg Except.ok (parseNodeLines_eraseId gen gen' _ _)

theorem parseSIP008_eraseId (gen gen' : Nat → String) (content subName : String) :
    exceptErase (parseSIP008 gen content subName) =
      exceptErase (parseSIP008 gen' content subName) := by
  simp only [parseSIP008]
  repeat' split
  all_goals first
    | rfl
    | exact congrArg Except.ok (sip008Aux_eraseId gen gen' subName _ _ _)

theorem parseYAML_eraseId (yload : String → Option JVal) (gen gen' : Nat → String)
    (content subName : String) :
    exceptErase (parseYAML yload gen content subName) =
      exceptErase (parseYAML yload gen' content subName) := by
  simp only [parseYAML]
  repeat' split
  all_goals first
    | rfl
    | exact congrArg Except.ok (parseClashProxiesAux_eraseId gen gen' subName _ _ _)
    | exact congrArg Except.ok (parseGenericNodes_eraseId gen gen' _ _)

theorem parseClashConfig_eraseId (yload : String → Option JVal)
    (gen gen' : Nat → String) (content subName : String) :
    exceptErase (parseClashConfig yload gen content subName) =
      exceptErase (parseClashConfig yload gen' content subName) := by
  simp only [parseClashConfig]
  repeat' split
  all_goals first
    | rfl
    | exact congrArg Except.ok (parseClashProxiesAux_eraseId gen gen' subName _ _ _)

theorem prependOne_eraseId (s : String) (n : Node) :
    prependOne s (eraseId n) = eraseId (prependOne s n) := by
  cases n with
  | mk i nm u pr en ty sn op =>
    by_cases h1 : strStarts nm s = true
    · simp [prependOne, eraseId, h1]
    · by_cases h2 : (pr = "vmess" ∧ strStarts u "vmess://" = true)
      · cases hv : vmessRewritePs u (s ++ " - " ++ nm) with
        | some nu => simp [prependOne, eraseId, h1, h2, hv]
        | none => simp [prependOne, eraseId, h1, h2, hv]
      · simp [prependOne, eraseId, h1, h2]

theorem applyExcludeRules_eraseId (rtest : String → String → Bool) (ex : String)
    (r : List Node) :
    applyExcludeRules rtest ex (r.map eraseId) =
      (applyExcludeRules rtest ex r).map eraseId := by
  simp only [applyExcludeRules]
  by_cases hk : (List.filter (fun r => strStarts (lowStr r) "keep:") (excludeRules ex)) ≠ []
  · simp only [if_pos hk]
    rw [List.filter_map]
    exact congrArg (List.map eraseId) (List.filter_congr (fun a _ => rfl))
  · simp only [if_neg hk]
    rw [List.filter_map]
    exact congrArg (List.map eraseId) (List.filter_congr (fun a _ => rfl))

theorem processNodes_eraseId (rtest : String → String → Bool) (r : List Node)
    (subName : String) (options : ProcessOptions) :
    processNodes rtest (r.map eraseId) subName options =
      (processNodes rtest r subName options).map eraseId := by
  have hm : ∀ l : List Node,
      (l.map eraseId).map (prependOne subName) =
        (l.map (prependOne subName)).map eraseId := by
    intro l
    rw [List.map_map, List.map_map]
    exact List.map_congr_left (fun a _ => prependOne_eraseId subName a)
  unfold processNodes
  cases hoe : options.exclude with
  | none =>
    by_cases hp : (options.prependSubName = true ∧ subName ≠ "")
    · simp only [if_pos hp]
      exact hm r
    · simp only [if_neg hp]
  | some ex =>
    by_cases ht : trimStr ex ≠ ""
    · by_cases hp : (options.prependSubName = true ∧ subName ≠ "")
      · simp only [if_pos ht, if_pos hp, applyExcludeRules_eraseId]
        exact hm _
      · simp only [if_pos ht, if_neg hp, applyExcludeRules_eraseId]
    · by_cases hp : (options.prependSubName = true ∧ subName ≠ "")
      · simp only [if_neg ht, if_pos hp]
        exact hm r
      · simp only [if_neg ht, if_neg hp]

theorem runMethods_exceptErase (rtest : String → String → Bool) (subName : String)
    (options : ProcessOptions) :
    ∀ ms ms', ms.map exceptErase = ms'.map exceptErase →
      (runMethods rtest subName options ms).map eraseId =
        (runMethods rtest subName options ms').map eraseId
  | [], [], _ => rfl
  | [], m' :: ms', h => by simp at h
  | m :: ms, [], h => by simp at h
  | .error e :: ms, .error e' :: ms', h => by
    simp only [List.map_cons, List.cons.injEq] at h
    exact runMethods_exceptErase rtest subName options ms ms' h.2
  | .error e :: ms, .ok r' :: ms', h => by
    simp only [List.map_cons, List.cons.injEq, exceptErase] at h
    exact Except.noConfusion h.1
  | .ok r :: ms, .error e' :: ms', h => by
    simp only [List.map_cons, List.cons.injEq, exceptErase] at h
    exact Except.noConfusion h.1
  | .ok r :: ms, .ok r' :: ms', h => by
    simp only [List.map_cons, List.cons.injEq, exceptErase, Except.ok.injEq] at h
    obtain ⟨hr, h2⟩ := h
    by_cases he : r.isEmpty = true
    · have hr0 : r = [] := List.isEmpty_iff.mp he
      subst hr0
      have hr0' : r' = [] := by
        have h3 : r'.map eraseId = [] := by
          rw [← hr]
          rfl
        exact List.map_eq_nil_iff.mp h3
      subst hr0'
      simp only [runMethods, List.isEmpty_nil, if_true]
      exact runMethods_exceptErase rtest subName options ms ms' h2
    · have heb : r.isEmpty = false := by
        cases hie : r.isEmpty with
        | true => exact absurd hie he
        | false => rfl
      have he' : r'.isEmpty = false := by
        cases r' with
        | nil =>
          rw [List.map_nil] at hr
          have h0 : r = [] := List.map_eq_nil_iff.mp hr
          rw [h0] at heb
          exact absurd heb (by decide)
        | cons a t => rfl
      simp only [runMethods, heb, he', Bool.false_eq_true, if_false]
      rw [← processNodes_eraseId rtest r subName options,
          ← processNodes_eraseId rtest r' subName options, hr]

theorem strategiesFor_exceptErase (yload : String → Option JVal)
    (gen gen' : Nat → String) (content subName : String) :
    (strategiesFor yload gen content subName).map exceptErase =
      (strategiesFor yload gen' content subName).map exceptErase := by
  unfold strategiesFor
  simp only [List.map_append, apply_ite (List.map exceptErase), List.map_cons,
    List.map_nil]
  rw [parseBase64_eraseId gen gen' content subName,
      parseYAML_eraseId yload gen gen' content subName,
      parseClashConfig_eraseId yload gen gen' content subName,
      parseSIP008_eraseId gen gen' content subName,
      parsePlainText_eraseId gen gen' content subName]

/-- C9 (amended): the ingestion pipeline is deterministic up to the
randomly generated node ids — for any two `crypto.randomUUID` outcome
sequences, two invocations of `parse` with the same content,
subscription name and options produce node lists that agree on every
field except `id`. -/
theorem parse_deterministic_up_to_ids (yload : String → Option JVal)
    (rtest : String → String → Bool) (gen gen' : Nat → String)
    (content subName : String) (options : ProcessOptions) :
    (parse yload rtest gen content subName options).map eraseId =
      (parse yload rtest gen' content subName options).map eraseId := by
  unfold parse
  by_cases hc : content = ""
  · simp [hc]
  · rw [if_neg hc, if_neg hc]
    exact runMethods_exceptErase rtest subName options _ _
      (strategiesFor_exceptErase yload gen gen' content subName)

set_option maxRecDepth 80000 in
/-- C9 counterexample: the node ids come from `crypto.randomUUID`, so
two invocations of `parse` on identical content, subscription name
and options (modelled by two possible randomUUID outcome sequences)
give node lists that differ in their `id` fields — the result is not
identical in every field. -/
theorem parse_ids_fresh_counterexample :
    parse yloadNone rtestNone genA c9Content "Sub" {} ≠
      parse yloadNone rtestNone genB c9Content "Sub" {} := by
  intro h
  have h2 := congrArg (List.map Node.id) h
  have ha : (parse yloadNone rtestNone genA c9Content "Sub" {}).map Node.id =
      ["id-a-0"] := by rfl
  have hb : (parse yloadNone rtestNone genB c9Content "Sub" {}).map Node.id =
      ["id-b-0"] := by rfl
  rw [ha, hb] at h2
  exact absurd h2 (by decide)

/-! ## Claim C1: the round-trip law -/

set_option maxRecDepth 80000 in
/-- C1 counterexample: encoding the structured SS proxy (cipher
`aes-256-gcm`, password `abc`) and decoding the resulting share-URI
does not reproduce the original fields — the decoded proxy's `cipher`
is the whole base64 userinfo blob and its `password` is absent. -/
theorem ss_roundtrip_counterexample :
    buildShadowsocksUrlEnhanced c1SsProxy = some c1SsUrl ∧
    (urlToClashProxy c1SsUrl "N1" "ss").bind (fun c => jGet c "cipher") =
      some (jStr "YWVzLTI1Ni1nY206YWJj") ∧
    (urlToClashProxy c1SsUrl "N1" "ss").bind (fun c => jGet c "password") = none ∧
    jGet c1SsProxy "cipher" = some (jStr "aes-256-gcm") ∧
    jGet c1SsProxy "password" = some (jStr "abc") ∧
    ("YWVzLTI1Ni1nY206YWJj" : String) ≠ "aes-256-gcm" := by
  refine ⟨rfl, rfl, rfl, rfl, rfl, by decide⟩

theorem validScheme_no_colon {l : Str} (h : validSchemeCs l = true) : ':' ∉ l := by
  cases l with
  | nil => simp
  | cons c cs =>
    unfold validSchemeCs at h
    simp only [Bool.and_eq_true] at h
    intro hm
    rcases List.mem_cons.mp hm with he | hm2
    · rw [← he] at h
      exact absurd h.1 (by decide)
    · have h2 := List.all_eq_true.mp h.2 ':' hm2
      exact absurd h2 (by decide)

theorem parseHostPort_not_bracket {hc : Char} (hne : hc ≠ '[') (tl : Str) :
    parseHostPort (hc :: tl) =
      (match splitFirstC ':' (hc :: tl) with
       | none =>
         if (hc :: tl).all (fun c => !forbiddenHostCh c) then
           some (⟨c0Enc (hc :: tl)⟩, "")
         else none
       | some (h, ds) =>
         if h.all (fun c => !forbiddenHostCh c) then
           (portOf ds).map (fun p => (⟨c0Enc h⟩, p))
         else none) := by
  unfold parseHostPort
  split
  · rename_i rest heq
    rw [List.cons.injEq] at heq
    exact absurd heq.1 hne
  · rfl

theorem parseHostPort_build (host : String) (port : Nat)
    (hhost : isToken host = true) (hh0 : host ≠ "") (hport : port ≤ 65535) :
    parseHostPort (host.data ++ ':' :: (natStr port).data) = some (host, natStr port) := by
  have hcolon : ':' ∉ host.data := token_not_mem hhost (by decide)
  have hforb : host.data.all (fun c => !forbiddenHostCh c) = true := by
    rw [List.all_eq_true]
    intro c hc
    rw [tokenCh_not_forbiddenHost (token_mem_tokenCh hhost hc)]
    rfl
  cases hhd : host.data with
  | nil =>
    refine absurd ?_ hh0
    cases host with
    | mk d => simp at hhd; rw [hhd]
  | cons hc htl =>
    have hhc : isTokenCh hc = true :=
      token_mem_tokenCh hhost (by rw [hhd]; exact List.mem_cons_self hc htl)
    have hne : hc ≠ '[' := by
      intro he
      rw [he] at hhc
      exact absurd hhc (by decide)
    rw [List.cons_append, parseHostPort_not_bracket hne]
    rw [show (hc :: (htl ++ ':' :: (natStr port).data)) =
        ((hc :: htl) ++ ':' :: (natStr port).data) from rfl]
    rw [splitFirstC_append (hhd ▸ hcolon)]
    rw [hhd] at hforb
    simp only [hforb, portOf_natStr hport, Option.map_some', if_true]
    rw [c0Enc_all (fun c hcm => token_mem_tokenCh hhost (by rw [hhd]; exact hcm))]
    rw [← hhd]

theorem parseURL_build (scheme ui host : String) (port : Nat) (qs : Str)
    (hsch : validSchemeCs scheme.data = true)
    (hlow : scheme.data.map lowChar = scheme.data)
    (hui : ∀ c ∈ ui.data, c ≠ ':' ∧ c ≠ '/' ∧ c ≠ '?' ∧ c ≠ '#')
    (hhost : isToken host = true) (hh0 : host ≠ "")
    (hport : port ≤ 65535)
    (hqs : '#' ∉ qs) :
    parseURL (scheme ++ "://" ++ ui ++ "@" ++ host ++ ":" ++ natStr port ++ "?" ++
        (⟨qs⟩ : String)) =
      some { scheme := scheme, username := ⟨userinfoEnc ui.data⟩, password := "",
             host := host, port := natStr port, query := ⟨qs⟩, fragment := "" } := by
  have hdig : isToken (natStr port) = true := natStr_isToken port
  have hd : (scheme ++ "://" ++ ui ++ "@" ++ host ++ ":" ++ natStr port ++ "?" ++
      (⟨qs⟩ : String)).data =
      scheme.data ++ ':' :: '/' :: '/' ::
        ((ui.data ++ '@' :: (host.data ++ ':' :: (natStr port).data)) ++ '?' :: qs) := by
    simp [String.data_append]
  have hnohash : '#' ∉ (ui.data ++ '@' :: (host.data ++ ':' :: (natStr port).data)) ++ '?' :: qs := by
    intro hm
    rcases List.mem_append.mp hm with hm1 | hm1
    · rcases List.mem_append.mp hm1 with hm2 | hm2
      · exact (hui _ hm2).2.2.2 rfl
      · rcases List.mem_cons.mp hm2 with he | hm3
        · exact absurd he (by decide)
        · rcases List.mem_append.mp hm3 with hm4 | hm4
          · exact absurd (token_mem_tokenCh hhost hm4) (by decide)
          · rcases List.mem_cons.mp hm4 with he | hm5
            · exact absurd he (by decide)
            · exact absurd (token_mem_tokenCh hdig hm5) (by decide)
    · rcases List.mem_cons.mp hm1 with he | hm2
      · exact absurd he (by decide)
      · exact hqs hm2
  have hnoq : '?' ∉ ui.data ++ '@' :: (host.data ++ ':' :: (natStr port).data) := by
    intro hm
    rcases List.mem_append.mp hm with hm1 | hm1
    · exact (hui _ hm1).2.2.1 rfl
    · rcases List.mem_cons.mp hm1 with he | hm2
      · exact absurd he (by decide)
      · rcases List.mem_append.mp hm2 with hm3 | hm3
        · exact absurd (token_mem_tokenCh hhost hm3) (by decide)
        · rcases List.mem_cons.mp hm3 with he | hm4
          · exact absurd he (by decide)
          · exact absurd (token_mem_tokenCh hdig hm4) (by decide)
  have hslash : ∀ c ∈ ui.data ++ '@' :: (host.data ++ ':' :: (natStr port).data),
      (fun c => decide (c ≠ '/')) c = true := by
    intro c hm
    simp only [decide_eq_true_eq]
    rcases List.mem_append.mp hm with hm1 | hm1
    · exact (hui _ hm1).2.1
    · rcases List.mem_cons.mp hm1 with he | hm2
      · rw [he]; decide
      · rcases List.mem_append.mp hm2 with hm3 | hm3
        · intro he
          exact absurd (he ▸ token_mem_tokenCh hhost hm3) (by decide)
        · rcases List.mem_cons.mp hm3 with he | hm4
          · rw [he]; decide
          · intro he
            exact absurd (he ▸ token_mem_tokenCh hdig hm4) (by decide)
  have hat : '@' ∉ host.data ++ ':' :: (natStr port).data := by
    intro hm
    rcases List.mem_append.mp hm with hm1 | hm1
    · exact absurd (token_mem_tokenCh hhost hm1) (by decide)
    · rcases List.mem_cons.mp hm1 with he | hm2
      · exact absurd he (by decide)
      · exact absurd (token_mem_tokenCh hdig hm2) (by decide)
  have hcui : splitFirstC ':' ui.data = none :=
    splitFirstC_not_mem (fun hm => (hui _ hm).1 rfl)
  have h1 : splitFirstC ':' (scheme.data ++ ':' :: '/' :: '/' ::
      ((ui.data ++ '@' :: (host.data ++ ':' :: (natStr port).data)) ++ '?' :: qs)) =
      some (scheme.data, '/' :: '/' ::
        ((ui.data ++ '@' :: (host.data ++ ':' :: (natStr port).data)) ++ '?' :: qs)) :=
    splitFirstC_append (validScheme_no_colon hsch)
  have h2 : splitFirstC '#' ((ui.data ++ '@' :: (host.data ++ ':' :: (natStr port).data)) ++
      '?' :: qs) = none := splitFirstC_not_mem hnohash
  have h3 : splitFirstC '?' ((ui.data ++ '@' :: (host.data ++ ':' :: (natStr port).data)) ++
      '?' :: qs) = some (ui.data ++ '@' :: (host.data ++ ':' :: (natStr port).data), qs) :=
    splitFirstC_append hnoq
  have h4 : (ui.data ++ '@' :: (host.data ++ ':' :: (natStr port).data)).takeWhile
      (fun c => decide (c ≠ '/')) =
      ui.data ++ '@' :: (host.data ++ ':' :: (natStr port).data) := takeWhile_of_all hslash
  have h5 : splitLastC '@' (ui.data ++ '@' :: (host.data ++ ':' :: (natStr port).data)) =
      some (ui.data, host.data ++ ':' :: (natStr port).data) := splitLastC_append hat
  have h7 : parseHostPort (host.data ++ ':' :: (natStr port).data) =
      some (host, natStr port) := parseHostPort_build host port hhost hh0 hport
  unfold parseURL
  rw [hd, h1]
  simp only [hsch, if_true, h2, h3, h4, h5, hcui, h7, Option.map_some']
  rw [hlow]
  rfl

theorem containsSub_single_not {c : Char} {l : Str} (h : c ∉ l) :
    containsSub [c] l = false := by
  induction l with
  | nil => rfl
  | cons x xs ih =>
    have hxc : c ≠ x := fun he => h (he ▸ List.mem_cons_self x xs)
    have hx : c ∉ xs := fun hm => h (List.mem_cons_of_mem x hm)
    simp [containsSub, List.isPrefixOf, ih hx, hxc]

theorem containsSub_single_mem {c : Char} {l : Str} (h : c ∈ l) :
    containsSub [c] l = true := by
  induction l with
  | nil => simp at h
  | cons x xs ih =>
    rcases List.mem_cons.mp h with he | hm
    · simp [containsSub, List.isPrefixOf, he]
    · simp [containsSub, ih hm]

theorem intStr_natCast (n : Nat) : intStr (n : Int) = natStr n := by
  unfold intStr
  rw [if_neg (by omega)]
  simp

theorem renderQuery_cons_ne_nil (kv : String × String)
    (rest : List (String × String)) : renderQuery (kv :: rest) ≠ [] := by
  unfold renderQuery
  cases rest with
  | nil => simp [joinC]
  | cons kv2 rest2 => simp [joinC]

theorem buildVless_mk (uuid server sni : String) (port : Nat)
    (hu0 : uuid ≠ "") (hs0 : server ≠ "") (hsni0 : sni ≠ "") (hp0 : port ≠ 0)
    (hserver : isToken server = true) :
    buildVlessUrlEnhanced (mkVlessProxy uuid server port true (some sni)) =
      some ("vless://" ++ uuid ++ "@" ++ server ++ ":" ++ natStr port ++ "?" ++
        (⟨renderQuery [("encryption", "none"), ("type", "tcp"), ("security", "tls"),
                       ("sni", sni), ("headerType", "none")]⟩ : String)) := by
  have hmk : mkVlessProxy uuid server port true (some sni) =
      jObj [("type", jStr "vless"), ("server", jStr server), ("port", jNum (port : Int)),
            ("uuid", jStr uuid), ("tls", jBool true), ("sni", jStr sni)] := rfl
  have h1 : jTruthy (some (jStr uuid)) = true := by simp [jTruthy, hu0]
  have h2 : jTruthy (some (jStr server)) = true := by simp [jTruthy, hs0]
  have h3 : jTruthy (some (jNum (port : Int))) = true := by
    have hz : ((port : Int) ≠ 0) := by exact_mod_cast hp0
    simp [jTruthy, hz]
  have h4 : jTruthy (some (jStr sni)) = true := by simp [jTruthy, hsni0]
  have h5 : strIncludes server ":" = false :=
    containsSub_single_not (token_not_mem hserver (by decide))
  have hnone : jTruthy none = false := rfl
  rw [hmk]
  simp [buildVlessUrlEnhanced, vlessParams, vlessNetwork, vlessSecParams,
        vlessTransportParams, vlessIsReality, vlessIsTls, vlessRealityOpts, vlessPbk,
        vlessSid, jGet, jGetF, jGetC, jOr, optsOf, jToStrOpt, jToStr, asStr, eqTrue,
        strEq, h1, h2, h3, h4, h5, hnone, bracketHostS, intStr_natCast, paramsSet]
  intro h
  exact absurd h (renderQuery_cons_ne_nil _ _)

theorem b64Ch_mem (n : Nat) : b64Ch n ∈ b64Alpha := by
  unfold b64Ch
  rw [List.getD_eq_getElem?_getD]
  cases hg : b64Alpha[n]? with
  | none => decide
  | some c =>
    simp only [Option.getD_some]
    exact List.getElem?_mem hg

theorem mem_btoaBytes : ∀ {bs : List Nat} {c : Char}, c ∈ btoaBytes bs →
    (c ∈ b64Alpha ∨ c = '=')
  | [], c, h => by simp [btoaBytes] at h
  | [b0], c, h => by
    rw [show btoaBytes [b0] = [b64Ch (b0 / 4), b64Ch (b0 % 4 * 16), '=', '='] from rfl] at h
    rcases List.mem_cons.mp h with he | h2
    · exact Or.inl (he ▸ b64Ch_mem _)
    · rcases List.mem_cons.mp h2 with he | h3
      · exact Or.inl (he ▸ b64Ch_mem _)
      · rcases List.mem_cons.mp h3 with he | h4
        · exact Or.inr he
        · rcases List.mem_cons.mp h4 with he | h5
          · exact Or.inr he
          · simp at h5
  | [b0, b1], c, h => by
    rw [show btoaBytes [b0, b1] =
        [b64Ch (b0 / 4), b64Ch (b0 % 4 * 16 + b1 / 16), b64Ch (b1 % 16 * 4), '='] from rfl] at h
    rcases List.mem_cons.mp h with he | h2
    · exact Or.inl (he ▸ b64Ch_mem _)
    · rcases List.mem_cons.mp h2 with he | h3
      · exact Or.inl (he ▸ b64Ch_mem _)
      · rcases List.mem_cons.mp h3 with he | h4
        · exact Or.inl (he ▸ b64Ch_mem _)
        · rcases List.mem_cons.mp h4 with he | h5
          · exact Or.inr he
          · simp at h5
  | b0 :: b1 :: b2 :: rest, c, h => by
    rw [show btoaBytes (b0 :: b1 :: b2 :: rest) =
        b64Ch (b0 / 4) :: b64Ch (b0 % 4 * 16 + b1 / 16) ::
        b64Ch (b1 % 16 * 4 + b2 / 64) :: b64Ch (b2 % 64) :: btoaBytes rest from rfl] at h
    rcases List.mem_cons.mp h with he | h2
    · exact Or.inl (he ▸ b64Ch_mem _)
    · rcases List.mem_cons.mp h2 with he | h3
      · exact Or.inl (he ▸ b64Ch_mem _)
      · rcases List.mem_cons.mp h3 with he | h4
        · exact Or.inl (he ▸ b64Ch_mem _)
        · rcases List.mem_cons.mp h4 with he | h5
          · exact Or.inl (he ▸ b64Ch_mem _)
          · exact mem_btoaBytes h5

theorem mem_joinC {ch : Char} : ∀ {l : List Str} {c : Char}, c ∈ joinC ch l →
    c = ch ∨ ∃ x ∈ l, c ∈ x
  | [], c, h => by simp [joinC] at h
  | [x], c, h => by exact Or.inr ⟨x, by simp, h⟩
  | x :: y :: ys, c, h => by
    rw [show joinC ch (x :: y :: ys) = x ++ ch :: joinC ch (y :: ys) from rfl] at h
    rcases List.mem_append.mp h with hm | hm
    · exact Or.inr ⟨x, by simp, hm⟩
    · rcases List.mem_cons.mp hm with he | hm2
      · exact Or.inl he
      · rcases mem_joinC hm2 with he | ⟨z, hz, hcz⟩
        · exact Or.inl he
        · exact Or.inr ⟨z, List.mem_cons_of_mem x hz, hcz⟩

theorem renderQuery_mem_tokens {ps : List (String × String)}
    (h : ∀ kv ∈ ps, isToken kv.1 = true ∧ isToken kv.2 = true) {c : Char}
    (hc : c ∈ renderQuery ps) : isTokenCh c = true ∨ c = '=' ∨ c = '&' := by
  unfold renderQuery at hc
  rcases mem_joinC hc with he | ⟨seg, hseg, hcs⟩
  · exact Or.inr (Or.inr he)
  · rcases List.mem_map.mp hseg with ⟨kv, hkv, rfl⟩
    rw [formEnc_all (fun d h2 => token_mem_tokenCh (h kv hkv).1 h2),
        formEnc_all (fun d h2 => token_mem_tokenCh (h kv hkv).2 h2)] at hcs
    rcases List.mem_append.mp hcs with hm | hm
    · exact Or.inl (token_mem_tokenCh (h kv hkv).1 hm)
    · rcases List.mem_cons.mp hm with he | hm2
      · exact Or.inr (Or.inl he)
      · exact Or.inl (token_mem_tokenCh (h kv hkv).2 hm2)

theorem userinfoEnc_cons_ne_nil (c : Char) (tl : Str) : userinfoEnc (c :: tl) ≠ [] := by
  unfold userinfoEnc
  rw [List.map_cons, List.flatten_cons]
  intro h
  rcases List.append_eq_nil.mp h with ⟨h1, h2⟩
  split at h1
  · cases hu : utf8Ch c with
    | nil =>
      simp only [utf8Ch] at hu
      split at hu
      · simp at hu
      · split at hu
        · simp at hu
        · split at hu <;> simp at hu
    | cons b bs =>
      rw [hu] at h1
      simp [pctByte] at h1
  · simp at h1

theorem parseURL_build_noq (scheme ui host : String) (port : Nat)
    (hsch : validSchemeCs scheme.data = true)
    (hlow : scheme.data.map lowChar = scheme.data)
    (hui : ∀ c ∈ ui.data, c ≠ ':' ∧ c ≠ '/' ∧ c ≠ '?' ∧ c ≠ '#')
    (hhost : isToken host = true) (hh0 : host ≠ "")
    (hport : port ≤ 65535) :
    parseURL (scheme ++ "://" ++ ui ++ "@" ++ host ++ ":" ++ natStr port) =
      some { scheme := scheme, username := ⟨userinfoEnc ui.data⟩, password := "",
             host := host, port := natStr port, query := "", fragment := "" } := by
  have hdig : isToken (natStr port) = true := natStr_isToken port
  have hd : (scheme ++ "://" ++ ui ++ "@" ++ host ++ ":" ++ natStr port).data =
      scheme.data ++ ':' :: '/' :: '/' ::
        (ui.data ++ '@' :: (host.data ++ ':' :: (natStr port).data)) := by
    simp [String.data_append]
  have hnohash : '#' ∉ ui.data ++ '@' :: (host.data ++ ':' :: (natStr port).data) := by
    intro hm
    rcases List.mem_append.mp hm with hm1 | hm1
    · exact (hui _ hm1).2.2.2 rfl
    · rcases List.mem_cons.mp hm1 with he | hm2
      · exact absurd he (by decide)
      · rcases List.mem_append.mp hm2 with hm3 | hm3
        · exact absurd (token_mem_tokenCh hhost hm3) (by decide)
        · rcases List.mem_cons.mp hm3 with he | hm4
          · exact absurd he (by decide)
          · exact absurd (token_mem_tokenCh hdig hm4) (by decide)
  have hnoq : '?' ∉ ui.data ++ '@' :: (host.data ++ ':' :: (natStr port).data) := by
    intro hm
    rcases List.mem_append.mp hm with hm1 | hm1
    · exact (hui _ hm1).2.2.1 rfl
    · rcases List.mem_cons.mp hm1 with he | hm2
      · exact absurd he (by decide)
      · rcases List.mem_append.mp hm2 with hm3 | hm3
        · exact absurd (token_mem_tokenCh hhost hm3) (by decide)
        · rcases List.mem_cons.mp hm3 with he | hm4
          · exact absurd he (by decide)
          · exact absurd (token_mem_tokenCh hdig hm4) (by decide)
  have hslash : ∀ c ∈ ui.data ++ '@' :: (host.data ++ ':' :: (natStr port).data),
      (fun c => decide (c ≠ '/')) c = true := by
    intro c hm
    simp only [decide_eq_true_eq]
    rcases List.mem_append.mp hm with hm1 | hm1
    · exact (hui _ hm1).2.1
    · rcases List.mem_cons.mp hm1 with he | hm2
      · rw [he]; decide
      · rcases List.mem_append.mp hm2 with hm3 | hm3
        · intro he
          exact absurd (he ▸ token_mem_tokenCh hhost hm3) (by decide)
        · rcases List.mem_cons.mp hm3 with he | hm4
          · rw [he]; decide
          · intro he
            exact absurd (he ▸ token_mem_tokenCh hdig hm4) (by decide)
  have hat : '@' ∉ host.data ++ ':' :: (natStr port).data := by
    intro hm
    rcases List.mem_append.mp hm with hm1 | hm1
    · exact absurd (token_mem_tokenCh hhost hm1) (by decide)
    · rcases List.mem_cons.mp hm1 with he | hm2
      · exact absurd he (by decide)
      · exact absurd (token_mem_tokenCh hdig hm2) (by decide)
  have hcui : splitFirstC ':' ui.data = none :=
    splitFirstC_not_mem (fun hm => (hui _ hm).1 rfl)
  have h1 : splitFirstC ':' (scheme.data ++ ':' :: '/' :: '/' ::
      (ui.data ++ '@' :: (host.data ++ ':' :: (natStr port).data))) =
      some (scheme.data, '/' :: '/' ::
        (ui.data ++ '@' :: (host.data ++ ':' :: (natStr port).data))) :=
    splitFirstC_append (validScheme_no_colon hsch)
  have h2 : splitFirstC '#' (ui.data ++ '@' :: (host.data ++ ':' :: (natStr port).data)) =
      none := splitFirstC_not_mem hnohash
  have h3 : splitFirstC '?' (ui.data ++ '@' :: (host.data ++ ':' :: (natStr port).data)) =
      none := splitFirstC_not_mem hnoq
  have h4 : (ui.data ++ '@' :: (host.data ++ ':' :: (natStr port).data)).takeWhile
      (fun c => decide (c ≠ '/')) =
      ui.data ++ '@' :: (host.data ++ ':' :: (natStr port).data) := takeWhile_of_all hslash
  have h5 : splitLastC '@' (ui.data ++ '@' :: (host.data ++ ':' :: (natStr port).data)) =
      some (ui.data, host.data ++ ':' :: (natStr port).data) := splitLastC_append hat
  have h7 : parseHostPort (host.data ++ ':' :: (natStr port).data) =
      some (host, natStr port) := parseHostPort_build host port hhost hh0 hport
  unfold parseURL
  rw [hd, h1]
  simp only [hsch, if_true, h2, h3, h4, h5, hcui, h7, Option.map_some']
  rw [hlow]
  rfl

theorem buildSS_mk (method pw server : String) (port : Nat)
    (hm0 : method ≠ "") (hw0 : pw ≠ "") (hs0 : server ≠ "") (hp0 : port ≠ 0)
    (hserver : isToken server = true) :
    buildShadowsocksUrlEnhanced (mkSsProxy method pw server port) =
      some ("ss://" ++ encodeBase64 (method ++ ":" ++ pw) ++ "@" ++ server ++ ":" ++
        natStr port) := by
  have hmk : mkSsProxy method pw server port =
      jObj [("type", jStr "ss"), ("server", jStr server), ("port", jNum (port : Int)),
            ("cipher", jStr method), ("password", jStr pw)] := rfl
  have h1 : jTruthy (some (jStr method)) = true := by simp [jTruthy, hm0]
  have h2 : jTruthy (some (jStr pw)) = true := by simp [jTruthy, hw0]
  have h3 : jTruthy (some (jStr server)) = true := by simp [jTruthy, hs0]
  have h4 : jTruthy (some (jNum (port : Int))) = true := by
    have hz : ((port : Int) ≠ 0) := by exact_mod_cast hp0
    simp [jTruthy, hz]
  have h5 : strIncludes server ":" = false :=
    containsSub_single_not (token_not_mem hserver (by decide))
  have hnone : jTruthy none = false := rfl
  rw [hmk]
  simp [buildShadowsocksUrlEnhanced, jGet, jGetF, jOr, jToStrOpt, jToStr, asStr,
        h1, h2, h3, h4, h5, hnone, bracketHostS, intStr_natCast]

theorem roundtrip_vless (nm uuid server sni : String) (port : Nat)
    (huuid : isToken uuid = true) (hu0 : uuid ≠ "")
    (hserver : isToken server = true) (hs0 : server ≠ "")
    (hsni : isToken sni = true) (hsni0 : sni ≠ "")
    (hp0 : port ≠ 0) (hport : port ≤ 65535) :
    (buildVlessUrlEnhanced (mkVlessProxy uuid server port true (some sni))).bind
        (fun u => urlToClashProxy u nm "vless") =
      some (jObj [("name", jStr nm), ("type", jStr "vless"), ("uuid", jStr uuid),
                  ("server", jStr server), ("port", jNum (port : Int)),
                  ("servername", jStr sni), ("network", jStr "tcp"),
                  ("tls", jBool true)]) := by
  rw [buildVless_mk uuid server sni port hu0 hs0 hsni0 hp0 hserver]
  have hvp : ∀ kv ∈ ([("encryption", "none"), ("type", "tcp"), ("security", "tls"),
      ("sni", sni), ("headerType", "none")] : List (String × String)),
      isToken kv.1 = true ∧ isToken kv.2 = true := by
    intro kv hkv
    simp only [List.mem_cons, List.not_mem_nil, or_false] at hkv
    rcases hkv with rfl | rfl | rfl | rfl | rfl
    · exact ⟨(by decide : isToken "encryption" = true), (by decide : isToken "none" = true)⟩
    · exact ⟨(by decide : isToken "type" = true), (by decide : isToken "tcp" = true)⟩
    · exact ⟨(by decide : isToken "security" = true), (by decide : isToken "tls" = true)⟩
    · exact ⟨(by decide : isToken "sni" = true), hsni⟩
    · exact ⟨(by decide : isToken "headerType" = true), (by decide : isToken "none" = true)⟩
  have hq : parseQueryStr (renderQuery [("encryption", "none"), ("type", "tcp"),
      ("security", "tls"), ("sni", sni), ("headerType", "none")]) =
      [("encryption", "none"), ("type", "tcp"), ("security", "tls"),
       ("sni", sni), ("headerType", "none")] := parseQueryStr_renderQuery hvp
  have hnohash : '#' ∉ renderQuery [("encryption", "none"), ("type", "tcp"),
      ("security", "tls"), ("sni", sni), ("headerType", "none")] := by
    intro hm
    rcases renderQuery_mem_tokens hvp hm with ht | he | he
    · exact absurd ht (by decide)
    · exact absurd he (by decide)
    · exact absurd he (by decide)
  have hui : ∀ c ∈ uuid.data, c ≠ ':' ∧ c ≠ '/' ∧ c ≠ '?' ∧ c ≠ '#' := by
    intro c hc
    have ht := token_mem_tokenCh huuid hc
    refine ⟨?_, ?_, ?_, ?_⟩ <;> intro he <;> rw [he] at ht <;> exact absurd ht (by decide)
  have hurl := parseURL_build "vless" uuid server port
    (renderQuery [("encryption", "none"), ("type", "tcp"), ("security", "tls"),
                  ("sni", sni), ("headerType", "none")])
    (by decide) (by decide) hui hserver hs0 hport hnohash
  have hue : userinfoEnc uuid.data = uuid.data :=
    userinfoEnc_all (fun c hc => token_mem_tokenCh huuid hc)
  rw [show ("vless" : String) ++ "://" = "vless://" from rfl] at hurl
  have hu0' : (⟨uuid.data⟩ : String) ≠ "" := by
    cases uuid with
    | mk d => exact hu0
  have hz : ¬((port : Int) = 0) := by exact_mod_cast hp0
  simp [urlToClashProxy, hurl, urlParams, hq, hue, hu0', hz, hp0, paramsGet, paramsHas,
        jSet, jSetF, jGet, jGetF, strEq, asStr, pg, jsNumberOfStr_natStr]

theorem utf8Ch_ne_nil (c : Char) : utf8Ch c ≠ [] := by
  simp only [utf8Ch]
  split
  · simp
  · split
    · simp
    · split <;> simp

theorem btoaBytes_ne_nil : ∀ {bs : List Nat}, bs ≠ [] → btoaBytes bs ≠ []
  | [], h => absurd rfl h
  | [b0], _ => by
    rw [show btoaBytes [b0] = [b64Ch (b0 / 4), b64Ch (b0 % 4 * 16), '=', '='] from rfl]
    simp
  | [b0, b1], _ => by
    rw [show btoaBytes [b0, b1] =
        [b64Ch (b0 / 4), b64Ch (b0 % 4 * 16 + b1 / 16), b64Ch (b1 % 16 * 4), '='] from rfl]
    simp
  | b0 :: b1 :: b2 :: rest, _ => by
    rw [show btoaBytes (b0 :: b1 :: b2 :: rest) =
        b64Ch (b0 / 4) :: b64Ch (b0 % 4 * 16 + b1 / 16) ::
        b64Ch (b1 % 16 * 4 + b2 / 64) :: b64Ch (b2 % 64) :: btoaBytes rest from rfl]
    simp

theorem roundtrip_ss (nm method pw server : String) (port : Nat)
    (hm0 : method ≠ "") (hw0 : pw ≠ "") (hserver : isToken server = true)
    (hs0 : server ≠ "") (hp0 : port ≠ 0) (hport : port ≤ 65535)
    (hslash : '/' ∉ (encodeBase64 (method ++ ":" ++ pw)).data) :
    (buildShadowsocksUrlEnhanced (mkSsProxy method pw server port)).bind
        (fun u => urlToClashProxy u nm "ss") =
      some (jObj [("name", jStr nm), ("type", jStr "ss"),
                  ("uuid", jStr ⟨userinfoEnc (encodeBase64 (method ++ ":" ++ pw)).data⟩),
                  ("server", jStr server), ("port", jNum (port : Int)),
                  ("cipher", jStr ⟨userinfoEnc (encodeBase64 (method ++ ":" ++ pw)).data⟩)]) := by
  rw [buildSS_mk method pw server port hm0 hw0 hs0 hp0 hserver]
  have hbd : (encodeBase64 (method ++ ":" ++ pw)).data =
      btoaBytes (utf8Enc (method ++ ":" ++ pw)) := rfl
  have hui : ∀ c ∈ (encodeBase64 (method ++ ":" ++ pw)).data,
      c ≠ ':' ∧ c ≠ '/' ∧ c ≠ '?' ∧ c ≠ '#' := by
    intro c hc
    have hc2 : c ∈ btoaBytes (utf8Enc (method ++ ":" ++ pw)) := hbd ▸ hc
    refine ⟨?_, fun he => hslash (he ▸ hc), ?_, ?_⟩ <;>
      rcases mem_btoaBytes hc2 with hmem | he2 <;>
        first
          | (intro he; rw [he] at hmem; exact absurd hmem (by decide))
          | (intro he; rw [he] at he2; exact absurd he2 (by decide))
  have hurl := parseURL_build_noq "ss" (encodeBase64 (method ++ ":" ++ pw)) server port
    (by decide) (by decide) hui hserver hs0 hport
  rw [show ("ss" : String) ++ "://" = "ss://" from rfl] at hurl
  have hbne : (encodeBase64 (method ++ ":" ++ pw)).data ≠ [] := by
    rw [hbd]
    refine btoaBytes_ne_nil ?_
    have : ':' ∈ (method ++ ":" ++ pw).data := by
      simp [String.data_append]
    cases hu : (method ++ ":" ++ pw).data with
    | nil => rw [hu] at this; simp at this
    | cons c0 tl =>
      unfold utf8Enc
      rw [hu, List.map_cons, List.flatten_cons]
      intro he
      exact absurd (List.append_eq_nil.mp he).1 (utf8Ch_ne_nil c0)
  have hne : (⟨userinfoEnc (encodeBase64 (method ++ ":" ++ pw)).data⟩ : String) ≠ "" := by
    cases hbb : (encodeBase64 (method ++ ":" ++ pw)).data with
    | nil => exact absurd hbb hbne
    | cons c0 tl =>
      intro he
      exact userinfoEnc_cons_ne_nil c0 tl (congrArg String.data he)
  have hat : strIncludes ("ss://" ++ encodeBase64 (method ++ ":" ++ pw) ++ "@" ++ server ++
      ":" ++ natStr port) "@" = true := by
    refine containsSub_single_mem ?_
    simp [String.data_append]
  have hz : ¬((port : Int) = 0) := by exact_mod_cast hp0
  simp [urlToClashProxy, hurl, urlParams, hne, hat, hz, hp0, paramsGet, paramsHas,
        jSet, jSetF, jGet, jGetF, strEq, asStr, pg, jsNumberOfStr_natStr,
        parseQueryStr, splitAllC]

/-- C1 (amended): the round-trip that does hold. A VLESS descriptor
with the protocol's required fields (uuid, server, port, a TLS flag
and an SNI) survives encode-then-decode: the decoded structured proxy
carries the original uuid, server, port and SNI, the normalised
default network `tcp` and `tls: true`. A Shadowsocks descriptor only
partially survives: server and port round-trip, but the decoded
`cipher` is the whole base64 `method:password` userinfo blob (as the
URL parser percent-encodes it into the username) and the password is
lost — `decode(encode(d)) ≈ d` fails for the ss cipher/password
fields. -/
theorem roundtrip_amended :
    (∀ (nm uuid server sni : String) (port : Nat),
       isToken uuid = true → uuid ≠ "" → isToken server = true → server ≠ "" →
       isToken sni = true → sni ≠ "" → port ≠ 0 → port ≤ 65535 →
       (buildVlessUrlEnhanced (mkVlessProxy uuid server port true (some sni))).bind
           (fun u => urlToClashProxy u nm "vless") =
         some (jObj [("name", jStr nm), ("type", jStr "vless"), ("uuid", jStr uuid),
                     ("server", jStr server), ("port", jNum (port : Int)),
                     ("servername", jStr sni), ("network", jStr "tcp"),
                     ("tls", jBool true)])) ∧
    (∀ (nm method pw server : String) (port : Nat),
       method ≠ "" → pw ≠ "" → isToken server = true → server ≠ "" →
       port ≠ 0 → port ≤ 65535 →
       '/' ∉ (encodeBase64 (method ++ ":" ++ pw)).data →
       (buildShadowsocksUrlEnhanced (mkSsProxy method pw server port)).bind
           (fun u => urlToClashProxy u nm "ss") =
         some (jObj [("name", jStr nm), ("type", jStr "ss"),
                     ("uuid", jStr ⟨userinfoEnc (encodeBase64 (method ++ ":" ++ pw)).data⟩),
                     ("server", jStr server), ("port", jNum (port : Int)),
                     ("cipher", jStr ⟨userinfoEnc (encodeBase64 (method ++ ":" ++ pw)).data⟩)])) :=
  ⟨fun nm uuid server sni port h1 h2 h3 h4 h5 h6 h7 h8 =>
     roundtrip_vless nm uuid server sni port h1 h2 h3 h4 h5 h6 h7 h8,
   fun nm method pw server port h1 h2 h3 h4 h5 h6 h7 =>
     roundtrip_ss nm method pw server port h1 h2 h3 h4 h5 h6 h7⟩

set_option maxRecDepth 80000 in
/-- C1 witness: the amended round-trip applied at a concrete VLESS
descriptor and a concrete Shadowsocks descriptor. -/
theorem roundtrip_amended_witness :
    (buildVlessUrlEnhanced (mkVlessProxy "uid-1" "srv.com" 443 true (some "sni.com"))).bind
        (fun u => urlToClashProxy u "NM" "vless") =
      some (jObj [("name", jStr "NM"), ("type", jStr "vless"), ("uuid", jStr "uid-1"),
                  ("server", jStr "srv.com"), ("port", jNum 443),
                  ("servername", jStr "sni.com"), ("network", jStr "tcp"),
                  ("tls", jBool true)]) ∧
    (buildShadowsocksUrlEnhanced (mkSsProxy "aes-256-gcm" "abc" "1.2.3.4" 8388)).bind
        (fun u => urlToClashProxy u "NM" "ss") =
      some (jObj [("name", jStr "NM"), ("type", jStr "ss"),
                  ("uuid", jStr "YWVzLTI1Ni1nY206YWJj"),
                  ("server", jStr "1.2.3.4"), ("port", jNum 8388),
                  ("cipher", jStr "YWVzLTI1Ni1nY206YWJj")]) :=
  ⟨roundtrip_amended.1 "NM" "uid-1" "srv.com" "sni.com" 443 (by decide) (by decide)
     (by decide) (by decide) (by decide) (by decide) (by decide) (by decide),
   roundtrip_amended.2 "NM" "aes-256-gcm" "abc" "1.2.3.4" 8388 (by decide) (by decide)
     (by decide) (by decide) (by decide) (by decide) (by decide)⟩

end SubOne
